import Mathlib

/-!
# Betting backend: betting gate, balance commit, event bus and money-moving handlers

A shallow embedding of the Go packages `models`, `events` and `controllers`.

* Monetary values are `float32` in the source.  The file holds two readings of
  the money paths.  In the exact reading (`HandleDeposit`, `HandleWithdraw`,
  `processBet`, `processCashIn`, `Player.DeductBetAmount`,
  `models.UpdatePlayerBalance`) amounts are exact rationals and the conversions
  between `float64` and `float32` are the identity; it is used for the statements
  that are about exact arithmetic by their own words, and for the statements on
  which no rounding bears (gate, calls made, responses, events).  In the binary32
  reading (namespace `Binary32`) the same functions are embedded with every
  `float32` and `float64` operation rounded to nearest, ties to even, as IEEE 754
  prescribes; it is used wherever a committed value or a comparison of amounts is
  part of the statement.  A binary floating-point value is the rational it denotes;
  overflow to infinity needs amounts beyond 10^38 and is not modelled, except in
  the decoding of a request body, where it is an error.  Each arithmetic operation
  rounds on its own (no fused multiply-add).
* The database is the list of rows of the `players` table.  A failure of the
  driver (I/O error, lost connection) is an input of the model: `World.dbFaults`
  lists, for the successive database calls, whether the call fails and with which
  driver message.
* Every function of package `models` is one atomic operation on the world.  The
  handlers of package `controllers` are programs (`Prog`) whose steps are these
  operations, so that a handler can be run alone (`Prog.run`) or interleaved with
  another request (`Prog.step`).
* Each operation reports what it did as a list of `Event`s; the events of a run,
  in order, are the trace the statements about "calls" refer to.
* A run-time panic (a method call on a nil `error`) is the program `Prog.fault`: the
  run ends there with no value, that is, with no response written.
* The busy-wait loops that hold a handler until `PROCESSING_DURATION` has elapsed
  touch no state and are left out.  Timers are recorded as pending or stopped;
  their firing is a matter of real time and is not part of the model.  The receive
  loops of the streaming handlers run for a given number of iterations.
* A handler registered on the event bus is known by the session that registered
  it; `Emit` reports the `handler(data)` goroutines it starts and the model does
  not run them.
-/

namespace Backend

/-! ## Data model -/

/-- The struct `models.Player`, one row of the `players` table. -/
structure Player where
  ID : Int
  Password : String
  Name : String
  Wallet : ℚ
  BetBalance : ℚ
  IsBetting : Bool
deriving DecidableEq

/-- The method `(*Player).DeductBetAmount`: the bet is taken from the bet balance
first, what is missing is taken from the wallet. -/
def Player.DeductBetAmount (p : Player) (betAmount : ℚ) : Player :=
  if betAmount ≤ p.BetBalance then
    { p with BetBalance := p.BetBalance - betAmount }
  else
    { p with BetBalance := 0, Wallet := p.Wallet - (betAmount - p.BetBalance) }

/-! ## Binary floating point -/

/-- Rounding to the nearest integer, a tie to the even one. -/
def roundHalfEven (x : ℚ) : ℤ :=
  let f := ⌊x⌋
  if x - f < 1 / 2 then f
  else if 1 / 2 < x - f then f + 1
  else if f % 2 = 0 then f else f + 1

/-- Rounding to nearest, ties to even, into the binary format with `p` significant
bits and least normal exponent `emin`: the value is a multiple of the unit in the
last place of its binade (of the subnormal unit below `2 ^ emin`). -/
def binaryRound (p : ℕ) (emin : ℤ) (x : ℚ) : ℚ :=
  let e := max (Int.log 2 |x|) emin
  let ulp : ℚ := (2 : ℚ) ^ (e - (p - 1))
  roundHalfEven (x / ulp) * ulp

/-- The value of a `float32` operation or conversion whose exact result is `x`. -/
def f32 (x : ℚ) : ℚ :=
  binaryRound 24 (-126) x

/-- The value of a `float64` operation or conversion whose exact result is `x`. -/
def f64 (x : ℚ) : ℚ :=
  binaryRound 53 (-1022) x

/-- What `encoding/json` stores in a `float32` field for the JSON number `x`
(`strconv.ParseFloat(s, 32)`): the nearest binary32 value, and an error when that
is out of range. -/
def decodeFloat32 (x : ℚ) : Option ℚ :=
  if |f32 x| < 2 ^ 128 then some (f32 x) else none

/-- The struct `events.EventWalletData`. -/
structure EventWalletData where
  BetBalance : ℚ
  Wallet : ℚ
deriving DecidableEq

/-- An `events.EventHandler` is a closure in the source; the model keeps only its
identity (the session that registered it). -/
abbrev EventHandler := Nat

/-- The struct `events.EventEmitter` without its mutex: `listeners` is the map from
topic to the map from handler id to handler, both kept as association lists with
distinct keys.  The counter `nextID` is a Go `int`; it is kept as an unbounded
integer, since a run reaches the bound only after 2^63 subscriptions. -/
structure EventEmitter where
  listeners : List (String × List (Int × EventHandler))
  nextID : Int
deriving DecidableEq

/-- Map lookup `m[k]` with the comma-ok form: `none` when the key is absent. -/
def mapGet {κ ν : Type} [DecidableEq κ] (m : List (κ × ν)) (k : κ) : Option ν :=
  (m.find? (fun e => decide (e.1 = k))).map (fun e => e.2)

/-- Map removal `delete(m, k)`. -/
def mapDelete {κ ν : Type} [DecidableEq κ] (m : List (κ × ν)) (k : κ) : List (κ × ν) :=
  m.filter (fun e => !decide (e.1 = k))

/-- Map assignment `m[k] = v`: replaces the value of an existing key, adds the key
otherwise. -/
def mapSet {κ ν : Type} [DecidableEq κ] (m : List (κ × ν)) (k : κ) (v : ν) : List (κ × ν) :=
  if (mapGet m k).isSome then m.map (fun e => if e.1 = k then (k, v) else e)
  else m ++ [(k, v)]

/-- The constructor `events.NewEventEmitter`. -/
def NewEventEmitter : EventEmitter :=
  { listeners := [], nextID := 0 }

/-- The method `(*EventEmitter).On`: returns the handler id and the new registry. -/
def EventEmitter.On (e : EventEmitter) (event : String) (handler : EventHandler) :
    Int × EventEmitter :=
  let listeners :=
    if (mapGet e.listeners event).isNone then mapSet e.listeners event [] else e.listeners
  let id := e.nextID
  let handlers := (mapGet listeners event).getD []
  (id, { listeners := mapSet listeners event (mapSet handlers id handler),
         nextID := e.nextID + 1 })

/-- The method `(*EventEmitter).Off`. -/
def EventEmitter.Off (e : EventEmitter) (event : String) (id : Int) : EventEmitter :=
  match mapGet e.listeners event with
  | some handlers =>
    let handlers := mapDelete handlers id
    if handlers.length = 0 then { e with listeners := mapDelete e.listeners event }
    else { e with listeners := mapSet e.listeners event handlers }
  | none => e

/-- The method `(*EventEmitter).Emit`: the result lists the goroutines started, one
`handler(data)` per handler registered under the topic (Go ranges over the map in
no fixed order; the list is in registration order).  With no entry for the topic
only a log line is printed. -/
def EventEmitter.Emit (e : EventEmitter) (event : String) (data : EventWalletData) :
    List (EventHandler × EventWalletData) :=
  match mapGet e.listeners event with
  | some handlers => handlers.map (fun h => (h.2, data))
  | none => []

/-! ## Streaming connection and configuration -/

/-- A JSON value as `encoding/json` decodes it into `interface{}`; the content of
arrays and objects is never inspected by the handlers. -/
inductive JsonValue where
  | null
  | bool (b : Bool)
  | number (x : ℚ)
  | string (s : String)
  | array
  | object
deriving DecidableEq

/-- What `conn.ReadMessage` returns: a data frame (with what `helpers.JsonParser`
makes of its bytes, `none` when the bytes are not a JSON object), a close error
carrying the close code, or another read error. -/
inductive ReadResult where
  | message (messageType : Int) (parsedData : Option (List (String × JsonValue)))
  | closeError (code : Int)
  | otherError
deriving DecidableEq

/-- The struct `controllers.DiceRollResult`. -/
structure DiceRollResult where
  DiceNumber : Int := 0
  PlayerWin : Bool := false
  PlayerOriginalBet : String := ""
  PlayerMessage : String := ""
  Winnings : ℚ := 0
deriving DecidableEq

/-- The response map the streaming handlers send: `errorsList` is the optional key,
`result` the five keys `DiceNumber`, `PlayerWin`, `PlayerOriginalBet`,
`PlayerMessage`, `Winnings`, which are set together. -/
structure WSResponse where
  message : String
  code : Int
  errorsList : Option (List String) := none
  result : Option DiceRollResult := none
deriving DecidableEq

/-- The response map of the wallet session: the welcome message has no `code` key,
the update a balance event triggers has code 200. -/
structure WalletResponse where
  message : String
  status : String
  wallet : ℚ
  betBalance : ℚ
  code : Option Int := none
deriving DecidableEq

/-- The response of a request/response handler: the status line and the JSON body
`{message, amount?, newBalance?}`. -/
structure HTTPResponse where
  status : Nat
  message : String
  amount : Option ℚ := none
  newBalance : Option ℚ := none
deriving DecidableEq

/-- The variables of package `config` the handlers read. -/
structure Config where
  RIGGED_DICE_NUMBER : Int
  WINNING_MULTIPLIER : ℚ
  SOCKET_TIMEOUT_DURATION : ℚ

/-! ## The world and the trace -/

/-- What an operation did, with the answer it got. -/
inductive Event where
  | CheckPlayerBettingStatus (id : Int) (isBetting : Bool) (err : Option String)
  | UpdatePlayerBettingStatus (id : Int) (isBetting : Bool) (err : Option String)
  | GetPlayerByID (id : Int) (player : Option Player) (err : Option String)
  | balanceWrite (id : Int) (wallet betBalance : ℚ) (err : Option String)
  | Emit (event : String) (data : EventWalletData)
      (started : List (EventHandler × EventWalletData))
  | Intn (n : Int) (value : Int)
  | ReadMessage (res : ReadResult)
  | WriteMessage (messageType : Int) (response : WSResponse) (err : Option String)
  | WriteControl (closeCode : Int) (text : String)
  | AfterFunc (duration : ℚ) (timer : Nat)
  | Stop (timer : Nat)
  | Close
  | WriteWallet (response : WalletResponse) (err : Option String)
  | On (event : String) (handler : EventHandler) (id : Int)
  | Off (event : String) (id : Int)
  | Sleep (seconds : Int)
deriving DecidableEq

/-- Everything the handlers act on: the `players` table, `events.GlobalEmitter`, the
connection of the session, its timers, and the inputs the environment supplies
(driver failures, random numbers, incoming frames, write failures). -/
structure World where
  players : List Player := []
  emitter : EventEmitter := NewEventEmitter
  dbFaults : List (Option String) := []
  rolls : List Int := []
  inbox : List ReadResult := []
  writeFaults : List (Option String) := []
  timers : List (ℚ × Bool) := []
  closed : Bool := false
deriving DecidableEq

/-- The driver's answer to the next database call: `(some e, _)` when it fails with
message `e`.  An exhausted script means no further failure. -/
def World.nextFault (w : World) : Option String × World :=
  match w.dbFaults with
  | [] => (none, w)
  | f :: rest => (f, { w with dbFaults := rest })

/-- The row a `SELECT ... FROM players WHERE id = ?` scans: the first row with that
id, if any. -/
def selectRow (rows : List Player) (id : Int) : Option Player :=
  rows.find? (fun p => decide (p.ID = id))

/-- The statement `UPDATE players SET isBetting =? WHERE id =?`. -/
def setIsBetting (id : Int) (isBetting : Bool) (rows : List Player) : List Player :=
  rows.map (fun p => if p.ID = id then { p with IsBetting := isBetting } else p)

/-- The statement `UPDATE players SET wallet =?, betBalance =? WHERE id =?`. -/
def setBalances (id : Int) (wallet betBalance : ℚ) (rows : List Player) : List Player :=
  rows.map (fun p =>
    if p.ID = id then { p with Wallet := wallet, BetBalance := betBalance } else p)

/-! ## Package `models` -/

namespace models

/-- `math.Round`: nearest integer, halves away from zero. -/
def Round (x : ℚ) : ℤ :=
  if 0 ≤ x then ⌊x + 1 / 2⌋ else -⌊-x + 1 / 2⌋

/-- The expression `math.Round(v*100) / 100` of `UpdatePlayerBalance`. -/
def round2 (v : ℚ) : ℚ :=
  (Round (v * 100) : ℚ) / 100

/-- The format `fmt.Sprintf("BalanceUpdate_%d", playerId)`. -/
def balanceUpdateEvent (playerId : Int) : String :=
  "BalanceUpdate_" ++ toString playerId

/-- `models.CheckPlayerBettingStatus`: the result pair `(isBetting, err)`. -/
def CheckPlayerBettingStatus (id : Int) (w : World) :
    (Bool × Option String) × World × List Event :=
  let (fault, w1) := w.nextFault
  let res : Bool × Option String :=
    match fault with
    | some e => (false, some ("error checking player playing status: " ++ e))
    | none =>
      match selectRow w1.players id with
      | none => (false, some ("player with ID " ++ toString id ++ " not found"))
      | some p => (p.IsBetting, none)
  (res, w1, [Event.CheckPlayerBettingStatus id res.1 res.2])

/-- `models.UpdatePlayerBettingStatus`: an UPDATE that matches no row is not an
error. -/
def UpdatePlayerBettingStatus (id : Int) (isBetting : Bool) (w : World) :
    Option String × World × List Event :=
  let (fault, w1) := w.nextFault
  match fault with
  | some _ =>
    let err := some "player betting status was not updated"
    (err, w1, [Event.UpdatePlayerBettingStatus id isBetting err])
  | none =>
    (none,
     { w1 with players := setIsBetting id isBetting w1.players },
     [Event.UpdatePlayerBettingStatus id isBetting none])

/-- `models.GetPlayerByID`: the loaded row, or the error. -/
def GetPlayerByID (id : Int) (w : World) : Except String Player × World × List Event :=
  let (fault, w1) := w.nextFault
  match fault with
  | some e =>
    let err := "error fetching player: " ++ e
    (.error err, w1, [Event.GetPlayerByID id none (some err)])
  | none =>
    match selectRow w1.players id with
    | none =>
      let err := "player with ID " ++ toString id ++ " not found"
      (.error err, w1, [Event.GetPlayerByID id none (some err)])
    | some p => (.ok p, w1, [Event.GetPlayerByID id (some p) none])

/-- `models.UpdatePlayerBalance`: round, write both fields in one UPDATE, and after a
successful write emit the balance event.  The `balanceWrite` event is the UPDATE,
issued on every call. -/
def UpdatePlayerBalance (playerId : Int) (newWalletBalance newBetBalance : ℚ) (w : World) :
    Option String × World × List Event :=
  let newWalletBalance := round2 newWalletBalance
  let newBetBalance := round2 newBetBalance
  let (fault, w1) := w.nextFault
  match fault with
  | some e =>
    (some e, w1, [Event.balanceWrite playerId newWalletBalance newBetBalance (some e)])
  | none =>
    let w2 : World :=
      { w1 with players := setBalances playerId newWalletBalance newBetBalance w1.players }
    let event := balanceUpdateEvent playerId
    let betData : EventWalletData := { Wallet := newWalletBalance, BetBalance := newBetBalance }
    let started := w2.emitter.Emit event betData
    (none, w2,
     [Event.balanceWrite playerId newWalletBalance newBetBalance none,
      Event.Emit event betData started])

end models

namespace Binary32

/-- The expression `float32(math.Round(float64(v)*100) / 100)` of
`UpdatePlayerBalance` with its roundings: the product and the quotient are
`float64` operations, the result is converted to `float32`. -/
def round2 (v : ℚ) : ℚ :=
  f32 (f64 ((models.Round (f64 (f64 v * 100)) : ℚ) / 100))

/-- `models.UpdatePlayerBalance` in binary32: as the exact reading, with the values
that the source writes. -/
def UpdatePlayerBalance (playerId : Int) (newWalletBalance newBetBalance : ℚ) (w : World) :
    Option String × World × List Event :=
  let newWalletBalance := round2 newWalletBalance
  let newBetBalance := round2 newBetBalance
  let (fault, w1) := w.nextFault
  match fault with
  | some e =>
    (some e, w1, [Event.balanceWrite playerId newWalletBalance newBetBalance (some e)])
  | none =>
    let w2 : World :=
      { w1 with players := setBalances playerId newWalletBalance newBetBalance w1.players }
    let event := models.balanceUpdateEvent playerId
    let betData : EventWalletData := { Wallet := newWalletBalance, BetBalance := newBetBalance }
    let started := w2.emitter.Emit event betData
    (none, w2,
     [Event.balanceWrite playerId newWalletBalance newBetBalance none,
      Event.Emit event betData started])

end Binary32

/-! ## The connection and its timers -/

/-- `conn.ReadMessage`: the next result of the inbox; a connection with nothing
left to deliver fails with a transport error. -/
def World.ReadMessage (w : World) : ReadResult × World × List Event :=
  match w.inbox with
  | [] => (.otherError, w, [Event.ReadMessage .otherError])
  | r :: rest => (r, { w with inbox := rest }, [Event.ReadMessage r])

/-- `conn.WriteMessage`: fails when the environment says so. -/
def World.WriteMessage (messageType : Int) (response : WSResponse) (w : World) :
    Option String × World × List Event :=
  match w.writeFaults with
  | [] => (none, w, [Event.WriteMessage messageType response none])
  | f :: rest =>
    (f, { w with writeFaults := rest }, [Event.WriteMessage messageType response f])

/-- `conn.WriteMessage` with a response of the wallet session: fails when the
environment says so. -/
def World.WriteWallet (response : WalletResponse) (w : World) :
    Option String × World × List Event :=
  match w.writeFaults with
  | [] => (none, w, [Event.WriteWallet response none])
  | f :: rest => (f, { w with writeFaults := rest }, [Event.WriteWallet response f])

/-- The call `events.GlobalEmitter.On(event, handler)`: the result is the handler
id. -/
def World.On (event : String) (handler : EventHandler) (w : World) :
    Int × World × List Event :=
  ((w.emitter.On event handler).1, { w with emitter := (w.emitter.On event handler).2 },
   [Event.On event handler (w.emitter.On event handler).1])

/-- The call `events.GlobalEmitter.Off(event, id)`. -/
def World.Off (event : String) (id : Int) (w : World) : World × List Event :=
  ({ w with emitter := w.emitter.Off event id }, [Event.Off event id])

/-- `time.AfterFunc`: a new pending timer; the result is its handle. -/
def World.AfterFunc (duration : ℚ) (w : World) : Nat × World × List Event :=
  (w.timers.length, { w with timers := w.timers ++ [(duration, true)] },
   [Event.AfterFunc duration w.timers.length])

/-- `(*time.Timer).Stop`: the timer of that handle is no longer pending. -/
def World.Stop (timer : Nat) (w : World) : World × List Event :=
  ({ w with timers := w.timers.modify (fun t => (t.1, false)) timer }, [Event.Stop timer])

/-- `rand.Intn(n)`: a value in `[0, n)` chosen by the environment. -/
def World.Intn (n : Int) (w : World) : Int × World × List Event :=
  match w.rolls with
  | [] => (0, w, [Event.Intn n 0])
  | r :: rest => (r % n, { w with rolls := rest }, [Event.Intn n (r % n)])

/-- `websocket.IsUnexpectedCloseError(err, expectedCodes...)` of the gorilla
library: true exactly for a close error whose code is not one of the expected
codes. -/
def IsUnexpectedCloseError (err : ReadResult) (expectedCodes : List Int) : Bool :=
  match err with
  | .closeError code => !expectedCodes.contains code
  | _ => false

/-- The constant `websocket.CloseGoingAway`. -/
def CloseGoingAway : Int := 1001

/-- The constant `websocket.ClosePolicyViolation`. -/
def ClosePolicyViolation : Int := 1008

/-- The constant `websocket.TextMessage`. -/
def TextMessage : Int := 1

/-! ## Handler programs -/

/-- A handler as the sequence of operations it performs, each with the continuation
that receives the answer.  `fault` is a run-time panic: the handler stops there
and writes nothing further. -/
inductive Prog (α : Type) : Type where
  | ret (a : α)
  | fault
  | CheckPlayerBettingStatus (id : Int) (k : Bool × Option String → Prog α)
  | UpdatePlayerBettingStatus (id : Int) (isBetting : Bool) (k : Option String → Prog α)
  | GetPlayerByID (id : Int) (k : Except String Player → Prog α)
  | UpdatePlayerBalance (playerId : Int) (newWalletBalance newBetBalance : ℚ)
      (k : Option String → Prog α)
  | Intn (n : Int) (k : Int → Prog α)
  | ReadMessage (k : ReadResult → Prog α)
  | WriteMessage (messageType : Int) (response : WSResponse) (k : Option String → Prog α)
  | WriteControl (closeCode : Int) (text : String) (k : Unit → Prog α)
  | AfterFunc (duration : ℚ) (k : Nat → Prog α)
  | Stop (timer : Nat) (k : Unit → Prog α)
  | Close (k : Unit → Prog α)
  | WriteWallet (response : WalletResponse) (k : Option String → Prog α)
  | On (event : String) (handler : EventHandler) (k : Int → Prog α)
  | Off (event : String) (id : Int) (k : Unit → Prog α)
  | Sleep (seconds : Int) (k : Unit → Prog α)
  | UpdatePlayerBalance32 (playerId : Int) (newWalletBalance newBetBalance : ℚ)
      (k : Option String → Prog α)

/-- Sequencing: run `p`, then `f` on its result. -/
def Prog.bind {α β : Type} : Prog α → (α → Prog β) → Prog β
  | .ret a, f => f a
  | .fault, _ => .fault
  | .CheckPlayerBettingStatus id k, f => .CheckPlayerBettingStatus id (fun r => (k r).bind f)
  | .UpdatePlayerBettingStatus id b k, f =>
    .UpdatePlayerBettingStatus id b (fun r => (k r).bind f)
  | .GetPlayerByID id k, f => .GetPlayerByID id (fun r => (k r).bind f)
  | .UpdatePlayerBalance id x y k, f => .UpdatePlayerBalance id x y (fun r => (k r).bind f)
  | .Intn n k, f => .Intn n (fun r => (k r).bind f)
  | .ReadMessage k, f => .ReadMessage (fun r => (k r).bind f)
  | .WriteMessage t m k, f => .WriteMessage t m (fun r => (k r).bind f)
  | .WriteControl c t k, f => .WriteControl c t (fun r => (k r).bind f)
  | .AfterFunc d k, f => .AfterFunc d (fun r => (k r).bind f)
  | .Stop t k, f => .Stop t (fun r => (k r).bind f)
  | .Close k, f => .Close (fun r => (k r).bind f)
  | .WriteWallet m k, f => .WriteWallet m (fun r => (k r).bind f)
  | .On ev h k, f => .On ev h (fun r => (k r).bind f)
  | .Off ev i k, f => .Off ev i (fun r => (k r).bind f)
  | .Sleep d k, f => .Sleep d (fun r => (k r).bind f)
  | .UpdatePlayerBalance32 id x y k, f =>
    .UpdatePlayerBalance32 id x y (fun r => (k r).bind f)

/-- One operation of a program: the rest of the program, the world after the
operation, and the events of the operation.  A finished program does not move. -/
def Prog.step {α : Type} : Prog α → World → Prog α × World × List Event
  | .ret a, w => (.ret a, w, [])
  | .fault, w => (.fault, w, [])
  | .CheckPlayerBettingStatus id k, w =>
    let r := models.CheckPlayerBettingStatus id w
    (k r.1, r.2.1, r.2.2)
  | .UpdatePlayerBettingStatus id b k, w =>
    let r := models.UpdatePlayerBettingStatus id b w
    (k r.1, r.2.1, r.2.2)
  | .GetPlayerByID id k, w =>
    let r := models.GetPlayerByID id w
    (k r.1, r.2.1, r.2.2)
  | .UpdatePlayerBalance id x y k, w =>
    let r := models.UpdatePlayerBalance id x y w
    (k r.1, r.2.1, r.2.2)
  | .Intn n k, w =>
    let r := w.Intn n
    (k r.1, r.2.1, r.2.2)
  | .ReadMessage k, w =>
    let r := w.ReadMessage
    (k r.1, r.2.1, r.2.2)
  | .WriteMessage t m k, w =>
    let r := w.WriteMessage t m
    (k r.1, r.2.1, r.2.2)
  | .WriteControl c t k, w => (k (), w, [Event.WriteControl c t])
  | .AfterFunc d k, w =>
    let r := w.AfterFunc d
    (k r.1, r.2.1, r.2.2)
  | .Stop t k, w =>
    let r := w.Stop t
    (k (), r.1, r.2)
  | .Close k, w => (k (), { w with closed := true }, [Event.Close])
  | .WriteWallet m k, w =>
    let r := w.WriteWallet m
    (k r.1, r.2.1, r.2.2)
  | .On ev h k, w =>
    let r := w.On ev h
    (k r.1, r.2.1, r.2.2)
  | .Off ev i k, w =>
    let r := w.Off ev i
    (k (), r.1, r.2)
  | .Sleep d k, w => (k (), w, [Event.Sleep d])
  | .UpdatePlayerBalance32 id x y k, w =>
    let r := Binary32.UpdatePlayerBalance id x y w
    (k r.1, r.2.1, r.2.2)

/-- The result of running a handler to its end: the value it produced (`none` when
it panicked), the world it leaves, and the events of the run in order. -/
structure Outcome (α : Type) where
  value : Option α
  world : World
  trace : List Event

/-- Puts the events of an earlier operation in front of the trace. -/
def Outcome.after {α : Type} (evs : List Event) (o : Outcome α) : Outcome α :=
  { o with trace := evs ++ o.trace }

/-- Runs a handler alone, from the first operation to the last. -/
def Prog.run {α : Type} : Prog α → World → Outcome α
  | .ret a, w => { value := some a, world := w, trace := [] }
  | .fault, w => { value := none, world := w, trace := [] }
  | .CheckPlayerBettingStatus id k, w =>
    let r := models.CheckPlayerBettingStatus id w
    ((k r.1).run r.2.1).after r.2.2
  | .UpdatePlayerBettingStatus id b k, w =>
    let r := models.UpdatePlayerBettingStatus id b w
    ((k r.1).run r.2.1).after r.2.2
  | .GetPlayerByID id k, w =>
    let r := models.GetPlayerByID id w
    ((k r.1).run r.2.1).after r.2.2
  | .UpdatePlayerBalance id x y k, w =>
    let r := models.UpdatePlayerBalance id x y w
    ((k r.1).run r.2.1).after r.2.2
  | .Intn n k, w =>
    let r := w.Intn n
    ((k r.1).run r.2.1).after r.2.2
  | .ReadMessage k, w =>
    let r := w.ReadMessage
    ((k r.1).run r.2.1).after r.2.2
  | .WriteMessage t m k, w =>
    let r := w.WriteMessage t m
    ((k r.1).run r.2.1).after r.2.2
  | .WriteControl c t k, w => ((k ()).run w).after [Event.WriteControl c t]
  | .AfterFunc d k, w =>
    let r := w.AfterFunc d
    ((k r.1).run r.2.1).after r.2.2
  | .Stop t k, w =>
    let r := w.Stop t
    ((k ()).run r.1).after r.2
  | .Close k, w => ((k ()).run { w with closed := true }).after [Event.Close]
  | .WriteWallet m k, w =>
    let r := w.WriteWallet m
    ((k r.1).run r.2.1).after r.2.2
  | .On ev h k, w =>
    let r := w.On ev h
    ((k r.1).run r.2.1).after r.2.2
  | .Off ev i k, w =>
    let r := w.Off ev i
    ((k ()).run r.1).after r.2
  | .Sleep d k, w => ((k ()).run w).after [Event.Sleep d]
  | .UpdatePlayerBalance32 id x y k, w =>
    let r := Binary32.UpdatePlayerBalance id x y w
    ((k r.1).run r.2.1).after r.2.2

/-- The expression `err.Error()` inside a response: calling it on a nil `err`
panics, otherwise the program goes on with the message. -/
def errorText {α : Type} (err : Option String) (k : String → Prog α) : Prog α :=
  match err with
  | none => .fault
  | some m => k m

/-! ## Package `middleware` -/

/-- `middleware.AuthenticateUser`.  `token` is the outcome of the checks on the
Authorization header and on the JWT: the error they end in, or the `id` claim.  The
player is then loaded from the store. -/
def AuthenticateUser (token : Except String Int) : Prog (Except String Player) :=
  match token with
  | .error e => .ret (.error e)
  | .ok playerID =>
    .GetPlayerByID playerID fun res =>
    match res with
    | .error _ => .ret (.error "player not found")
    | .ok player => .ret (.ok player)

/-! ## Package `controllers`: the wallet session -/

/-- The conversion `time.Duration(x)` of a `float32`: the fraction is dropped,
towards zero. -/
def truncate (x : ℚ) : Int :=
  if 0 ≤ x then ⌊x⌋ else ⌈x⌉

/-- What the handler that `HandleWalletWS` registers sends to its client when a
balance event is dispatched to it. -/
def walletUpdateResponse (balanceData : EventWalletData) : WalletResponse :=
  { message := "Wallet / BetBalance Updated", status := "success",
    wallet := balanceData.Wallet, betBalance := balanceData.BetBalance, code := some 200 }

/-- `controllers.HandleWalletWS`: `upgraded` says whether the upgrade to a WebSocket
succeeded, `session` is the identity of the handler closure the session registers
(the closure sends `walletUpdateResponse` on the connection of the session).  The
welcome map holds strings and numbers only, so `JsonStringifier` does not fail on
it.  The result is true when the connection was closed by the handler. -/
def HandleWalletWS (cfg : Config) (upgraded : Bool) (token : Except String Int)
    (session : EventHandler) : Prog Bool :=
  if !upgraded then .ret false
  else
  (AuthenticateUser token).bind fun auth =>
  match auth with
  | .error e =>
    .WriteMessage TextMessage { message := e, code := 401 } fun _ =>
    .WriteControl ClosePolicyViolation "No auth token provided" fun _ =>
    .Close fun _ => .ret true
  | .ok player =>
  .WriteWallet { message := "Wallet and bet balance retrieved with success!",
                 status := "success", wallet := player.Wallet,
                 betBalance := player.BetBalance } fun writeMessageErr =>
  if writeMessageErr ≠ none then .ret false
  else
  let balanceUpdateEvent := "BalanceUpdate_" ++ toString player.ID
  .On balanceUpdateEvent session fun handlerId =>
  .Sleep (truncate cfg.SOCKET_TIMEOUT_DURATION) fun _ =>
  .Off balanceUpdateEvent handlerId fun _ =>
  .Close fun _ => .ret true

/-! ## Package `controllers`: deposit and withdraw -/

/-- An HTTP request as the handlers see it: the method, the outcome of the token
checks, and the amount field of the decoded body (`none` when `Decode` fails; an
absent field decodes to 0). -/
structure Request where
  Method : String
  token : Except String Int
  body : Option ℚ

/-- `controllers.HandleDeposit`.  The variable `err` is nil after a successful
`Decode` and is assigned again only by `GetPlayerByID` and `UpdatePlayerBalance`. -/
def HandleDeposit (r : Request) : Prog HTTPResponse :=
  if r.Method ≠ "POST" then
    .ret { status := 405, message := "Method not supported" }
  else
  (AuthenticateUser r.token).bind fun auth =>
  match auth with
  | .error e => .ret { status := 401, message := e }
  | .ok player =>
  match r.body with
  | none => .ret { status := 400, message := "Request is missing data (amountToDeposit)" }
  | some AmountToDeposit =>
  let err : Option String := none
  if AmountToDeposit ≤ 0 then
    .ret { status := 400, message := "Deposit must be above 0" }
  else
  if AmountToDeposit > 1000000 then
    .ret { status := 400,
           message := "Deposit must be below or equal to 1.000.000 (you can\x27t be that rich!)" }
  else
  .CheckPlayerBettingStatus player.ID fun (isBetting, checkPlayerBettingStatusErr) =>
  if checkPlayerBettingStatusErr ≠ none then
    errorText err fun m => .ret { status := 500, message := m }
  else
  if isBetting then
    .ret { status := 409, message := "Cannot deposit while player is in Betting Process" }
  else
  .UpdatePlayerBettingStatus player.ID true fun updateBettingStatusError =>
  if updateBettingStatusError ≠ none then
    errorText err fun m => .ret { status := 500, message := m }
  else
  .GetPlayerByID player.ID fun res =>
  match res with
  | .error e => .ret { status := 500, message := e }
  | .ok player =>
  .UpdatePlayerBalance player.ID (player.Wallet + AmountToDeposit) player.BetBalance fun err =>
  match err with
  | some e => .ret { status := 500, message := e }
  | none =>
  .UpdatePlayerBettingStatus player.ID false fun updateBettingStatusError =>
  if updateBettingStatusError ≠ none then
    errorText err fun m => .ret { status := 500, message := m }
  else
  .ret { status := 200, message := "Deposit successful",
         amount := some AmountToDeposit,
         newBalance := some (player.Wallet + AmountToDeposit) }

/-- `controllers.HandleWithdraw`. -/
def HandleWithdraw (r : Request) : Prog HTTPResponse :=
  if r.Method ≠ "POST" then
    .ret { status := 405, message := "Method not supported" }
  else
  (AuthenticateUser r.token).bind fun auth =>
  match auth with
  | .error e => .ret { status := 401, message := e }
  | .ok player =>
  match r.body with
  | none => .ret { status := 400, message := "Request is missing data (amountToWithdraw)" }
  | some AmountToWithdraw =>
  if AmountToWithdraw ≤ 0 then
    .ret { status := 400, message := "Withdraw amount must be greater than 0" }
  else
  .CheckPlayerBettingStatus player.ID fun (isBetting, checkPlayerBettingStatusErr) =>
  if checkPlayerBettingStatusErr ≠ none then
    errorText checkPlayerBettingStatusErr fun m => .ret { status := 500, message := m }
  else
  if isBetting then
    .ret { status := 409, message := "Cannot withdraw while player is in Betting Process" }
  else
  .UpdatePlayerBettingStatus player.ID true fun updateBettingStatusError =>
  if updateBettingStatusError ≠ none then
    errorText updateBettingStatusError fun m => .ret { status := 500, message := m }
  else
  .GetPlayerByID player.ID fun res =>
  match res with
  | .error e => .ret { status := 500, message := e }
  | .ok player =>
  if player.Wallet < AmountToWithdraw then
    .UpdatePlayerBettingStatus player.ID false fun _ =>
    .ret { status := 400, message := "Insufficient funds for withdrawal" }
  else
  .UpdatePlayerBalance player.ID (player.Wallet - AmountToWithdraw) player.BetBalance fun err =>
  match err with
  | some e => .ret { status := 500, message := e }
  | none =>
  .UpdatePlayerBettingStatus player.ID false fun updateBettingStatusError =>
  if updateBettingStatusError ≠ none then
    errorText updateBettingStatusError fun m => .ret { status := 500, message := m }
  else
  .ret { status := 200, message := "Withdrawal successful",
         amount := some AmountToWithdraw,
         newBalance := some (player.Wallet - AmountToWithdraw) }

/-! ## Package `controllers`: place-bet and cash-in -/

/-- The type assertion `v.(string)` in its comma-ok form, on a map entry that may be
absent. -/
def asString (v : Option JsonValue) : String × Bool :=
  match v with
  | some (.string s) => (s, true)
  | _ => ("", false)

/-- The type assertion `v.(float64)` in its comma-ok form. -/
def asFloat64 (v : Option JsonValue) : ℚ × Bool :=
  match v with
  | some (.number x) => (x, true)
  | _ => (0, false)

/-- How an iteration of a receive loop ends: `next` goes back to `ReadMessage` with
the timer the variable `timeout` now holds, `leave` is `break`. -/
inductive LoopStep where
  | next (timeout : Nat)
  | leave
deriving DecidableEq

/-- The dice of a bet: `rand.Intn(6) + 1`, replaced by `RIGGED_DICE_NUMBER` when that
is not 0 (`n` is the value `rand.Intn(6)` returned). -/
def rolledDiceNumber (cfg : Config) (n : Int) : Int :=
  let RolledDiceNumber := n + 1
  if cfg.RIGGED_DICE_NUMBER ≠ 0 then cfg.RIGGED_DICE_NUMBER else RolledDiceNumber

/-- The expression `playerWon` of `processBet`; `%` is Go\x27s truncated remainder. -/
def playerWon (RolledDiceNumber : Int) (betType : String) : Bool :=
  (decide (Int.tmod RolledDiceNumber 2 = 0) && decide (betType = "pair")) ||
  (decide (Int.tmod RolledDiceNumber 2 ≠ 0) && decide (betType = "not pair"))

/-- The player record after the outcome is applied: a win credits the bet balance
with `betAmount * WINNING_MULTIPLIER`, a loss changes nothing further. -/
def creditWinnings (cfg : Config) (player : Player) (betAmount : ℚ) (won : Bool) : Player :=
  if won then
    { player with BetBalance := player.BetBalance + betAmount * cfg.WINNING_MULTIPLIER }
  else player

/-- The `DiceRollResult` of a bet. -/
def rollResult (cfg : Config) (RolledDiceNumber : Int) (betType : String) (betAmount : ℚ)
    (won : Bool) : DiceRollResult :=
  if won then
    { DiceNumber := RolledDiceNumber, PlayerOriginalBet := betType,
      PlayerMessage := "You\x27ve Won :)",
      Winnings := betAmount * cfg.WINNING_MULTIPLIER, PlayerWin := true }
  else
    { DiceNumber := RolledDiceNumber, PlayerOriginalBet := betType,
      PlayerMessage := "You\x27ve Lost :(",
      Winnings := -betAmount, PlayerWin := false }

/-- `controllers.processBet`: the result pair `(DiceRollResult, error)`. -/
def processBet (cfg : Config) (playerId : Int) (betAmount : ℚ) (betType : String) :
    Prog (DiceRollResult × Option String) :=
  .GetPlayerByID playerId fun res =>
  match res with
  | .error _ => .ret ({}, some "Error getting player info for bet processing")
  | .ok player =>
  if betAmount > player.BetBalance + player.Wallet then
    .ret ({}, some "betAmount exceeds player\x27s balance and bet balance")
  else
  let player := player.DeductBetAmount betAmount
  .Intn 6 fun n =>
  let RolledDiceNumber := rolledDiceNumber cfg n
  let won := playerWon RolledDiceNumber betType
  let player := creditWinnings cfg player betAmount won
  let diceRollResult := rollResult cfg RolledDiceNumber betType betAmount won
  .UpdatePlayerBalance player.ID player.Wallet player.BetBalance fun updateBalanceError =>
  match updateBalanceError with
  | some e => .ret ({}, some e)
  | none => .ret (diceRollResult, none)

/-- The checks `HandlePlayWS` makes on `betType` and `betAmount` of a parsed message,
in their order: the error list they leave. -/
def playValidation (parsedData : List (String × JsonValue)) : List String :=
  let errorList : List String := []
  let (betType, betTypeIsString) := asString (mapGet parsedData "betType")
  let errorList :=
    if !betTypeIsString then errorList ++ ["Invalid or missing betType"] else errorList
  let errorList :=
    if betType ≠ "pair" ∧ betType ≠ "not pair" then
      errorList ++ ["betType must be \x27pair\x27 or \x27not pair\x27"]
    else errorList
  let (betAmount64, betAmountIsFloat64) := asFloat64 (mapGet parsedData "betAmount")
  let errorList :=
    if !betAmountIsFloat64 then errorList ++ ["Invalid or missing betAmount"] else errorList
  let betAmount32 : ℚ := betAmount64
  let errorList :=
    if betAmount32 ≤ 0 then errorList ++ ["betAmount must be greater than 0"] else errorList
  errorList

/-- The two appends both streaming handlers make after `CheckPlayerBettingStatus`:
the lookup error, then the gate-busy entry. -/
def gateErrors (errorList : List String) (isAlreadyBetting : Bool)
    (errCheckingStatus : Option String) : List String :=
  let errorList :=
    match errCheckingStatus with
    | some e => errorList ++ [e]
    | none => errorList
  let errorList :=
    if isAlreadyBetting then
      errorList ++ ["Player already betting, please await the bet processing..."]
    else errorList
  errorList

/-- The response of `HandlePlayWS` once the error list is final. -/
def playResponse (errorList : List String) (result : Option DiceRollResult) : WSResponse :=
  if errorList.length > 0 then
    { message := "Error creating bet, check error list", code := 400,
      errorsList := some errorList, result := result }
  else
    { message := "Bet placed successfully", code := 200, result := result }

/-- The end of an iteration in both streaming handlers: the response is written; a
write error leaves the loop, otherwise a new idle timer is armed. -/
def sendResponse (cfg : Config) (messageType : Int) (response : WSResponse) : Prog LoopStep :=
  .WriteMessage messageType response fun writingMessageErr =>
  if writingMessageErr ≠ none then .ret .leave
  else .AfterFunc cfg.SOCKET_TIMEOUT_DURATION fun t => .ret (.next t)

/-- The body of the receive loop of `controllers.HandlePlayWS` for a frame that was
read without error, from the default response to the re-armed timer. -/
def playMessage (cfg : Config) (player : Player) (timeout : Nat) (messageType : Int)
    (parsedData : Option (List (String × JsonValue))) : Prog LoopStep :=
  match parsedData with
  | none =>
    .WriteMessage messageType
      { message := "Invalid JSON", code := 400,
        errorsList := some ["Invalid JSON received"] } fun _ =>
    .ret (.next timeout)
  | some parsedData =>
  let betType := (asString (mapGet parsedData "betType")).1
  let betAmount32 : ℚ := (asFloat64 (mapGet parsedData "betAmount")).1
  let errorList := playValidation parsedData
  .CheckPlayerBettingStatus player.ID fun (isAlreadyBetting, errCheckingStatus) =>
  let errorList := gateErrors errorList isAlreadyBetting errCheckingStatus
  if !isAlreadyBetting ∧ errCheckingStatus = none ∧ errorList.length = 0 then
    .UpdatePlayerBettingStatus player.ID true fun _ =>
    (processBet cfg player.ID betAmount32 betType).bind fun (diceRollResult, err) =>
    .UpdatePlayerBettingStatus player.ID false fun _ =>
    match err with
    | some e => sendResponse cfg messageType (playResponse (errorList ++ [e]) none)
    | none => sendResponse cfg messageType (playResponse errorList (some diceRollResult))
  else sendResponse cfg messageType (playResponse errorList none)

/-- `controllers.processCashIn`. -/
def processCashIn (id : Int) (cashInAmount : ℚ) : Prog (Option String) :=
  .GetPlayerByID id fun res =>
  match res with
  | .error e => .ret (some e)
  | .ok player =>
  if player.BetBalance < cashInAmount then
    .ret (some "Player does not have enough bet Balance to cash In")
  else
  .UpdatePlayerBalance id (player.Wallet + cashInAmount) (player.BetBalance - cashInAmount)
    fun updatingBalanceError =>
  match updatingBalanceError with
  | some e => .ret (some e)
  | none => .ret none

/-- The checks `HandleEndPlayWS` makes on `cashInAmount` of a parsed message: the
error list they leave. -/
def cashInValidation (parsedData : List (String × JsonValue)) : List String :=
  let errorList : List String := []
  let (cashInAmount64, cashInAmountIsFloat64) := asFloat64 (mapGet parsedData "cashInAmount")
  let errorList :=
    if !cashInAmountIsFloat64 then errorList ++ ["Invalid cashInAmount Type"] else errorList
  let cashInAmount32 : ℚ := cashInAmount64
  let errorList :=
    if cashInAmount32 ≤ 0 then
      errorList ++ ["Invalid cashInAmount, it must be more than zero"]
    else errorList
  errorList

/-- The response of `HandleEndPlayWS` once the error list is final. -/
def cashInResponse (errorList : List String) : WSResponse :=
  if errorList.length > 0 then
    { message := "Error cashing bet balance, check error list", code := 400,
      errorsList := some errorList }
  else
    { message := "Cash In Successful", code := 200 }

/-- The body of the receive loop of `controllers.HandleEndPlayWS` for a frame that
was read without error, from `timeout.Stop()` to the re-armed timer. -/
def endPlayMessage (cfg : Config) (player : Player) (timeout : Nat) (messageType : Int)
    (parsedData : Option (List (String × JsonValue))) : Prog LoopStep :=
  .Stop timeout fun _ =>
  match parsedData with
  | none =>
    .WriteMessage messageType
      { message := "Invalid JSON", code := 400,
        errorsList := some ["Invalid JSON received"] } fun _ =>
    .ret (.next timeout)
  | some parsedData =>
  let cashInAmount32 : ℚ := (asFloat64 (mapGet parsedData "cashInAmount")).1
  let errorList := cashInValidation parsedData
  .CheckPlayerBettingStatus player.ID fun (isAlreadyBetting, errCheckingStatus) =>
  let errorList := gateErrors errorList isAlreadyBetting errCheckingStatus
  if !isAlreadyBetting ∧ errCheckingStatus = none then
    .UpdatePlayerBettingStatus player.ID true fun _ =>
    (processCashIn player.ID cashInAmount32).bind fun err =>
    .UpdatePlayerBettingStatus player.ID false fun _ =>
    match err with
    | some e => sendResponse cfg messageType (cashInResponse (errorList ++ [e]))
    | none => sendResponse cfg messageType (cashInResponse errorList)
  else sendResponse cfg messageType (cashInResponse errorList)

/-- The receive loop of `controllers.HandlePlayWS`, for at most `fuel` iterations.
The result is true when the loop was left, false when the iterations ran out with
the loop still receiving. -/
def playLoop (cfg : Config) (player : Player) : Nat → Nat → Prog Bool
  | 0, _ => .ret false
  | fuel + 1, timeout =>
    .ReadMessage fun res =>
    .Stop timeout fun _ =>
    match res with
    | .message messageType parsedData =>
      (playMessage cfg player timeout messageType parsedData).bind fun s =>
      match s with
      | .next timeout => playLoop cfg player fuel timeout
      | .leave => .ret true
    | readMessageErr =>
      if IsUnexpectedCloseError readMessageErr [CloseGoingAway] then .ret true
      else playLoop cfg player fuel timeout

/-- `controllers.HandlePlayWS`: `upgraded` says whether the upgrade to a WebSocket
succeeded.  The result is true when the handler returned within `fuel` iterations
of its loop. -/
def HandlePlayWS (cfg : Config) (upgraded : Bool) (token : Except String Int) (fuel : Nat) :
    Prog Bool :=
  if !upgraded then .ret true
  else
  (AuthenticateUser token).bind fun auth =>
  match auth with
  | .error e =>
    .WriteMessage TextMessage { message := e, code := 401 } fun _ =>
    .WriteControl ClosePolicyViolation "No auth token provided" fun _ =>
    .Close fun _ => .ret true
  | .ok player =>
  .AfterFunc cfg.SOCKET_TIMEOUT_DURATION fun timeout =>
  (playLoop cfg player fuel timeout).bind fun left =>
  if left then .Close fun _ => .ret true else .ret false

/-- The receive loop of `controllers.HandleEndPlayWS`, for at most `fuel`
iterations. -/
def endPlayLoop (cfg : Config) (player : Player) : Nat → Nat → Prog Bool
  | 0, _ => .ret false
  | fuel + 1, timeout =>
    .ReadMessage fun res =>
    match res with
    | .message messageType parsedData =>
      (endPlayMessage cfg player timeout messageType parsedData).bind fun s =>
      match s with
      | .next timeout => endPlayLoop cfg player fuel timeout
      | .leave => .ret true
    | readMessageErr =>
      if IsUnexpectedCloseError readMessageErr [CloseGoingAway] then .ret true
      else endPlayLoop cfg player fuel timeout

/-- `controllers.HandleEndPlayWS`. -/
def HandleEndPlayWS (cfg : Config) (upgraded : Bool) (token : Except String Int)
    (fuel : Nat) : Prog Bool :=
  if !upgraded then .ret true
  else
  (AuthenticateUser token).bind fun auth =>
  match auth with
  | .error e =>
    .WriteMessage TextMessage { message := e, code := 401 } fun _ =>
    .WriteControl ClosePolicyViolation "No auth token provided" fun _ =>
    .Close fun _ => .ret true
  | .ok player =>
  .AfterFunc cfg.SOCKET_TIMEOUT_DURATION fun timeout =>
  (endPlayLoop cfg player fuel timeout).bind fun left =>
  if left then .Close fun _ => .ret true else .ret false

/-! ## The money paths in binary32 -/

namespace Binary32

/-- The method `(*Player).DeductBetAmount` with its `float32` subtractions. -/
def DeductBetAmount (p : Player) (betAmount : ℚ) : Player :=
  if betAmount ≤ p.BetBalance then
    { p with BetBalance := f32 (p.BetBalance - betAmount) }
  else
    let remaining := f32 (betAmount - p.BetBalance)
    { p with BetBalance := 0, Wallet := f32 (p.Wallet - remaining) }

/-- The player record after the outcome is applied: a win credits the bet balance
with the `float32` product `betAmount * WINNING_MULTIPLIER`, in a `float32`
addition. -/
def creditWinnings (cfg : Config) (player : Player) (betAmount : ℚ) (won : Bool) : Player :=
  if won then
    { player with
      BetBalance := f32 (player.BetBalance + f32 (betAmount * cfg.WINNING_MULTIPLIER)) }
  else player

/-- The `DiceRollResult` of a bet, `Winnings` being a `float32`. -/
def rollResult (cfg : Config) (RolledDiceNumber : Int) (betType : String) (betAmount : ℚ)
    (won : Bool) : DiceRollResult :=
  if won then
    { DiceNumber := RolledDiceNumber, PlayerOriginalBet := betType,
      PlayerMessage := "You\x27ve Won :)",
      Winnings := f32 (betAmount * cfg.WINNING_MULTIPLIER), PlayerWin := true }
  else
    { DiceNumber := RolledDiceNumber, PlayerOriginalBet := betType,
      PlayerMessage := "You\x27ve Lost :(",
      Winnings := -betAmount, PlayerWin := false }

/-- `controllers.processBet` in binary32: the guard compares the amount with the
`float32` sum of bet balance and wallet. -/
def processBet (cfg : Config) (playerId : Int) (betAmount : ℚ) (betType : String) :
    Prog (DiceRollResult × Option String) :=
  .GetPlayerByID playerId fun res =>
  match res with
  | .error _ => .ret ({}, some "Error getting player info for bet processing")
  | .ok player =>
  if betAmount > f32 (player.BetBalance + player.Wallet) then
    .ret ({}, some "betAmount exceeds player\x27s balance and bet balance")
  else
  let player := DeductBetAmount player betAmount
  .Intn 6 fun n =>
  let RolledDiceNumber := rolledDiceNumber cfg n
  let won := playerWon RolledDiceNumber betType
  let player := creditWinnings cfg player betAmount won
  let diceRollResult := rollResult cfg RolledDiceNumber betType betAmount won
  .UpdatePlayerBalance32 player.ID player.Wallet player.BetBalance fun updateBalanceError =>
  match updateBalanceError with
  | some e => .ret ({}, some e)
  | none => .ret (diceRollResult, none)

/-- `controllers.processCashIn` in binary32: the sum and the difference are
`float32` operations. -/
def processCashIn (id : Int) (cashInAmount : ℚ) : Prog (Option String) :=
  .GetPlayerByID id fun res =>
  match res with
  | .error e => .ret (some e)
  | .ok player =>
  if player.BetBalance < cashInAmount then
    .ret (some "Player does not have enough bet Balance to cash In")
  else
  .UpdatePlayerBalance32 id (f32 (player.Wallet + cashInAmount))
    (f32 (player.BetBalance - cashInAmount)) fun updatingBalanceError =>
  match updatingBalanceError with
  | some e => .ret (some e)
  | none => .ret none

/-- `controllers.HandleDeposit` in binary32.  Here `r.body` is the number the client
sent in `amountToDeposit` (`none` when the body is not JSON of the expected shape);
`Decode` stores it as a `float32`. -/
def HandleDeposit (r : Request) : Prog HTTPResponse :=
  if r.Method ≠ "POST" then
    .ret { status := 405, message := "Method not supported" }
  else
  (AuthenticateUser r.token).bind fun auth =>
  match auth with
  | .error e => .ret { status := 401, message := e }
  | .ok player =>
  match r.body.bind decodeFloat32 with
  | none => .ret { status := 400, message := "Request is missing data (amountToDeposit)" }
  | some AmountToDeposit =>
  let err : Option String := none
  if AmountToDeposit ≤ 0 then
    .ret { status := 400, message := "Deposit must be above 0" }
  else
  if AmountToDeposit > 1000000 then
    .ret { status := 400,
           message := "Deposit must be below or equal to 1.000.000 (you can\x27t be that rich!)" }
  else
  .CheckPlayerBettingStatus player.ID fun (isBetting, checkPlayerBettingStatusErr) =>
  if checkPlayerBettingStatusErr ≠ none then
    errorText err fun m => .ret { status := 500, message := m }
  else
  if isBetting then
    .ret { status := 409, message := "Cannot deposit while player is in Betting Process" }
  else
  .UpdatePlayerBettingStatus player.ID true fun updateBettingStatusError =>
  if updateBettingStatusError ≠ none then
    errorText err fun m => .ret { status := 500, message := m }
  else
  .GetPlayerByID player.ID fun res =>
  match res with
  | .error e => .ret { status := 500, message := e }
  | .ok player =>
  .UpdatePlayerBalance32 player.ID (f32 (player.Wallet + AmountToDeposit)) player.BetBalance
    fun err =>
  match err with
  | some e => .ret { status := 500, message := e }
  | none =>
  .UpdatePlayerBettingStatus player.ID false fun updateBettingStatusError =>
  if updateBettingStatusError ≠ none then
    errorText err fun m => .ret { status := 500, message := m }
  else
  .ret { status := 200, message := "Deposit successful",
         amount := some AmountToDeposit,
         newBalance := some (f32 (player.Wallet + AmountToDeposit)) }

/-- `controllers.HandleWithdraw` in binary32; `r.body` is the number the client sent
in `amountToWithdraw`. -/
def HandleWithdraw (r : Request) : Prog HTTPResponse :=
  if r.Method ≠ "POST" then
    .ret { status := 405, message := "Method not supported" }
  else
  (AuthenticateUser r.token).bind fun auth =>
  match auth with
  | .error e => .ret { status := 401, message := e }
  | .ok player =>
  match r.body.bind decodeFloat32 with
  | none => .ret { status := 400, message := "Request is missing data (amountToWithdraw)" }
  | some AmountToWithdraw =>
  if AmountToWithdraw ≤ 0 then
    .ret { status := 400, message := "Withdraw amount must be greater than 0" }
  else
  .CheckPlayerBettingStatus player.ID fun (isBetting, checkPlayerBettingStatusErr) =>
  if checkPlayerBettingStatusErr ≠ none then
    errorText checkPlayerBettingStatusErr fun m => .ret { status := 500, message := m }
  else
  if isBetting then
    .ret { status := 409, message := "Cannot withdraw while player is in Betting Process" }
  else
  .UpdatePlayerBettingStatus player.ID true fun updateBettingStatusError =>
  if updateBettingStatusError ≠ none then
    errorText updateBettingStatusError fun m => .ret { status := 500, message := m }
  else
  .GetPlayerByID player.ID fun res =>
  match res with
  | .error e => .ret { status := 500, message := e }
  | .ok player =>
  if player.Wallet < AmountToWithdraw then
    .UpdatePlayerBettingStatus player.ID false fun _ =>
    .ret { status := 400, message := "Insufficient funds for withdrawal" }
  else
  .UpdatePlayerBalance32 player.ID (f32 (player.Wallet - AmountToWithdraw)) player.BetBalance
    fun err =>
  match err with
  | some e => .ret { status := 500, message := e }
  | none =>
  .UpdatePlayerBettingStatus player.ID false fun updateBettingStatusError =>
  if updateBettingStatusError ≠ none then
    errorText updateBettingStatusError fun m => .ret { status := 500, message := m }
  else
  .ret { status := 200, message := "Withdrawal successful",
         amount := some AmountToWithdraw,
         newBalance := some (f32 (player.Wallet - AmountToWithdraw)) }

end Binary32

/-! ## Two requests in flight -/

/-- Two requests on one world, each with the events of its own operations so far. -/
structure Race (α : Type) where
  world : World
  first : Prog α
  second : Prog α
  firstTrace : List Event := []
  secondTrace : List Event := []

/-- The next operation of one of the two requests (`true`: the second one) runs
atomically on the shared world. -/
def Race.step {α : Type} (s : Race α) (second : Bool) : Race α :=
  if second then
    let r := s.second.step s.world
    { s with world := r.2.1, second := r.1, secondTrace := s.secondTrace ++ r.2.2 }
  else
    let r := s.first.step s.world
    { s with world := r.2.1, first := r.1, firstTrace := s.firstTrace ++ r.2.2 }

/-- Runs the two requests in the order the schedule gives. -/
def Race.exec {α : Type} (s : Race α) (schedule : List Bool) : Race α :=
  schedule.foldl Race.step s

/-- A request is inside the gate of player `id` when its own trace shows that it
observed the flag false and has not yet issued the reset. -/
def insideGate (id : Int) (trace : List Event) : Bool :=
  trace.contains (Event.CheckPlayerBettingStatus id false none) &&
  !trace.any (fun e =>
    match e with
    | .UpdatePlayerBettingStatus i false _ => decide (i = id)
    | _ => false)

/-- The event is a call of `UpdatePlayerBalance` (its UPDATE statement). -/
def Event.isBalanceWrite : Event → Bool
  | .balanceWrite _ _ _ _ => true
  | _ => false

/-- The event is a call of `UpdatePlayerBettingStatus`. -/
def Event.isStatusUpdate : Event → Bool
  | .UpdatePlayerBettingStatus _ _ _ => true
  | _ => false

/-! ## Scenarios -/

/-- The seeded account of Bob (`InsertMockData`): wallet 300.00, bet balance 30.00,
not betting. -/
def bob : Player :=
  { ID := 2, Password := "", Name := "Bob", Wallet := 300, BetBalance := 30,
    IsBetting := false }

/-- An account with wallet 5.00 and bet balance 30.00, not betting. -/
def dana : Player :=
  { ID := 4, Password := "", Name := "Dana", Wallet := 5, BetBalance := 30,
    IsBetting := false }

/-- An account with empty wallet and empty bet balance, not betting. -/
def eve : Player :=
  { ID := 5, Password := "", Name := "Eve", Wallet := 0, BetBalance := 0,
    IsBetting := false }

/-- The seeded account of Charlie (`InsertMockData`): wallet 700.00, bet balance
70.00, betting flag set. -/
def charlie : Player :=
  { ID := 3, Password := "", Name := "Charlie", Wallet := 700, BetBalance := 70,
    IsBetting := true }

/-- A configuration: dice not rigged, multiplier 2, idle timeout 10 seconds. -/
def sampleConfig : Config :=
  { RIGGED_DICE_NUMBER := 0, WINNING_MULTIPLIER := 2, SOCKET_TIMEOUT_DURATION := 10 }

/-- A POST request carrying a valid token of player `id` and the amount `a`. -/
def postAmount (id : Int) (a : ℚ) : Request :=
  { Method := "POST", token := .ok id, body := some a }

/-- Two deposits of Bob in flight, of 50 and of 70, on the seeded store. -/
def twoDeposits : Race HTTPResponse :=
  { world := { players := [bob] },
    first := HandleDeposit (postAmount 2 50),
    second := HandleDeposit (postAmount 2 70) }

/-- The schedule in which each request authenticates and reads the flag before the
other one writes it: two operations of the first request, then two of the second. -/
def bothCheckFirst : List Bool := [false, false, true, true]

/-- The rest of the schedule: the two requests take turns until both have
returned. -/
def thenAlternate : List Bool := [false, true, false, true, false, true, false, true]

/-! ## A request stopped part-way -/

/-- The first `n` operations of a program: the rest of the program, the world they
leave, and their events. -/
def Prog.steps {α : Type} : Nat → Prog α → World → Prog α × World × List Event
  | 0, p, w => (p, w, [])
  | n + 1, p, w =>
    let r := p.step w
    let r2 := Prog.steps n r.1 r.2.1
    (r2.1, r2.2.1, r.2.2 ++ r2.2.2)

/-- The program is at a `time.Sleep`. -/
def Prog.isSleeping {α : Type} : Prog α → Bool
  | .Sleep _ _ => true
  | _ => false

/-! ## Topics as text -/

/-- The number a list of decimal digits denotes; a character that is not a digit
counts as 0 or more, and a leading minus sign as 0. -/
def decimalValue (cs : List Char) : Nat :=
  cs.foldl (fun acc c => 10 * acc + (c.toNat - 48)) 0

/-! ## Sequences of calls on the registry -/

/-- A call on an `EventEmitter`. -/
inductive EmitterCall where
  | On (event : String) (handler : EventHandler)
  | Off (event : String) (id : Int)
  | Emit (event : String) (data : EventWalletData)

/-- The registry a call leaves: `Emit` only reads it. -/
def EventEmitter.call (e : EventEmitter) : EmitterCall → EventEmitter
  | .On event handler => (e.On event handler).2
  | .Off event id => e.Off event id
  | .Emit _ _ => e

/-- The registry after a sequence of calls. -/
def EventEmitter.calls (e : EventEmitter) (cs : List EmitterCall) : EventEmitter :=
  cs.foldl EventEmitter.call e

/-- The ids the `On` calls of a sequence return, in the order of the calls. -/
def EventEmitter.returnedIDs (e : EventEmitter) : List EmitterCall → List Int
  | [] => []
  | .On event handler :: rest =>
    (e.On event handler).1 :: returnedIDs (e.On event handler).2 rest
  | .Off event id :: rest => returnedIDs (e.Off event id) rest
  | .Emit _ _ :: rest => returnedIDs e rest

/-- The number of idle timers that are armed and not stopped. -/
def World.pendingTimers (w : World) : Nat :=
  (w.timers.filter (fun t => t.2)).length

/-- The event is a call of `CheckPlayerBettingStatus`. -/
def Event.isStatusCheck : Event → Bool
  | .CheckPlayerBettingStatus _ _ _ => true
  | _ => false

/-- The event is a call of `GetPlayerByID`. -/
def Event.isPlayerLoad : Event → Bool
  | .GetPlayerByID _ _ _ => true
  | _ => false

/-- A configuration with the dice rigged to `dice`, multiplier 2, idle timeout 10
seconds. -/
def riggedConfig (dice : Int) : Config :=
  { RIGGED_DICE_NUMBER := dice, WINNING_MULTIPLIER := 2, SOCKET_TIMEOUT_DURATION := 10 }

/-- The call is a call of `On`. -/
def EmitterCall.isOn : EmitterCall → Bool
  | .On _ _ => true
  | _ => false

/-- The event is a call of `conn.ReadMessage`. -/
def Event.isReadMessage : Event → Bool
  | .ReadMessage _ => true
  | _ => false

/-- Bob\x27s session receives one text frame that is not JSON (such as `not json`). -/
def invalidFrameWorld : World :=
  { players := [bob], inbox := [.message TextMessage none] }

/-- Bob\x27s session receives one text frame holding the empty JSON object. -/
def emptyObjectWorld : World :=
  { players := [bob], inbox := [.message TextMessage (some [])] }

/-- Bob\x27s peer goes away: the read fails with a close error of code 1001, and
every later read fails with a transport error. -/
def goingAwayWorld : World :=
  { players := [bob], inbox := [.closeError CloseGoingAway] }

/-- Bob\x27s connection is lost: every read fails with a transport error that is
not a close error. -/
def connectionLostWorld : World :=
  { players := [bob], inbox := [] }

/-- Bob\x27s peer closes with code 1000 (normal closure). -/
def normalClosureWorld : World :=
  { players := [bob], inbox := [.closeError 1000] }

/-- The `float32` nearest to 0.01: what the stored value 0.01 and the decoded JSON
number 0.01 are in the source. -/
def cent32 : ℚ :=
  5368709 / 536870912

/-- The store rejects the fifth database call of a round and accepts the others. -/
def resetFailsWorld : World :=
  { players := [bob],
    dbFaults := [none, none, none, none, some "database is locked"] }

/-- The store accepts the first two database calls of a round and rejects the third
and the fourth. -/
def loadAndResetFailWorld : World :=
  { players := [bob],
    dbFaults := [none, none, some "disk I/O error", some "database is locked"] }

/-! ## Running a program, operation by operation -/

@[simp]
theorem Prog.run_ret {α : Type} (a : α) (w : World) :
    (Prog.ret a).run w = { value := some a, world := w, trace := [] } := rfl

@[simp]
theorem Prog.run_fault {α : Type} (w : World) :
    (Prog.fault : Prog α).run w = { value := none, world := w, trace := [] } := rfl

@[simp]
theorem Prog.run_CheckPlayerBettingStatus {α : Type} (id : Int)
    (k : Bool × Option String → Prog α) (w : World) :
    (Prog.CheckPlayerBettingStatus id k).run w =
      ((k (models.CheckPlayerBettingStatus id w).1).run
        (models.CheckPlayerBettingStatus id w).2.1).after
        (models.CheckPlayerBettingStatus id w).2.2 := rfl

@[simp]
theorem Prog.run_UpdatePlayerBettingStatus {α : Type} (id : Int) (b : Bool)
    (k : Option String → Prog α) (w : World) :
    (Prog.UpdatePlayerBettingStatus id b k).run w =
      ((k (models.UpdatePlayerBettingStatus id b w).1).run
        (models.UpdatePlayerBettingStatus id b w).2.1).after
        (models.UpdatePlayerBettingStatus id b w).2.2 := rfl

@[simp]
theorem Prog.run_GetPlayerByID {α : Type} (id : Int)
    (k : Except String Player → Prog α) (w : World) :
    (Prog.GetPlayerByID id k).run w =
      ((k (models.GetPlayerByID id w).1).run (models.GetPlayerByID id w).2.1).after
        (models.GetPlayerByID id w).2.2 := rfl

@[simp]
theorem Prog.run_UpdatePlayerBalance {α : Type} (id : Int) (x y : ℚ)
    (k : Option String → Prog α) (w : World) :
    (Prog.UpdatePlayerBalance id x y k).run w =
      ((k (models.UpdatePlayerBalance id x y w).1).run
        (models.UpdatePlayerBalance id x y w).2.1).after
        (models.UpdatePlayerBalance id x y w).2.2 := rfl

@[simp]
theorem Prog.run_UpdatePlayerBalance32 {α : Type} (id : Int) (x y : ℚ)
    (k : Option String → Prog α) (w : World) :
    (Prog.UpdatePlayerBalance32 id x y k).run w =
      ((k (Binary32.UpdatePlayerBalance id x y w).1).run
        (Binary32.UpdatePlayerBalance id x y w).2.1).after
        (Binary32.UpdatePlayerBalance id x y w).2.2 := rfl

@[simp]
theorem Prog.run_Intn {α : Type} (n : Int) (k : Int → Prog α) (w : World) :
    (Prog.Intn n k).run w = ((k (w.Intn n).1).run (w.Intn n).2.1).after (w.Intn n).2.2 := rfl

@[simp]
theorem Prog.run_WriteMessage {α : Type} (t : Int) (m : WSResponse)
    (k : Option String → Prog α) (w : World) :
    (Prog.WriteMessage t m k).run w =
      ((k (w.WriteMessage t m).1).run (w.WriteMessage t m).2.1).after
        (w.WriteMessage t m).2.2 := rfl

@[simp]
theorem Prog.run_AfterFunc {α : Type} (d : ℚ) (k : Nat → Prog α) (w : World) :
    (Prog.AfterFunc d k).run w =
      ((k (w.AfterFunc d).1).run (w.AfterFunc d).2.1).after (w.AfterFunc d).2.2 := rfl

@[simp]
theorem Prog.run_Stop {α : Type} (t : Nat) (k : Unit → Prog α) (w : World) :
    (Prog.Stop t k).run w = ((k ()).run (w.Stop t).1).after (w.Stop t).2 := rfl

/-- Running a program is taking its first operation and running the rest: the two
semantics agree. -/
theorem Prog.run_eq_step {α : Type} (p : Prog α) (w : World) :
    p.run w = ((p.step w).1.run (p.step w).2.1).after (p.step w).2.2 := by
  cases p <;> simp [Prog.run, Prog.step, Outcome.after]

/-! ## Store operations, case by case -/

/-- Consuming the driver's answer changes no row. -/
theorem nextFault_players (w : World) : w.nextFault.2.players = w.players := by
  unfold World.nextFault
  split <;> rfl

/-- Consuming the driver's answer leaves the registry alone. -/
theorem nextFault_emitter (w : World) : w.nextFault.2.emitter = w.emitter := by
  unfold World.nextFault
  split <;> rfl

/-- The row selected for an id has that id. -/
theorem selectRow_id {rows : List Player} {id : Int} {p : Player}
    (h : selectRow rows id = some p) : p.ID = id := by
  have := List.find?_some h
  simpa using this

/-- Selecting after the flag update: the same row with the new flag. -/
theorem selectRow_setIsBetting (rows : List Player) (id : Int) (b : Bool) :
    selectRow (setIsBetting id b rows) id =
      (selectRow rows id).map (fun p => { p with IsBetting := b }) := by
  induction rows with
  | nil => rfl
  | cons q rest ih =>
    by_cases hq : q.ID = id
    · simp [selectRow, setIsBetting, hq]
    · simpa [selectRow, setIsBetting, hq] using ih

/-- Selecting after the balance update: the same row with the new balances. -/
theorem selectRow_setBalances (rows : List Player) (id : Int) (x y : ℚ) :
    selectRow (setBalances id x y rows) id =
      (selectRow rows id).map (fun p => { p with Wallet := x, BetBalance := y }) := by
  induction rows with
  | nil => rfl
  | cons q rest ih =>
    by_cases hq : q.ID = id
    · simp [selectRow, setBalances, hq]
    · simpa [selectRow, setBalances, hq] using ih

/-- `CheckPlayerBettingStatus` either fails, or reports the flag of the stored row;
it never changes a row. -/
theorem CheckPlayerBettingStatus_cases (id : Int) (w : World) :
    ∃ w1 : World, w1.players = w.players ∧ w1.emitter = w.emitter ∧
    ((∃ e, models.CheckPlayerBettingStatus id w =
        ((false, some e), w1, [Event.CheckPlayerBettingStatus id false (some e)])) ∨
     (∃ p, selectRow w.players id = some p ∧
        models.CheckPlayerBettingStatus id w =
          ((p.IsBetting, none), w1, [Event.CheckPlayerBettingStatus id p.IsBetting none]))) := by
  refine ⟨w.nextFault.2, nextFault_players w, nextFault_emitter w, ?_⟩
  unfold models.CheckPlayerBettingStatus
  rcases hf : w.nextFault.1 with _ | e
  · rcases hr : selectRow w.players id with _ | p
    · left
      exact ⟨"player with ID " ++ toString id ++ " not found",
        by simp [hf, hr, nextFault_players]⟩
    · right
      exact ⟨p, rfl, by simp [hf, hr, nextFault_players]⟩
  · left
    exact ⟨"error checking player playing status: " ++ e, by simp [hf]⟩

/-- `GetPlayerByID` either fails, or returns the stored row; it never changes a
row. -/
theorem GetPlayerByID_cases (id : Int) (w : World) :
    ∃ w1 : World, w1.players = w.players ∧ w1.emitter = w.emitter ∧
    ((∃ e, models.GetPlayerByID id w =
        (.error e, w1, [Event.GetPlayerByID id none (some e)])) ∨
     (∃ p, selectRow w.players id = some p ∧
        models.GetPlayerByID id w = (.ok p, w1, [Event.GetPlayerByID id (some p) none]))) := by
  refine ⟨w.nextFault.2, nextFault_players w, nextFault_emitter w, ?_⟩
  unfold models.GetPlayerByID
  rcases hf : w.nextFault.1 with _ | e
  · rcases hr : selectRow w.players id with _ | p
    · left
      exact ⟨"player with ID " ++ toString id ++ " not found",
        by simp [hf, hr, nextFault_players]⟩
    · right
      exact ⟨p, rfl, by simp [hf, hr, nextFault_players]⟩
  · left
    exact ⟨"error fetching player: " ++ e, by simp [hf]⟩

/-- `UpdatePlayerBettingStatus` either fails and changes no row, or sets the flag of
the rows with that id. -/
theorem UpdatePlayerBettingStatus_cases (id : Int) (b : Bool) (w : World) :
    (∃ w1 : World, w1.players = w.players ∧ w1.emitter = w.emitter ∧
      ∃ e, models.UpdatePlayerBettingStatus id b w =
        (some e, w1, [Event.UpdatePlayerBettingStatus id b (some e)])) ∨
    (∃ w1 : World, w1.players = setIsBetting id b w.players ∧ w1.emitter = w.emitter ∧
      models.UpdatePlayerBettingStatus id b w =
        (none, w1, [Event.UpdatePlayerBettingStatus id b none])) := by
  unfold models.UpdatePlayerBettingStatus
  rcases hf : w.nextFault.1 with _ | e
  · right
    exact ⟨{ w.nextFault.2 with players := setIsBetting id b w.players }, rfl,
      nextFault_emitter w, by simp [hf, nextFault_players]⟩
  · left
    exact ⟨w.nextFault.2, nextFault_players w, nextFault_emitter w,
      "player betting status was not updated", by simp [hf]⟩

/-- `UpdatePlayerBalance` either fails, changes no row and emits nothing, or writes
the rounded values and emits them once. -/
theorem UpdatePlayerBalance_cases (id : Int) (x y : ℚ) (w : World) :
    (∃ w1 : World, w1.players = w.players ∧ w1.emitter = w.emitter ∧
      ∃ e, models.UpdatePlayerBalance id x y w =
        (some e, w1, [Event.balanceWrite id (models.round2 x) (models.round2 y) (some e)])) ∨
    (∃ w1 : World,
      w1.players = setBalances id (models.round2 x) (models.round2 y) w.players ∧
      w1.emitter = w.emitter ∧
      models.UpdatePlayerBalance id x y w =
        (none, w1,
         [Event.balanceWrite id (models.round2 x) (models.round2 y) none,
          Event.Emit (models.balanceUpdateEvent id)
            { Wallet := models.round2 x, BetBalance := models.round2 y }
            (w.emitter.Emit (models.balanceUpdateEvent id)
              { Wallet := models.round2 x, BetBalance := models.round2 y })])) := by
  unfold models.UpdatePlayerBalance
  rcases hf : w.nextFault.1 with _ | e
  · right
    exact ⟨{ w.nextFault.2 with
              players := setBalances id (models.round2 x) (models.round2 y) w.players }, rfl,
      nextFault_emitter w, by simp [hf, nextFault_players, nextFault_emitter]⟩
  · left
    exact ⟨w.nextFault.2, nextFault_players w, nextFault_emitter w, e, by simp [hf]⟩

/-- Running `p.bind f` is running `p` and then `f` on its value; a panic in `p` ends
the run. -/
theorem Prog.run_bind {α β : Type} (p : Prog α) (f : α → Prog β) (w : World) :
    (p.bind f).run w =
      match (p.run w).value with
      | some a => ((f a).run (p.run w).world).after (p.run w).trace
      | none => { value := none, world := (p.run w).world, trace := (p.run w).trace } := by
  induction p generalizing w with
  | ret a => simp [Prog.bind, Prog.run, Outcome.after]
  | fault => simp [Prog.bind, Prog.run]
  | CheckPlayerBettingStatus id k ih =>
    simp only [Prog.bind, Prog.run, ih]
    split <;> simp_all [Outcome.after]
  | UpdatePlayerBettingStatus id b k ih =>
    simp only [Prog.bind, Prog.run, ih]
    split <;> simp_all [Outcome.after]
  | GetPlayerByID id k ih =>
    simp only [Prog.bind, Prog.run, ih]
    split <;> simp_all [Outcome.after]
  | UpdatePlayerBalance id x y k ih =>
    simp only [Prog.bind, Prog.run, ih]
    split <;> simp_all [Outcome.after]
  | Intn n k ih =>
    simp only [Prog.bind, Prog.run, ih]
    split <;> simp_all [Outcome.after]
  | ReadMessage k ih =>
    simp only [Prog.bind, Prog.run, ih]
    split <;> simp_all [Outcome.after]
  | WriteMessage t m k ih =>
    simp only [Prog.bind, Prog.run, ih]
    split <;> simp_all [Outcome.after]
  | WriteControl c t k ih =>
    simp only [Prog.bind, Prog.run, ih]
    split <;> simp_all [Outcome.after]
  | AfterFunc d k ih =>
    simp only [Prog.bind, Prog.run, ih]
    split <;> simp_all [Outcome.after]
  | Stop t k ih =>
    simp only [Prog.bind, Prog.run, ih]
    split <;> simp_all [Outcome.after]
  | Close k ih =>
    simp only [Prog.bind, Prog.run, ih]
    split <;> simp_all [Outcome.after]
  | WriteWallet m k ih =>
    simp only [Prog.bind, Prog.run, ih]
    split <;> simp_all [Outcome.after]
  | On ev h k ih =>
    simp only [Prog.bind, Prog.run, ih]
    split <;> simp_all [Outcome.after]
  | Off ev i k ih =>
    simp only [Prog.bind, Prog.run, ih]
    split <;> simp_all [Outcome.after]
  | Sleep d k ih =>
    simp only [Prog.bind, Prog.run, ih]
    split <;> simp_all [Outcome.after]
  | UpdatePlayerBalance32 id x y k ih =>
    simp only [Prog.bind, Prog.run, ih]
    split <;> simp_all [Outcome.after]

/-- `conn.WriteMessage` changes no row. -/
theorem WriteMessage_cases (messageType : Int) (response : WSResponse) (w : World) :
    ∃ (w1 : World) (err : Option String), w1.players = w.players ∧ w1.emitter = w.emitter ∧
      w.WriteMessage messageType response =
        (err, w1, [Event.WriteMessage messageType response err]) := by
  unfold World.WriteMessage
  rcases w.writeFaults with _ | ⟨f, rest⟩
  · exact ⟨w, none, rfl, rfl, rfl⟩
  · exact ⟨{ w with writeFaults := rest }, f, rfl, rfl, rfl⟩

/-- `time.AfterFunc` changes no row. -/
theorem AfterFunc_cases (d : ℚ) (w : World) :
    ∃ (w1 : World) (t : Nat), w1.players = w.players ∧ w1.emitter = w.emitter ∧
      w.AfterFunc d = (t, w1, [Event.AfterFunc d t]) :=
  ⟨{ w with timers := w.timers ++ [(d, true)] }, w.timers.length, rfl, rfl, rfl⟩

/-- `timeout.Stop()` changes no row. -/
theorem Stop_cases (t : Nat) (w : World) :
    ∃ w1 : World, w1.players = w.players ∧ w1.emitter = w.emitter ∧
      w.Stop t = (w1, [Event.Stop t]) :=
  ⟨{ w with timers := w.timers.modify (fun t => (t.1, false)) t }, rfl, rfl, rfl⟩

/-- `rand.Intn` changes no row. -/
theorem Intn_cases (n : Int) (w : World) :
    ∃ (w1 : World) (v : Int), w1.players = w.players ∧ w1.emitter = w.emitter ∧
      w.Intn n = (v, w1, [Event.Intn n v]) := by
  unfold World.Intn
  rcases w.rolls with _ | ⟨r, rest⟩
  · exact ⟨w, 0, rfl, rfl, rfl⟩
  · exact ⟨{ w with rolls := rest }, r % n, rfl, rfl, rfl⟩

/-- The runs of `processCashIn`, path by path. -/
theorem processCashIn_cases (id : Int) (amount : ℚ) (w : World) :
    ∃ w1 : World, w1.emitter = w.emitter ∧
    ((∃ e, w1.players = w.players ∧
        (processCashIn id amount).run w =
          { value := some (some e), world := w1,
            trace := [Event.GetPlayerByID id none (some e)] }) ∨
     (∃ p, selectRow w.players id = some p ∧ p.BetBalance < amount ∧
        w1.players = w.players ∧
        (processCashIn id amount).run w =
          { value := some (some "Player does not have enough bet Balance to cash In"),
            world := w1, trace := [Event.GetPlayerByID id (some p) none] }) ∨
     (∃ p e, selectRow w.players id = some p ∧ ¬ p.BetBalance < amount ∧
        w1.players = w.players ∧
        (processCashIn id amount).run w =
          { value := some (some e), world := w1,
            trace := [Event.GetPlayerByID id (some p) none,
              Event.balanceWrite id (models.round2 (p.Wallet + amount))
                (models.round2 (p.BetBalance - amount)) (some e)] }) ∨
     (∃ p, selectRow w.players id = some p ∧ ¬ p.BetBalance < amount ∧
        w1.players = setBalances id (models.round2 (p.Wallet + amount))
          (models.round2 (p.BetBalance - amount)) w.players ∧
        (processCashIn id amount).run w =
          { value := some none, world := w1,
            trace := [Event.GetPlayerByID id (some p) none,
              Event.balanceWrite id (models.round2 (p.Wallet + amount))
                (models.round2 (p.BetBalance - amount)) none,
              Event.Emit (models.balanceUpdateEvent id)
                { Wallet := models.round2 (p.Wallet + amount),
                  BetBalance := models.round2 (p.BetBalance - amount) }
                (w.emitter.Emit (models.balanceUpdateEvent id)
                  { Wallet := models.round2 (p.Wallet + amount),
                    BetBalance := models.round2 (p.BetBalance - amount) })] })) := by
  simp only [processCashIn, Prog.run]
  obtain ⟨w1, hw1, he1, ⟨e, h1⟩ | ⟨p, hp, h1⟩⟩ := GetPlayerByID_cases id w
  · exact ⟨w1, he1, Or.inl ⟨e, hw1, by simp [h1, Prog.run, Outcome.after]⟩⟩
  simp only [h1]
  by_cases hlt : p.BetBalance < amount
  · exact ⟨w1, he1, Or.inr (Or.inl ⟨p, hp, hlt, hw1, by simp [hlt, Prog.run, Outcome.after]⟩)⟩
  simp only [hlt, if_false, Prog.run]
  rcases UpdatePlayerBalance_cases id (p.Wallet + amount) (p.BetBalance - amount) w1 with
    ⟨w2, hw2, he2, e, h2⟩ | ⟨w2, hw2, he2, h2⟩
  · exact ⟨w2, he2.trans he1, Or.inr (Or.inr (Or.inl ⟨p, e, hp, hlt, hw2.trans hw1,
      by simp [h2, Prog.run, Outcome.after]⟩))⟩
  · exact ⟨w2, he2.trans he1, Or.inr (Or.inr (Or.inr ⟨p, hp, hlt, by rw [hw2, hw1],
      by simp [h2, Prog.run, Outcome.after, he1]⟩))⟩

/-- Deducting a bet keeps the id. -/
theorem DeductBetAmount_ID (p : Player) (a : ℚ) : (p.DeductBetAmount a).ID = p.ID := by
  unfold Player.DeductBetAmount
  split <;> rfl

/-- Crediting the winnings keeps the id. -/
theorem creditWinnings_ID (cfg : Config) (p : Player) (a : ℚ) (won : Bool) :
    (creditWinnings cfg p a won).ID = p.ID := by
  unfold creditWinnings
  split <;> rfl

/-- The runs of `processBet`, path by path; `q` is the player record that is
committed. -/
theorem processBet_cases (cfg : Config) (id : Int) (amount : ℚ) (betType : String)
    (w : World) :
    ∃ w1 : World, w1.emitter = w.emitter ∧
    ((∃ e, w1.players = w.players ∧
        (processBet cfg id amount betType).run w =
          { value := some ({}, some "Error getting player info for bet processing"),
            world := w1, trace := [Event.GetPlayerByID id none (some e)] }) ∨
     (∃ p, selectRow w.players id = some p ∧ amount > p.BetBalance + p.Wallet ∧
        w1.players = w.players ∧
        (processBet cfg id amount betType).run w =
          { value := some ({}, some "betAmount exceeds player\x27s balance and bet balance"),
            world := w1, trace := [Event.GetPlayerByID id (some p) none] }) ∨
     (∃ p n q e, selectRow w.players id = some p ∧ ¬ amount > p.BetBalance + p.Wallet ∧
        q = creditWinnings cfg (p.DeductBetAmount amount) amount
              (playerWon (rolledDiceNumber cfg n) betType) ∧
        w1.players = w.players ∧
        (processBet cfg id amount betType).run w =
          { value := some ({}, some e), world := w1,
            trace := [Event.GetPlayerByID id (some p) none, Event.Intn 6 n,
              Event.balanceWrite id (models.round2 q.Wallet) (models.round2 q.BetBalance)
                (some e)] }) ∨
     (∃ p n q, selectRow w.players id = some p ∧ ¬ amount > p.BetBalance + p.Wallet ∧
        q = creditWinnings cfg (p.DeductBetAmount amount) amount
              (playerWon (rolledDiceNumber cfg n) betType) ∧
        w1.players = setBalances id (models.round2 q.Wallet) (models.round2 q.BetBalance)
          w.players ∧
        (processBet cfg id amount betType).run w =
          { value := some (rollResult cfg (rolledDiceNumber cfg n) betType amount
                (playerWon (rolledDiceNumber cfg n) betType), none),
            world := w1,
            trace := [Event.GetPlayerByID id (some p) none, Event.Intn 6 n,
              Event.balanceWrite id (models.round2 q.Wallet) (models.round2 q.BetBalance) none,
              Event.Emit (models.balanceUpdateEvent id)
                { Wallet := models.round2 q.Wallet, BetBalance := models.round2 q.BetBalance }
                (w.emitter.Emit (models.balanceUpdateEvent id)
                  { Wallet := models.round2 q.Wallet,
                    BetBalance := models.round2 q.BetBalance })] })) := by
  simp only [processBet, Prog.run]
  obtain ⟨w1, hw1, he1, ⟨e, h1⟩ | ⟨p, hp, h1⟩⟩ := GetPlayerByID_cases id w
  · exact ⟨w1, he1, Or.inl ⟨e, hw1, by simp [h1, Prog.run, Outcome.after]⟩⟩
  simp only [h1]
  have hid : p.ID = id := selectRow_id hp
  by_cases hgt : amount > p.BetBalance + p.Wallet
  · exact ⟨w1, he1, Or.inr (Or.inl ⟨p, hp, hgt, hw1, by simp [hgt, Prog.run, Outcome.after]⟩)⟩
  simp only [hgt, if_false, Prog.run]
  obtain ⟨w2, n, hw2, he2, h2⟩ := Intn_cases 6 w1
  simp only [h2, creditWinnings_ID, DeductBetAmount_ID, hid]
  rcases UpdatePlayerBalance_cases id
      (creditWinnings cfg (p.DeductBetAmount amount) amount
        (playerWon (rolledDiceNumber cfg n) betType)).Wallet
      (creditWinnings cfg (p.DeductBetAmount amount) amount
        (playerWon (rolledDiceNumber cfg n) betType)).BetBalance w2 with
    ⟨w3, hw3, he3, e, h3⟩ | ⟨w3, hw3, he3, h3⟩
  · exact ⟨w3, by rw [he3, he2, he1], Or.inr (Or.inr (Or.inl ⟨p, n, _, e, hp, hgt, rfl,
      by rw [hw3, hw2, hw1], by simp [h3, Prog.run, Outcome.after]⟩))⟩
  · exact ⟨w3, by rw [he3, he2, he1], Or.inr (Or.inr (Or.inr ⟨p, n, _, hp, hgt, rfl,
      by rw [hw3, hw2, hw1], by simp [h3, Prog.run, Outcome.after, he1, he2]⟩))⟩

/-- The end of an iteration writes the response, changes no row, and after the write
at most arms a timer. -/
theorem sendResponse_cases (cfg : Config) (messageType : Int) (response : WSResponse)
    (w : World) :
    ∃ (w1 : World) (err : Option String) (v : LoopStep) (rest : List Event),
      w1.players = w.players ∧ w1.emitter = w.emitter ∧
      (sendResponse cfg messageType response).run w =
        { value := some v, world := w1,
          trace := Event.WriteMessage messageType response err :: rest } ∧
      (rest = [] ∨ ∃ t, rest = [Event.AfterFunc cfg.SOCKET_TIMEOUT_DURATION t]) := by
  simp only [sendResponse, Prog.run]
  obtain ⟨w1, err, hw1, he1, h1⟩ := WriteMessage_cases messageType response w
  simp only [h1]
  rcases err with _ | e
  · obtain ⟨w2, t, hw2, he2, h2⟩ := AfterFunc_cases cfg.SOCKET_TIMEOUT_DURATION w1
    exact ⟨w2, none, .next t, [Event.AfterFunc cfg.SOCKET_TIMEOUT_DURATION t],
      hw2.trans hw1, he2.trans he1, by simp [Prog.run, h2, Outcome.after], Or.inr ⟨t, rfl⟩⟩
  · exact ⟨w1, some e, .leave, [], hw1, he1, by simp [Prog.run, Outcome.after], Or.inl rfl⟩

/-- With the flag reported true the gate-busy entry is in the error list, which is
then not empty. -/
theorem gateErrors_busy (errorList : List String) (err : Option String) :
    "Player already betting, please await the bet processing..." ∈
        gateErrors errorList true err ∧
      0 < (gateErrors errorList true err).length := by
  unfold gateErrors
  cases err <;> simp

/-- The end of an iteration makes no gate lookup. -/
theorem check_not_mem_sendResponse (cfg : Config) (messageType : Int) (response : WSResponse)
    (w : World) (id : Int) (b : Bool) (e : Option String) :
    Event.CheckPlayerBettingStatus id b e ∉
      ((sendResponse cfg messageType response).run w).trace := by
  obtain ⟨w1, err, v, rest, -, -, h, hrest⟩ := sendResponse_cases cfg messageType response w
  rcases hrest with rfl | ⟨t, rfl⟩ <;> simp [h]

/-- `UpdatePlayerBettingStatus` with its answer left open: when it succeeds the rows
of that id carry the new flag. -/
theorem UpdatePlayerBettingStatus_any (id : Int) (b : Bool) (w : World) :
    ∃ (w1 : World) (e : Option String),
      (e = none → w1.players = setIsBetting id b w.players) ∧
      models.UpdatePlayerBettingStatus id b w =
        (e, w1, [Event.UpdatePlayerBettingStatus id b e]) := by
  rcases UpdatePlayerBettingStatus_cases id b w with ⟨w1, -, -, e, h⟩ | ⟨w1, hw1, -, h⟩
  · exact ⟨w1, some e, by simp, h⟩
  · exact ⟨w1, none, fun _ => hw1, h⟩

/-- After the flag update every row of that id carries the new flag. -/
theorem setIsBetting_flag {id : Int} {b : Bool} {rows : List Player} {p : Player}
    (hp : p ∈ setIsBetting id b rows) (hid : p.ID = id) : p.IsBetting = b := by
  unfold setIsBetting at hp
  obtain ⟨q, -, hq⟩ := List.mem_map.1 hp
  by_cases h : q.ID = id
  · rw [if_pos h] at hq
    rw [← hq]
  · rw [if_neg h] at hq
    rw [← hq] at hid
    exact absurd hid h

/-- The function `processBet` always returns (it does not panic). -/
theorem processBet_value (cfg : Config) (id : Int) (amount : ℚ) (betType : String)
    (w : World) : ∃ a, ((processBet cfg id amount betType).run w).value = some a := by
  obtain ⟨w1, -, ⟨e, -, h⟩ | ⟨p, -, -, -, h⟩ | ⟨p, n, q, e, -, -, -, -, h⟩ |
    ⟨p, n, q, -, -, -, -, h⟩⟩ := processBet_cases cfg id amount betType w <;>
  exact ⟨_, by rw [h]⟩

/-- The function `processCashIn` always returns (it does not panic). -/
theorem processCashIn_value (id : Int) (amount : ℚ) (w : World) :
    ∃ a, ((processCashIn id amount).run w).value = some a := by
  obtain ⟨w1, -, ⟨e, -, h⟩ | ⟨p, -, -, -, h⟩ | ⟨p, e, -, -, -, h⟩ | ⟨p, -, -, -, h⟩⟩ :=
    processCashIn_cases id amount w <;>
  exact ⟨_, by rw [h]⟩

/-- The end of an iteration does not touch the flag. -/
theorem statusUpdate_not_mem_sendResponse (cfg : Config) (messageType : Int)
    (response : WSResponse) (w : World) (id : Int) (b : Bool) (e : Option String) :
    Event.UpdatePlayerBettingStatus id b e ∉
      ((sendResponse cfg messageType response).run w).trace := by
  obtain ⟨w1, err, v, rest, -, -, h, hrest⟩ := sendResponse_cases cfg messageType response w
  rcases hrest with rfl | ⟨t, rfl⟩ <;> simp [h]

/-- The function `processBet` does not touch the flag. -/
theorem statusUpdate_not_mem_processBet (cfg : Config) (pid : Int) (amount : ℚ)
    (betType : String) (w : World) (id : Int) (b : Bool) (e : Option String) :
    Event.UpdatePlayerBettingStatus id b e ∉
      ((processBet cfg pid amount betType).run w).trace := by
  obtain ⟨w1, -, ⟨e, -, h⟩ | ⟨p, -, -, -, h⟩ | ⟨p, n, q, e, -, -, -, -, h⟩ |
    ⟨p, n, q, -, -, -, -, h⟩⟩ := processBet_cases cfg pid amount betType w <;>
  simp [h]

/-- The function `processCashIn` does not touch the flag. -/
theorem statusUpdate_not_mem_processCashIn (pid : Int) (amount : ℚ) (w : World) (id : Int)
    (b : Bool) (e : Option String) :
    Event.UpdatePlayerBettingStatus id b e ∉ ((processCashIn pid amount).run w).trace := by
  obtain ⟨w1, -, ⟨e, -, h⟩ | ⟨p, -, -, -, h⟩ | ⟨p, e, -, -, -, h⟩ | ⟨p, -, -, -, h⟩⟩ :=
    processCashIn_cases pid amount w <;>
  simp [h]

/-! ## Rounding -/

/-- Rounding an integer gives that integer. -/
theorem models.Round_intCast (k : ℤ) : models.Round (k : ℚ) = k := by
  unfold models.Round
  split_ifs with h
  · have : ⌊(k : ℚ) + 1 / 2⌋ = k := by
      rw [Int.floor_eq_iff]
      constructor <;> norm_num
    exact this
  · have : ⌊-(k : ℚ) + 1 / 2⌋ = -k := by
      rw [Int.floor_eq_iff]
      constructor <;> push_cast <;> norm_num
    rw [this, neg_neg]

/-- A value with at most 2 fraction digits is written unchanged. -/
theorem models.round2_cents (k : ℤ) : models.round2 ((k : ℚ) / 100) = (k : ℚ) / 100 := by
  unfold models.round2
  have : (k : ℚ) / 100 * 100 = (k : ℚ) := by field_simp
  rw [this, models.Round_intCast]

/-- Zero is written as zero. -/
theorem models.round2_zero : models.round2 0 = 0 := by
  have := models.round2_cents 0
  simpa using this

/-- Rounding a non-negative value: the nearest integer is `⌊x + 1/2⌋`. -/
theorem models.Round_of_nonneg {x : ℚ} (h : 0 ≤ x) : models.Round x = ⌊x + 1 / 2⌋ := by
  unfold models.Round
  rw [if_pos h]

/-- The arithmetic of a deposit followed by a withdrawal of the same amount, when the
amount is not exactly halfway between two cents. -/
theorem models.round2_add_sub (k : ℤ) (a : ℚ) (hk : 0 ≤ (k : ℚ) / 100) (ha : 0 < a)
    (htie : ∀ m : ℤ, 100 * a ≠ (m : ℚ) + 1 / 2)
    (hge : ¬ models.round2 ((k : ℚ) / 100 + a) < a) :
    models.round2 (models.round2 ((k : ℚ) / 100 + a) - a) = (k : ℚ) / 100 := by
  have hk0 : (0 : ℚ) ≤ k := by
    have := mul_nonneg hk (by norm_num : (0 : ℚ) ≤ 100)
    simpa using this
  have h1 : ((k : ℚ) / 100 + a) * 100 = (k : ℚ) + 100 * a := by ring
  have hfl : ⌊(k : ℚ) + 100 * a + 1 / 2⌋ = k + ⌊100 * a + 1 / 2⌋ := by
    rw [add_assoc, Int.floor_int_add]
  have hdep : models.round2 ((k : ℚ) / 100 + a) = ((k + ⌊100 * a + 1 / 2⌋ : ℤ) : ℚ) / 100 := by
    unfold models.round2
    rw [h1, models.Round_of_nonneg (by positivity), hfl]
  set m : ℤ := ⌊100 * a + 1 / 2⌋ with hm
  have hm1 : (m : ℚ) ≤ 100 * a + 1 / 2 := Int.floor_le _
  have hm2 : 100 * a + 1 / 2 < (m : ℚ) + 1 := Int.lt_floor_add_one _
  have hm3 : (m : ℚ) ≠ 100 * a + 1 / 2 := by
    intro h
    apply htie (m - 1)
    push_cast
    linarith
  have hm4 : (m : ℚ) < 100 * a + 1 / 2 := lt_of_le_of_ne hm1 hm3
  rw [hdep] at hge ⊢
  have hge2 : a ≤ ((k + m : ℤ) : ℚ) / 100 := not_lt.1 hge
  have h2 : (((k + m : ℤ) : ℚ) / 100 - a) * 100 = (k : ℚ) + ((m : ℚ) - 100 * a) := by
    push_cast
    ring
  have h3 : (0 : ℚ) ≤ (k : ℚ) + ((m : ℚ) - 100 * a) := by
    rw [← h2]
    apply mul_nonneg _ (by norm_num)
    linarith
  have hfl2 : ⌊(k : ℚ) + ((m : ℚ) - 100 * a) + 1 / 2⌋ = k := by
    rw [Int.floor_eq_iff]
    constructor <;> linarith
  unfold models.round2
  rw [h2, models.Round_of_nonneg h3, hfl2]

/-! ## Binary floating point: values -/

/-- A number within less than a half of an integer rounds to that integer. -/
theorem roundHalfEven_eq_of_near (x : ℚ) (n : ℤ) (h : |x - n| < 1 / 2) :
    roundHalfEven x = n := by
  rw [abs_lt] at h
  unfold roundHalfEven
  simp only
  by_cases hn : (n : ℚ) ≤ x
  · have hf : ⌊x⌋ = n := Int.floor_eq_iff.2 ⟨hn, by linarith⟩
    rw [hf, if_pos (by linarith)]
  · have hf : ⌊x⌋ = n - 1 := Int.floor_eq_iff.2 ⟨by push_cast; linarith, by push_cast; linarith⟩
    rw [hf]
    push_cast
    rw [if_neg (by linarith), if_pos (by linarith)]
    ring

/-- An integer rounds to itself. -/
theorem roundHalfEven_intCast (n : ℤ) : roundHalfEven (n : ℚ) = n :=
  roundHalfEven_eq_of_near _ n (by simp)

/-- The rounding of a number whose binade is known. -/
theorem binaryRound_eq_of (p : ℕ) (emin : ℤ) (x : ℚ) (e n : ℤ)
    (hlo : (2 : ℚ) ^ e ≤ |x|) (hhi : |x| < (2 : ℚ) ^ (e + 1)) (hemin : emin ≤ e)
    (hn : roundHalfEven (x / (2 : ℚ) ^ (e - (p - 1))) = n) :
    binaryRound p emin x = n * (2 : ℚ) ^ (e - (p - 1)) := by
  have hpos : 0 < |x| := lt_of_lt_of_le (by positivity) hlo
  have hlog : Int.log 2 |x| = e := by
    apply le_antisymm
    · have := (Int.lt_zpow_iff_log_lt (b := 2) (by norm_num) hpos (x := e + 1)).1
        (by exact_mod_cast hhi)
      omega
    · exact (Int.zpow_le_iff_le_log (b := 2) (by norm_num) hpos).1 (by exact_mod_cast hlo)
  unfold binaryRound
  simp only [hlog, max_eq_left hemin, hn]

/-- Zero is a value of every format. -/
theorem binaryRound_zero (p : ℕ) (emin : ℤ) : binaryRound p emin 0 = 0 := by
  simp [binaryRound, roundHalfEven]

/-- A whole number below `2 ^ p` is a value of the format with `p` significant
bits. -/
theorem binaryRound_intCast (p : ℕ) (emin : ℤ) (n : ℤ) (hemin : emin ≤ 0)
    (h : |n| < 2 ^ p) : binaryRound p emin (n : ℚ) = n := by
  by_cases h0 : n = 0
  · rw [h0]
    simpa using binaryRound_zero p emin
  have habs : (1 : ℚ) ≤ |(n : ℚ)| := by
    have : (1 : ℤ) ≤ |n| := Int.one_le_abs h0
    exact_mod_cast this
  have hpos : 0 < |(n : ℚ)| := lt_of_lt_of_le one_pos habs
  have he0 : 0 ≤ Int.log 2 |(n : ℚ)| :=
    (Int.zpow_le_iff_le_log (b := 2) (by norm_num) hpos).1 (by simpa using habs)
  have hep : Int.log 2 |(n : ℚ)| < p := by
    refine (Int.lt_zpow_iff_log_lt (b := 2) (by norm_num) hpos).1 ?_
    have : ((|n| : ℤ) : ℚ) < ((2 ^ p : ℤ) : ℚ) := by exact_mod_cast h
    simpa using this
  obtain ⟨k, hk⟩ : ∃ k : ℕ, (k : ℤ) = (p : ℤ) - 1 - Int.log 2 |(n : ℚ)| :=
    ⟨((p : ℤ) - 1 - Int.log 2 |(n : ℚ)|).toNat, Int.toNat_of_nonneg (by omega)⟩
  have hulp : (2 : ℚ) ^ (Int.log 2 |(n : ℚ)| - ((p : ℤ) - 1)) = ((2 : ℚ) ^ k)⁻¹ := by
    rw [← zpow_natCast, ← zpow_neg, hk]
    congr 1
    ring
  have hq : (n : ℚ) / ((2 : ℚ) ^ k)⁻¹ = ((n * 2 ^ k : ℤ) : ℚ) := by
    push_cast
    rw [div_inv_eq_mul]
  unfold binaryRound
  simp only [max_eq_left (le_trans hemin he0)]
  have hp1 : ((p : ℚ) - 1 : ℚ) = (((p : ℤ) - 1 : ℤ) : ℚ) := by push_cast; ring
  show (roundHalfEven ((n : ℚ) / (2 : ℚ) ^ (Int.log 2 |(n : ℚ)| - ((p : ℤ) - 1))) : ℚ) *
    (2 : ℚ) ^ (Int.log 2 |(n : ℚ)| - ((p : ℤ) - 1)) = n
  rw [hulp, hq, roundHalfEven_intCast]
  push_cast
  field_simp

/-- A whole number below 2^24 is a `float32` value. -/
theorem f32_intCast (n : ℤ) (h : |n| < 2 ^ 24) : f32 (n : ℚ) = n :=
  binaryRound_intCast 24 (-126) n (by norm_num) h

/-- A whole number below 2^53 is a `float64` value. -/
theorem f64_intCast (n : ℤ) (h : |n| < 2 ^ 53) : f64 (n : ℚ) = n :=
  binaryRound_intCast 53 (-1022) n (by norm_num) h

/-- The `float32` value nearest to a number whose binade is known. -/
theorem f32_eq_of (x : ℚ) (e n : ℤ) (y : ℚ)
    (hlo : (2 : ℚ) ^ e ≤ |x|) (hhi : |x| < (2 : ℚ) ^ (e + 1)) (hemin : -126 ≤ e)
    (hn : |x / (2 : ℚ) ^ (e - 23) - n| < 1 / 2) (hy : y = n * (2 : ℚ) ^ (e - 23)) :
    f32 x = y := by
  have h := binaryRound_eq_of 24 (-126) x e n hlo hhi hemin
    (roundHalfEven_eq_of_near _ n (by
      have h23 : e - (((24 : ℕ) : ℤ) - 1) = e - 23 := by norm_num
      rw [h23]
      exact hn))
  have h23 : e - (((24 : ℕ) : ℤ) - 1) = e - 23 := by norm_num
  rw [h23] at h
  rw [hy]
  exact h

/-- The `float64` value nearest to a number whose binade is known. -/
theorem f64_eq_of (x : ℚ) (e n : ℤ) (y : ℚ)
    (hlo : (2 : ℚ) ^ e ≤ |x|) (hhi : |x| < (2 : ℚ) ^ (e + 1)) (hemin : -1022 ≤ e)
    (hn : |x / (2 : ℚ) ^ (e - 52) - n| < 1 / 2) (hy : y = n * (2 : ℚ) ^ (e - 52)) :
    f64 x = y := by
  have h := binaryRound_eq_of 53 (-1022) x e n hlo hhi hemin
    (roundHalfEven_eq_of_near _ n (by
      have h52 : e - (((53 : ℕ) : ℤ) - 1) = e - 52 := by norm_num
      rw [h52]
      exact hn))
  have h52 : e - (((53 : ℕ) : ℤ) - 1) = e - 52 := by norm_num
  rw [h52] at h
  rw [hy]
  exact h

/-- Zero is a `float32` value. -/
theorem f32_zero : f32 0 = 0 :=
  binaryRound_zero 24 (-126)

/-- The commit writes a whole number of at most 7 digits as it is. -/
theorem Binary32.round2_intCast (n : ℤ) (h : |n| < 10000000) :
    Binary32.round2 (n : ℚ) = n := by
  have h1 : f64 (n : ℚ) = n := f64_intCast n (lt_trans h (by norm_num))
  have h2 : f64 (((n * 100 : ℤ) : ℚ)) = ((n * 100 : ℤ) : ℚ) :=
    f64_intCast (n * 100) (by
      rw [abs_mul]
      have : |(100 : ℤ)| = 100 := by norm_num
      rw [this]
      have := abs_nonneg n
      nlinarith)
  have h3 : f32 (n : ℚ) = n := f32_intCast n (lt_trans h (by norm_num))
  unfold Binary32.round2
  rw [h1]
  have hc : (n : ℚ) * 100 = ((n * 100 : ℤ) : ℚ) := by push_cast; ring
  rw [hc, h2, models.Round_intCast]
  have hd : ((n * 100 : ℤ) : ℚ) / 100 = (n : ℚ) := by
    push_cast
    field_simp
  rw [hd, h1, h3]

/-- The `float32` value nearest to a positive number whose binade is known. -/
theorem f32_eq_of_pos (x : ℚ) (e n : ℤ) (y : ℚ)
    (hlo : (2 : ℚ) ^ e ≤ x) (hhi : x < (2 : ℚ) ^ (e + 1)) (hemin : -126 ≤ e)
    (h1 : (n : ℚ) - 1 / 2 < x / (2 : ℚ) ^ (e - 23))
    (h2 : x / (2 : ℚ) ^ (e - 23) < n + 1 / 2) (hy : y = n * (2 : ℚ) ^ (e - 23)) :
    f32 x = y := by
  have hx : 0 < x := lt_of_lt_of_le (by positivity) hlo
  refine f32_eq_of x e n y ?_ ?_ hemin ?_ hy
  · rwa [abs_of_pos hx]
  · rwa [abs_of_pos hx]
  · rw [abs_lt]
    constructor <;> linarith

/-- The `float64` value nearest to a positive number whose binade is known. -/
theorem f64_eq_of_pos (x : ℚ) (e n : ℤ) (y : ℚ)
    (hlo : (2 : ℚ) ^ e ≤ x) (hhi : x < (2 : ℚ) ^ (e + 1)) (hemin : -1022 ≤ e)
    (h1 : (n : ℚ) - 1 / 2 < x / (2 : ℚ) ^ (e - 52))
    (h2 : x / (2 : ℚ) ^ (e - 52) < n + 1 / 2) (hy : y = n * (2 : ℚ) ^ (e - 52)) :
    f64 x = y := by
  have hx : 0 < x := lt_of_lt_of_le (by positivity) hlo
  refine f64_eq_of x e n y ?_ ?_ hemin ?_ hy
  · rwa [abs_of_pos hx]
  · rwa [abs_of_pos hx]
  · rw [abs_lt]
    constructor <;> linarith

/-- The commit of a positive value, from the four roundings it is made of. -/
theorem Binary32.round2_eq_of (v a b c y : ℚ) (r : ℤ) (h1 : f64 v = a)
    (h2 : f64 (a * 100) = b) (h3 : models.Round b = r) (h4 : f64 ((r : ℚ) / 100) = c)
    (h5 : f32 c = y) : Binary32.round2 v = y := by
  unfold Binary32.round2
  rw [h1, h2, h3, h4, h5]

/-- The function `math.Round` on a number within less than a half of an integer. -/
theorem models.Round_eq_of_near (x : ℚ) (n : ℤ) (h1 : (n : ℚ) - 1 / 2 < x)
    (h2 : x < n + 1 / 2) (h0 : 0 ≤ x) : models.Round x = n := by
  rw [models.Round_of_nonneg h0]
  exact Int.floor_eq_iff.2 ⟨by linarith, by linarith⟩

/-! ## Binary32 values used below -/

/-- The JSON number 0.01 decoded into a `float32`. -/
theorem f32_cent : f32 (1 / 100) = cent32 := by
  unfold cent32
  exact f32_eq_of_pos ((1 / 100)) (-7) 10737418 (5368709 / 536870912)
      (by norm_num) (by norm_num) (by norm_num)
      (by norm_num) (by norm_num) (by norm_num)

/-- The JSON number 0.01 decoded into a `float64` and converted to `float32`. -/
theorem f32_f64_cent : f32 (f64 (1 / 100)) = cent32 := by
  unfold cent32
  rw [f64_eq_of_pos (1 / 100) (-7) 5764607523034235 (5764607523034235 / 576460752303423488)
      (by norm_num) (by norm_num) (by norm_num)
      (by norm_num) (by norm_num) (by norm_num)]
  exact f32_eq_of_pos ((5764607523034235 / 576460752303423488)) (-7) 10737418 (5368709 / 536870912)
      (by norm_num) (by norm_num) (by norm_num)
      (by norm_num) (by norm_num) (by norm_num)

/-! ## The binary32 money paths, case by case -/

/-- `Binary32.UpdatePlayerBalance` either fails, changes no row and emits nothing,
or writes the values the source writes and emits them once. -/
theorem Binary32.UpdatePlayerBalance_paths (id : Int) (x y : ℚ) (w : World) :
    (∃ w1 : World, w1.players = w.players ∧ w1.emitter = w.emitter ∧
      ∃ e, Binary32.UpdatePlayerBalance id x y w =
        (some e, w1,
         [Event.balanceWrite id (Binary32.round2 x) (Binary32.round2 y) (some e)])) ∨
    (∃ w1 : World,
      w1.players = setBalances id (Binary32.round2 x) (Binary32.round2 y) w.players ∧
      w1.emitter = w.emitter ∧
      Binary32.UpdatePlayerBalance id x y w =
        (none, w1,
         [Event.balanceWrite id (Binary32.round2 x) (Binary32.round2 y) none,
          Event.Emit (models.balanceUpdateEvent id)
            { Wallet := Binary32.round2 x, BetBalance := Binary32.round2 y }
            (w.emitter.Emit (models.balanceUpdateEvent id)
              { Wallet := Binary32.round2 x, BetBalance := Binary32.round2 y })])) := by
  unfold Binary32.UpdatePlayerBalance
  rcases hf : w.nextFault.1 with _ | e
  · right
    exact ⟨{ w.nextFault.2 with
              players := setBalances id (Binary32.round2 x) (Binary32.round2 y) w.players },
      rfl, nextFault_emitter w, by simp [hf, nextFault_players, nextFault_emitter]⟩
  · left
    exact ⟨w.nextFault.2, nextFault_players w, nextFault_emitter w, e, by simp [hf]⟩

/-- Deducting a bet keeps the id. -/
theorem Binary32.DeductBetAmount_keeps_ID (p : Player) (a : ℚ) :
    (Binary32.DeductBetAmount p a).ID = p.ID := by
  unfold Binary32.DeductBetAmount
  split <;> rfl

/-- Crediting the winnings keeps the id. -/
theorem Binary32.creditWinnings_keeps_ID (cfg : Config) (p : Player) (a : ℚ) (won : Bool) :
    (Binary32.creditWinnings cfg p a won).ID = p.ID := by
  unfold Binary32.creditWinnings
  split <;> rfl

/-- The runs of `Binary32.processCashIn`, path by path. -/
theorem Binary32.processCashIn_paths (id : Int) (amount : ℚ) (w : World) :
    ∃ w1 : World, w1.emitter = w.emitter ∧
    ((∃ e, w1.players = w.players ∧
        (Binary32.processCashIn id amount).run w =
          { value := some (some e), world := w1,
            trace := [Event.GetPlayerByID id none (some e)] }) ∨
     (∃ p, selectRow w.players id = some p ∧ p.BetBalance < amount ∧
        w1.players = w.players ∧
        (Binary32.processCashIn id amount).run w =
          { value := some (some "Player does not have enough bet Balance to cash In"),
            world := w1, trace := [Event.GetPlayerByID id (some p) none] }) ∨
     (∃ p e, selectRow w.players id = some p ∧ ¬ p.BetBalance < amount ∧
        w1.players = w.players ∧
        (Binary32.processCashIn id amount).run w =
          { value := some (some e), world := w1,
            trace := [Event.GetPlayerByID id (some p) none,
              Event.balanceWrite id (Binary32.round2 (f32 (p.Wallet + amount)))
                (Binary32.round2 (f32 (p.BetBalance - amount))) (some e)] }) ∨
     (∃ p, selectRow w.players id = some p ∧ ¬ p.BetBalance < amount ∧
        w1.players = setBalances id (Binary32.round2 (f32 (p.Wallet + amount)))
          (Binary32.round2 (f32 (p.BetBalance - amount))) w.players ∧
        (Binary32.processCashIn id amount).run w =
          { value := some none, world := w1,
            trace := [Event.GetPlayerByID id (some p) none,
              Event.balanceWrite id (Binary32.round2 (f32 (p.Wallet + amount)))
                (Binary32.round2 (f32 (p.BetBalance - amount))) none,
              Event.Emit (models.balanceUpdateEvent id)
                { Wallet := Binary32.round2 (f32 (p.Wallet + amount)),
                  BetBalance := Binary32.round2 (f32 (p.BetBalance - amount)) }
                (w.emitter.Emit (models.balanceUpdateEvent id)
                  { Wallet := Binary32.round2 (f32 (p.Wallet + amount)),
                    BetBalance := Binary32.round2 (f32 (p.BetBalance - amount)) })] })) := by
  simp only [Binary32.processCashIn, Prog.run]
  obtain ⟨w1, hw1, he1, ⟨e, h1⟩ | ⟨p, hp, h1⟩⟩ := GetPlayerByID_cases id w
  · exact ⟨w1, he1, Or.inl ⟨e, hw1, by simp [h1, Prog.run, Outcome.after]⟩⟩
  simp only [h1]
  by_cases hlt : p.BetBalance < amount
  · exact ⟨w1, he1, Or.inr (Or.inl ⟨p, hp, hlt, hw1, by simp [hlt, Prog.run, Outcome.after]⟩)⟩
  simp only [hlt, if_false, Prog.run]
  rcases Binary32.UpdatePlayerBalance_paths id (f32 (p.Wallet + amount))
      (f32 (p.BetBalance - amount)) w1 with
    ⟨w2, hw2, he2, e, h2⟩ | ⟨w2, hw2, he2, h2⟩
  · exact ⟨w2, he2.trans he1, Or.inr (Or.inr (Or.inl ⟨p, e, hp, hlt, hw2.trans hw1,
      by simp [h2, Prog.run, Outcome.after]⟩))⟩
  · exact ⟨w2, he2.trans he1, Or.inr (Or.inr (Or.inr ⟨p, hp, hlt, by rw [hw2, hw1],
      by simp [h2, Prog.run, Outcome.after, he1]⟩))⟩

/-- The runs of `Binary32.processBet`, path by path; `q` is the player record that
is committed. -/
theorem Binary32.processBet_paths (cfg : Config) (id : Int) (amount : ℚ) (betType : String)
    (w : World) :
    ∃ w1 : World, w1.emitter = w.emitter ∧
    ((∃ e, w1.players = w.players ∧
        (Binary32.processBet cfg id amount betType).run w =
          { value := some ({}, some "Error getting player info for bet processing"),
            world := w1, trace := [Event.GetPlayerByID id none (some e)] }) ∨
     (∃ p, selectRow w.players id = some p ∧ amount > f32 (p.BetBalance + p.Wallet) ∧
        w1.players = w.players ∧
        (Binary32.processBet cfg id amount betType).run w =
          { value := some ({}, some "betAmount exceeds player\x27s balance and bet balance"),
            world := w1, trace := [Event.GetPlayerByID id (some p) none] }) ∨
     (∃ p n q e, selectRow w.players id = some p ∧
        ¬ amount > f32 (p.BetBalance + p.Wallet) ∧
        q = Binary32.creditWinnings cfg (Binary32.DeductBetAmount p amount) amount
              (playerWon (rolledDiceNumber cfg n) betType) ∧
        w1.players = w.players ∧
        (Binary32.processBet cfg id amount betType).run w =
          { value := some ({}, some e), world := w1,
            trace := [Event.GetPlayerByID id (some p) none, Event.Intn 6 n,
              Event.balanceWrite id (Binary32.round2 q.Wallet) (Binary32.round2 q.BetBalance)
                (some e)] }) ∨
     (∃ p n q, selectRow w.players id = some p ∧
        ¬ amount > f32 (p.BetBalance + p.Wallet) ∧
        q = Binary32.creditWinnings cfg (Binary32.DeductBetAmount p amount) amount
              (playerWon (rolledDiceNumber cfg n) betType) ∧
        w1.players = setBalances id (Binary32.round2 q.Wallet) (Binary32.round2 q.BetBalance)
          w.players ∧
        (Binary32.processBet cfg id amount betType).run w =
          { value := some (Binary32.rollResult cfg (rolledDiceNumber cfg n) betType amount
                (playerWon (rolledDiceNumber cfg n) betType), none),
            world := w1,
            trace := [Event.GetPlayerByID id (some p) none, Event.Intn 6 n,
              Event.balanceWrite id (Binary32.round2 q.Wallet) (Binary32.round2 q.BetBalance)
                none,
              Event.Emit (models.balanceUpdateEvent id)
                { Wallet := Binary32.round2 q.Wallet,
                  BetBalance := Binary32.round2 q.BetBalance }
                (w.emitter.Emit (models.balanceUpdateEvent id)
                  { Wallet := Binary32.round2 q.Wallet,
                    BetBalance := Binary32.round2 q.BetBalance })] })) := by
  simp only [Binary32.processBet, Prog.run]
  obtain ⟨w1, hw1, he1, ⟨e, h1⟩ | ⟨p, hp, h1⟩⟩ := GetPlayerByID_cases id w
  · exact ⟨w1, he1, Or.inl ⟨e, hw1, by simp [h1, Prog.run, Outcome.after]⟩⟩
  simp only [h1]
  have hid : p.ID = id := selectRow_id hp
  by_cases hgt : amount > f32 (p.BetBalance + p.Wallet)
  · exact ⟨w1, he1, Or.inr (Or.inl ⟨p, hp, hgt, hw1, by simp [hgt, Prog.run, Outcome.after]⟩)⟩
  simp only [hgt, if_false, Prog.run]
  obtain ⟨w2, n, hw2, he2, h2⟩ := Intn_cases 6 w1
  simp only [h2, Binary32.creditWinnings_keeps_ID, Binary32.DeductBetAmount_keeps_ID, hid]
  rcases Binary32.UpdatePlayerBalance_paths id
      (Binary32.creditWinnings cfg (Binary32.DeductBetAmount p amount) amount
        (playerWon (rolledDiceNumber cfg n) betType)).Wallet
      (Binary32.creditWinnings cfg (Binary32.DeductBetAmount p amount) amount
        (playerWon (rolledDiceNumber cfg n) betType)).BetBalance w2 with
    ⟨w3, hw3, he3, e, h3⟩ | ⟨w3, hw3, he3, h3⟩
  · exact ⟨w3, by rw [he3, he2, he1], Or.inr (Or.inr (Or.inl ⟨p, n, _, e, hp, hgt, rfl,
      by rw [hw3, hw2, hw1], by simp [h3, Prog.run, Outcome.after]⟩))⟩
  · exact ⟨w3, by rw [he3, he2, he1], Or.inr (Or.inr (Or.inr ⟨p, n, _, hp, hgt, rfl,
      by rw [hw3, hw2, hw1], by simp [h3, Prog.run, Outcome.after, he1, he2]⟩))⟩

/-- A bet that passes the guard, on a store that does not fail and with no random
number left (`rand.Intn` then yields 0): the one commit of the run. -/
theorem Binary32.processBet_committed (cfg : Config) (id : Int) (a : ℚ) (betType : String)
    (w : World) (p : Player) (hp : selectRow w.players id = some p) (hf : w.dbFaults = [])
    (hr : w.rolls = []) (hle : ¬ a > f32 (p.BetBalance + p.Wallet)) :
    ((Binary32.processBet cfg id a betType).run w).trace.filter Event.isBalanceWrite =
      [Event.balanceWrite id
        (Binary32.round2 (Binary32.creditWinnings cfg (Binary32.DeductBetAmount p a) a
          (playerWon (rolledDiceNumber cfg 0) betType)).Wallet)
        (Binary32.round2 (Binary32.creditWinnings cfg (Binary32.DeductBetAmount p a) a
          (playerWon (rolledDiceNumber cfg 0) betType)).BetBalance) none] ∧
    ((Binary32.processBet cfg id a betType).run w).value =
      some (Binary32.rollResult cfg (rolledDiceNumber cfg 0) betType a
        (playerWon (rolledDiceNumber cfg 0) betType), none) ∧
    ((Binary32.processBet cfg id a betType).run w).world.players =
      setBalances id
        (Binary32.round2 (Binary32.creditWinnings cfg (Binary32.DeductBetAmount p a) a
          (playerWon (rolledDiceNumber cfg 0) betType)).Wallet)
        (Binary32.round2 (Binary32.creditWinnings cfg (Binary32.DeductBetAmount p a) a
          (playerWon (rolledDiceNumber cfg 0) betType)).BetBalance) w.players := by
  have hid : p.ID = id := selectRow_id hp
  have hng : ¬ f32 (p.BetBalance + p.Wallet) < a := hle
  simp [Binary32.processBet, Prog.run, models.GetPlayerByID, Binary32.UpdatePlayerBalance,
    World.nextFault, World.Intn, hr, hf, hp, hng, Outcome.after, Event.isBalanceWrite,
    List.filter, Binary32.creditWinnings_keeps_ID, Binary32.DeductBetAmount_keeps_ID, hid]
/-- A whole number below 2^24 in absolute value is decoded as it is. -/
theorem decodeFloat32_intCast (n : ℤ) (h : |n| < 2 ^ 24) :
    decodeFloat32 (n : ℚ) = some (n : ℚ) := by
  have hq : |(n : ℚ)| < 2 ^ 128 := by
    have h1 : |(n : ℚ)| < 2 ^ 24 := by exact_mod_cast h
    exact lt_trans h1 (by norm_num)
  simp [decodeFloat32, f32_intCast n h, hq]

/-- A cash-in that passes the guard, on a store that does not fail: the run. -/
theorem Binary32.processCashIn_committed (id : Int) (a : ℚ) (w : World) (p : Player)
    (hp : selectRow w.players id = some p) (hf : w.dbFaults = [])
    (hge : ¬ p.BetBalance < a) :
    ((Binary32.processCashIn id a).run w).value = some none ∧
    ((Binary32.processCashIn id a).run w).trace.filter Event.isBalanceWrite =
      [Event.balanceWrite id (Binary32.round2 (f32 (p.Wallet + a)))
        (Binary32.round2 (f32 (p.BetBalance - a))) none] ∧
    ((Binary32.processCashIn id a).run w).world.players =
      setBalances id (Binary32.round2 (f32 (p.Wallet + a)))
        (Binary32.round2 (f32 (p.BetBalance - a))) w.players := by
  simp [Binary32.processCashIn, Prog.run, models.GetPlayerByID, Binary32.UpdatePlayerBalance,
    World.nextFault, hf, hp, hge, Outcome.after, Event.isBalanceWrite, List.filter]

/-- A deposit in range by an authenticated player whose gate is free, on a store that
does not fail: the answer, the store it leaves and its one commit. -/
theorem Binary32.HandleDeposit_committed (w : World) (id : Int) (x a : ℚ) (p : Player)
    (hp : selectRow w.players id = some p) (hflag : p.IsBetting = false)
    (hf : w.dbFaults = []) (hx : decodeFloat32 x = some a) (hpos : 0 < a)
    (hmax : a ≤ 1000000) :
    ((Binary32.HandleDeposit (postAmount id x)).run w).value =
      some { status := 200, message := "Deposit successful", amount := some a,
             newBalance := some (f32 (p.Wallet + a)) } ∧
    ((Binary32.HandleDeposit (postAmount id x)).run w).world =
      { w with
        players :=
          setIsBetting id false
            (setBalances id (Binary32.round2 (f32 (p.Wallet + a)))
              (Binary32.round2 p.BetBalance) (setIsBetting id true w.players)) } ∧
    ((Binary32.HandleDeposit (postAmount id x)).run w).trace.filter Event.isBalanceWrite =
      [Event.balanceWrite id (Binary32.round2 (f32 (p.Wallet + a)))
        (Binary32.round2 p.BetBalance) none] := by
  have hpid : p.ID = id := selectRow_id hp
  have hna : ¬ a ≤ 0 := not_le.2 hpos
  have hnm : ¬ 1000000 < a := not_lt.2 hmax
  simp [Binary32.HandleDeposit, postAmount, AuthenticateUser, Prog.bind, Prog.run,
    models.GetPlayerByID, models.CheckPlayerBettingStatus, models.UpdatePlayerBettingStatus,
    Binary32.UpdatePlayerBalance, World.nextFault, hf, hp, hpid, hflag, hna, hnm, hx,
    selectRow_setIsBetting, Outcome.after, Event.isBalanceWrite, List.filter]

/-- A withdrawal covered by the wallet, by an authenticated player whose gate is free,
on a store that does not fail: the answer, the store it leaves and its one commit. -/
theorem Binary32.HandleWithdraw_committed (w : World) (id : Int) (x a : ℚ) (p : Player)
    (hp : selectRow w.players id = some p) (hflag : p.IsBetting = false)
    (hf : w.dbFaults = []) (hx : decodeFloat32 x = some a) (hpos : 0 < a)
    (hge : ¬ p.Wallet < a) :
    ((Binary32.HandleWithdraw (postAmount id x)).run w).value =
      some { status := 200, message := "Withdrawal successful", amount := some a,
             newBalance := some (f32 (p.Wallet - a)) } ∧
    ((Binary32.HandleWithdraw (postAmount id x)).run w).world =
      { w with
        players :=
          setIsBetting id false
            (setBalances id (Binary32.round2 (f32 (p.Wallet - a)))
              (Binary32.round2 p.BetBalance) (setIsBetting id true w.players)) } ∧
    ((Binary32.HandleWithdraw (postAmount id x)).run w).trace.filter Event.isBalanceWrite =
      [Event.balanceWrite id (Binary32.round2 (f32 (p.Wallet - a)))
        (Binary32.round2 p.BetBalance) none] := by
  have hpid : p.ID = id := selectRow_id hp
  have hna : ¬ a ≤ 0 := not_le.2 hpos
  simp [Binary32.HandleWithdraw, postAmount, AuthenticateUser, Prog.bind, Prog.run,
    models.GetPlayerByID, models.CheckPlayerBettingStatus, models.UpdatePlayerBettingStatus,
    Binary32.UpdatePlayerBalance, World.nextFault, hf, hp, hpid, hflag, hna, hge, hx,
    selectRow_setIsBetting, Outcome.after, Event.isBalanceWrite, List.filter]

/-- The commit writes 0 as 0. -/
theorem Binary32.round2_of_zero : Binary32.round2 0 = 0 := by
  have h := Binary32.round2_intCast 0 (by norm_num)
  simp only [Int.cast_zero] at h
  exact h

/-! ## C1: release of the gate on the failure paths of deposit and withdraw -/

/-- C1 (evaluation at the failing inputs). Bob deposits or withdraws 50; the gate is
taken (the flag is written true) and then the account load fails (fourth store
call) or the balance commit fails (fifth store call).  In all four runs the handler
answers 500 and returns without any call that resets the flag: the stored flag
stays true. -/
theorem gate_not_released_on_store_failure :
    ((HandleDeposit (postAmount 2 50)).run
        { players := [bob], dbFaults := [none, none, none, some "disk I/O error"] }).value
      = some { status := 500, message := "error fetching player: disk I/O error" } ∧
    ((HandleDeposit (postAmount 2 50)).run
        { players := [bob], dbFaults := [none, none, none, some "disk I/O error"] }).trace
      = [Event.GetPlayerByID 2 (some bob) none,
         Event.CheckPlayerBettingStatus 2 false none,
         Event.UpdatePlayerBettingStatus 2 true none,
         Event.GetPlayerByID 2 none (some "error fetching player: disk I/O error")] ∧
    ((HandleDeposit (postAmount 2 50)).run
        { players := [bob], dbFaults := [none, none, none, some "disk I/O error"] }).world.players
      = [{ bob with IsBetting := true }] ∧
    ((HandleDeposit (postAmount 2 50)).run
        { players := [bob], dbFaults := [none, none, none, none, some "disk full"] }).value
      = some { status := 500, message := "disk full" } ∧
    ((HandleDeposit (postAmount 2 50)).run
        { players := [bob], dbFaults := [none, none, none, none, some "disk full"] }).trace
      = [Event.GetPlayerByID 2 (some bob) none,
         Event.CheckPlayerBettingStatus 2 false none,
         Event.UpdatePlayerBettingStatus 2 true none,
         Event.GetPlayerByID 2 (some { bob with IsBetting := true }) none,
         Event.balanceWrite 2 350 30 (some "disk full")] ∧
    ((HandleDeposit (postAmount 2 50)).run
        { players := [bob], dbFaults := [none, none, none, none, some "disk full"] }).world.players
      = [{ bob with IsBetting := true }] ∧
    ((HandleWithdraw (postAmount 2 50)).run
        { players := [bob], dbFaults := [none, none, none, some "disk I/O error"] }).value
      = some { status := 500, message := "error fetching player: disk I/O error" } ∧
    ((HandleWithdraw (postAmount 2 50)).run
        { players := [bob], dbFaults := [none, none, none, some "disk I/O error"] }).trace
      = [Event.GetPlayerByID 2 (some bob) none,
         Event.CheckPlayerBettingStatus 2 false none,
         Event.UpdatePlayerBettingStatus 2 true none,
         Event.GetPlayerByID 2 none (some "error fetching player: disk I/O error")] ∧
    ((HandleWithdraw (postAmount 2 50)).run
        { players := [bob], dbFaults := [none, none, none, some "disk I/O error"] }).world.players
      = [{ bob with IsBetting := true }] ∧
    ((HandleWithdraw (postAmount 2 50)).run
        { players := [bob], dbFaults := [none, none, none, none, some "disk full"] }).value
      = some { status := 500, message := "disk full" } ∧
    ((HandleWithdraw (postAmount 2 50)).run
        { players := [bob], dbFaults := [none, none, none, none, some "disk full"] }).trace
      = [Event.GetPlayerByID 2 (some bob) none,
         Event.CheckPlayerBettingStatus 2 false none,
         Event.UpdatePlayerBettingStatus 2 true none,
         Event.GetPlayerByID 2 (some { bob with IsBetting := true }) none,
         Event.balanceWrite 2 250 30 (some "disk full")] ∧
    ((HandleWithdraw (postAmount 2 50)).run
        { players := [bob], dbFaults := [none, none, none, none, some "disk full"] }).world.players
      = [{ bob with IsBetting := true }] := by
  simp [HandleDeposit, HandleWithdraw, postAmount, bob, AuthenticateUser, Prog.bind, Prog.run,
    models.GetPlayerByID, models.CheckPlayerBettingStatus, models.UpdatePlayerBettingStatus,
    models.UpdatePlayerBalance, World.nextFault, selectRow, setIsBetting, setBalances,
    Outcome.after, errorText, models.round2, models.Round]
  norm_num

/-! ## C2: a cash-in message with an invalid amount -/

/-- C2 (evaluation at the failing input). Bob (wallet 300, bet balance 30, flag
false) sends the cash-in message `{"cashInAmount": -10}`.  The handler records the
validation error but still takes the gate, calls `processCashIn` with -10, commits
wallet 290 and bet balance 40, releases the gate, and answers with code 400. -/
theorem cashIn_negative_amount_is_committed :
    ((endPlayMessage sampleConfig bob 0 TextMessage
        (some [("cashInAmount", JsonValue.number (-10))])).run { players := [bob] }).trace
      = [Event.Stop 0,
         Event.CheckPlayerBettingStatus 2 false none,
         Event.UpdatePlayerBettingStatus 2 true none,
         Event.GetPlayerByID 2 (some { bob with IsBetting := true }) none,
         Event.balanceWrite 2 290 40 none,
         Event.Emit "BalanceUpdate_2" { Wallet := 290, BetBalance := 40 } [],
         Event.UpdatePlayerBettingStatus 2 false none,
         Event.WriteMessage TextMessage
           { message := "Error cashing bet balance, check error list", code := 400,
             errorsList := some ["Invalid cashInAmount, it must be more than zero"] } none,
         Event.AfterFunc 10 0] ∧
    ((endPlayMessage sampleConfig bob 0 TextMessage
        (some [("cashInAmount", JsonValue.number (-10))])).run { players := [bob] }).world.players
      = [{ bob with Wallet := 290, BetBalance := 40 }] := by
  simp [endPlayMessage, cashInValidation, gateErrors, cashInResponse, sendResponse,
    processCashIn, sampleConfig, bob, TextMessage, asFloat64, mapGet,
    Prog.bind, Prog.run, models.GetPlayerByID, models.CheckPlayerBettingStatus,
    models.UpdatePlayerBettingStatus, models.UpdatePlayerBalance, World.nextFault,
    World.WriteMessage, World.AfterFunc, World.Stop, selectRow, setIsBetting, setBalances,
    Outcome.after, models.round2, models.Round, models.balanceUpdateEvent,
    EventEmitter.Emit, NewEventEmitter]
  norm_num
  decide

/-! ## C3: a busy gate -/

/-- A busy gate in `HandleDeposit`: no write, no flag update, status 409. -/
theorem deposit_gate_busy (r : Request) (w : World) (id : Int)
    (h : Event.CheckPlayerBettingStatus id true none ∈ ((HandleDeposit r).run w).trace) :
    (∀ e ∈ ((HandleDeposit r).run w).trace,
        e.isBalanceWrite = false ∧ e.isStatusUpdate = false) ∧
    ((HandleDeposit r).run w).world.players = w.players ∧
    (∃ p, selectRow ((HandleDeposit r).run w).world.players id = some p ∧
        p.IsBetting = true) ∧
    ((HandleDeposit r).run w).value =
      some { status := 409, message := "Cannot deposit while player is in Betting Process" } := by
  revert h
  simp only [HandleDeposit]
  split_ifs with hm
  · simp [Prog.run]
  rcases htok : r.token with e | pid
  · simp [AuthenticateUser, Prog.bind, Prog.run]
  simp only [AuthenticateUser, Prog.bind, Prog.run]
  obtain ⟨w1, hw1, -, ⟨e, h1⟩ | ⟨p, hp, h1⟩⟩ := GetPlayerByID_cases pid w
  · simp [h1, Prog.bind, Prog.run, Outcome.after]
  simp only [h1, Prog.bind]
  rcases hb : r.body with _ | a
  · simp [Prog.run, Outcome.after]
  simp only []
  split_ifs with ha1 ha2
  · simp [Prog.run, Outcome.after]
  · simp [Prog.run, Outcome.after]
  simp only [Prog.run]
  obtain ⟨w2, hw2, -, ⟨e, h2⟩ | ⟨q, hq, h2⟩⟩ := CheckPlayerBettingStatus_cases p.ID w1
  · simp [h2, errorText, Prog.run, Outcome.after]
  simp only [h2]
  cases hflag : q.IsBetting
  swap
  · rw [hw1] at hq
    simp only [Prog.run, Outcome.after, if_true, ne_eq, not_true_eq_false, if_false]
    intro hmem
    have hid : id = p.ID := by simpa using hmem
    simp [Event.isBalanceWrite, Event.isStatusUpdate, hw1, hw2, hid, hq, hflag]
  simp only [Bool.false_eq_true, if_false, ne_eq, not_true_eq_false, Prog.run, not_false_eq_true]
  rcases UpdatePlayerBettingStatus_cases p.ID true w2 with ⟨w3, hw3, -, e, h3⟩ | ⟨w3, hw3, -, h3⟩
  · simp [h3, errorText, Prog.run, Outcome.after]
  simp only [h3]
  obtain ⟨w4, hw4, -, ⟨e, h4⟩ | ⟨p4, hp4, h4⟩⟩ := GetPlayerByID_cases p.ID w3
  · simp [h4, errorText, Prog.run, Outcome.after]
  simp only [h4, Prog.run]
  rcases UpdatePlayerBalance_cases p4.ID (p4.Wallet + a) p4.BetBalance w4 with
    ⟨w5, hw5, -, e, h5⟩ | ⟨w5, hw5, -, h5⟩
  · simp [h5, errorText, Prog.run, Outcome.after]
  simp only [h5, Prog.run]
  rcases UpdatePlayerBettingStatus_cases p4.ID false w5 with
    ⟨w6, hw6, -, e, h6⟩ | ⟨w6, hw6, -, h6⟩
  · simp [h6, errorText, Prog.run, Outcome.after]
  · simp [h6, errorText, Prog.run, Outcome.after]

/-- A busy gate in `HandleWithdraw`: no write, no flag update, status 409. -/
theorem withdraw_gate_busy (r : Request) (w : World) (id : Int)
    (h : Event.CheckPlayerBettingStatus id true none ∈ ((HandleWithdraw r).run w).trace) :
    (∀ e ∈ ((HandleWithdraw r).run w).trace,
        e.isBalanceWrite = false ∧ e.isStatusUpdate = false) ∧
    ((HandleWithdraw r).run w).world.players = w.players ∧
    (∃ p, selectRow ((HandleWithdraw r).run w).world.players id = some p ∧
        p.IsBetting = true) ∧
    ((HandleWithdraw r).run w).value =
      some { status := 409,
             message := "Cannot withdraw while player is in Betting Process" } := by
  revert h
  simp only [HandleWithdraw]
  split_ifs with hm
  · simp [Prog.run]
  rcases htok : r.token with e | pid
  · simp [AuthenticateUser, Prog.bind, Prog.run]
  simp only [AuthenticateUser, Prog.bind, Prog.run]
  obtain ⟨w1, hw1, -, ⟨e, h1⟩ | ⟨p, hp, h1⟩⟩ := GetPlayerByID_cases pid w
  · simp [h1, Prog.bind, Prog.run, Outcome.after]
  simp only [h1, Prog.bind]
  rcases hb : r.body with _ | a
  · simp [Prog.run, Outcome.after]
  simp only []
  split_ifs with ha1
  · simp [Prog.run, Outcome.after]
  simp only [Prog.run]
  obtain ⟨w2, hw2, -, ⟨e, h2⟩ | ⟨q, hq, h2⟩⟩ := CheckPlayerBettingStatus_cases p.ID w1
  · simp [h2, errorText, Prog.run, Outcome.after]
  simp only [h2]
  cases hflag : q.IsBetting
  swap
  · rw [hw1] at hq
    simp only [Prog.run, Outcome.after, if_true, ne_eq, not_true_eq_false, if_false]
    intro hmem
    have hid : id = p.ID := by simpa using hmem
    simp [Event.isBalanceWrite, Event.isStatusUpdate, hw1, hw2, hid, hq, hflag]
  simp only [Bool.false_eq_true, if_false, ne_eq, not_true_eq_false, Prog.run, not_false_eq_true]
  rcases UpdatePlayerBettingStatus_cases p.ID true w2 with ⟨w3, hw3, -, e, h3⟩ | ⟨w3, hw3, -, h3⟩
  · simp [h3, errorText, Prog.run, Outcome.after]
  simp only [h3]
  obtain ⟨w4, hw4, -, ⟨e, h4⟩ | ⟨p4, hp4, h4⟩⟩ := GetPlayerByID_cases p.ID w3
  · simp [h4, errorText, Prog.run, Outcome.after]
  simp only [h4, Prog.run]
  split_ifs with hlt
  · simp only [Prog.run]
    rcases UpdatePlayerBettingStatus_cases p4.ID false w4 with
      ⟨w5, hw5, -, e, h5⟩ | ⟨w5, hw5, -, h5⟩
    · simp [h5, Prog.run, Outcome.after]
    · simp [h5, Prog.run, Outcome.after]
  simp only [Prog.run]
  rcases UpdatePlayerBalance_cases p4.ID (p4.Wallet - a) p4.BetBalance w4 with
    ⟨w5, hw5, -, e, h5⟩ | ⟨w5, hw5, -, h5⟩
  · simp [h5, errorText, Prog.run, Outcome.after]
  simp only [h5, Prog.run]
  rcases UpdatePlayerBettingStatus_cases p4.ID false w5 with
    ⟨w6, hw6, -, e, h6⟩ | ⟨w6, hw6, -, h6⟩
  · simp [h6, errorText, Prog.run, Outcome.after]
  · simp [h6, errorText, Prog.run, Outcome.after]
/-- A busy gate in a place-bet round: no write, no flag update, code 400 with the
gate-busy entry. -/
theorem play_gate_busy (cfg : Config) (player : Player) (timeout : Nat) (messageType : Int)
    (parsedData : Option (List (String × JsonValue))) (w : World) (id : Int)
    (h : Event.CheckPlayerBettingStatus id true none ∈
      ((playMessage cfg player timeout messageType parsedData).run w).trace) :
    (∀ e ∈ ((playMessage cfg player timeout messageType parsedData).run w).trace,
        e.isBalanceWrite = false ∧ e.isStatusUpdate = false) ∧
    ((playMessage cfg player timeout messageType parsedData).run w).world.players
      = w.players ∧
    (∃ p, selectRow ((playMessage cfg player timeout messageType parsedData).run w).world.players
        id = some p ∧ p.IsBetting = true) ∧
    (∃ errs err,
      Event.WriteMessage messageType
        { message := "Error creating bet, check error list", code := 400,
          errorsList := some errs } err ∈
        ((playMessage cfg player timeout messageType parsedData).run w).trace ∧
      "Player already betting, please await the bet processing..." ∈ errs) := by
  revert h
  rcases parsedData with _ | pd
  · simp only [playMessage, Prog.run_WriteMessage, Prog.run_ret]
    obtain ⟨w1, err, hw1, -, h1⟩ := WriteMessage_cases messageType
      { message := "Invalid JSON", code := 400, errorsList := some ["Invalid JSON received"] } w
    simp [h1, Outcome.after]
  simp only [playMessage, Prog.run_CheckPlayerBettingStatus]
  obtain ⟨w1, hw1, -, ⟨e, h1⟩ | ⟨q, hq, h1⟩⟩ := CheckPlayerBettingStatus_cases player.ID w
  · simp [h1, Outcome.after, check_not_mem_sendResponse]
  simp only [h1]
  cases hflag : q.IsBetting
  swap
  · obtain ⟨w2, err, v, rest, hw2, -, h2, hrest⟩ := sendResponse_cases cfg messageType
      (playResponse (gateErrors (playValidation pd) true none) none) w1
    have hb := gateErrors_busy (playValidation pd) none
    have hresp : playResponse (gateErrors (playValidation pd) true none) none =
        { message := "Error creating bet, check error list", code := 400,
          errorsList := some (gateErrors (playValidation pd) true none) } := by
      simp [playResponse, hb.2]
    rw [hresp] at h2
    simp only [Bool.not_true, Bool.false_eq_true, false_and, if_false, hresp, h2, Outcome.after]
    intro hmem
    have hid : id = player.ID := by
      rcases hrest with rfl | ⟨t, rfl⟩ <;> simpa using hmem
    refine ⟨?_, by rw [hw2, hw1], ⟨q, by rw [hw2, hw1, hid, hq], hflag⟩,
      gateErrors (playValidation pd) true none, err, by simp, hb.1⟩
    rcases hrest with rfl | ⟨t, rfl⟩ <;> simp [Event.isBalanceWrite, Event.isStatusUpdate]
  simp only [Bool.not_false, true_and]
  by_cases hlen : (gateErrors (playValidation pd) false none).length = 0
  swap
  · simp [hlen, Outcome.after, check_not_mem_sendResponse]
  simp only [hlen, if_true, Prog.run_UpdatePlayerBettingStatus, Prog.run_bind]
  rcases UpdatePlayerBettingStatus_cases player.ID true w1 with
    ⟨w2, -, -, e2, h2⟩ | ⟨w2, -, -, h2⟩ <;>
  simp only [h2] <;>
  obtain ⟨w3, -, hb⟩ := processBet_cases cfg player.ID (asFloat64 (mapGet pd "betAmount")).1
    (asString (mapGet pd "betType")).1 w2 <;>
  rcases UpdatePlayerBettingStatus_cases player.ID false w3 with
    ⟨w4, -, -, e4, h4⟩ | ⟨w4, -, -, h4⟩ <;>
  rcases hb with ⟨e, -, hb⟩ | ⟨p, -, -, -, hb⟩ | ⟨p, n, q1, e, -, -, -, -, hb⟩ |
    ⟨p, n, q1, -, -, -, -, hb⟩ <;>
  simp only [hb, Prog.run_UpdatePlayerBettingStatus, h4] <;>
  simp [Outcome.after, check_not_mem_sendResponse]

/-- A busy gate in a cash-in round: no write, no flag update, code 400 with the
gate-busy entry. -/
theorem endPlay_gate_busy (cfg : Config) (player : Player) (timeout : Nat)
    (messageType : Int) (parsedData : Option (List (String × JsonValue))) (w : World)
    (id : Int)
    (h : Event.CheckPlayerBettingStatus id true none ∈
      ((endPlayMessage cfg player timeout messageType parsedData).run w).trace) :
    (∀ e ∈ ((endPlayMessage cfg player timeout messageType parsedData).run w).trace,
        e.isBalanceWrite = false ∧ e.isStatusUpdate = false) ∧
    ((endPlayMessage cfg player timeout messageType parsedData).run w).world.players
      = w.players ∧
    (∃ p, selectRow
        ((endPlayMessage cfg player timeout messageType parsedData).run w).world.players
        id = some p ∧ p.IsBetting = true) ∧
    (∃ errs err,
      Event.WriteMessage messageType
        { message := "Error cashing bet balance, check error list", code := 400,
          errorsList := some errs } err ∈
        ((endPlayMessage cfg player timeout messageType parsedData).run w).trace ∧
      "Player already betting, please await the bet processing..." ∈ errs) := by
  revert h
  obtain ⟨w0, hw0, -, h0⟩ := Stop_cases timeout w
  rcases parsedData with _ | pd
  · simp only [endPlayMessage, Prog.run_Stop, h0, Prog.run_WriteMessage, Prog.run_ret]
    obtain ⟨w1, err, hw1, -, h1⟩ := WriteMessage_cases messageType
      { message := "Invalid JSON", code := 400, errorsList := some ["Invalid JSON received"] } w0
    simp [h1, Outcome.after]
  simp only [endPlayMessage, Prog.run_Stop, h0, Prog.run_CheckPlayerBettingStatus]
  obtain ⟨w1, hw1, -, ⟨e, h1⟩ | ⟨q, hq, h1⟩⟩ := CheckPlayerBettingStatus_cases player.ID w0
  · simp [h1, Outcome.after, check_not_mem_sendResponse]
  simp only [h1]
  cases hflag : q.IsBetting
  swap
  · obtain ⟨w2, err, v, rest, hw2, -, h2, hrest⟩ := sendResponse_cases cfg messageType
      (cashInResponse (gateErrors (cashInValidation pd) true none)) w1
    have hb := gateErrors_busy (cashInValidation pd) none
    have hresp : cashInResponse (gateErrors (cashInValidation pd) true none) =
        { message := "Error cashing bet balance, check error list", code := 400,
          errorsList := some (gateErrors (cashInValidation pd) true none) } := by
      simp [cashInResponse, hb.2]
    rw [hresp] at h2
    simp only [Bool.not_true, Bool.false_eq_true, false_and, if_false, hresp, h2, Outcome.after]
    intro hmem
    have hid : id = player.ID := by
      rcases hrest with rfl | ⟨t, rfl⟩ <;> simpa using hmem
    rw [hw0] at hq
    refine ⟨?_, by rw [hw2, hw1, hw0], ⟨q, by rw [hw2, hw1, hw0, hid, hq], hflag⟩,
      gateErrors (cashInValidation pd) true none, err, by simp, hb.1⟩
    rcases hrest with rfl | ⟨t, rfl⟩ <;> simp [Event.isBalanceWrite, Event.isStatusUpdate]
  simp only [Bool.not_false, true_and, if_true, Prog.run_UpdatePlayerBettingStatus,
    Prog.run_bind]
  rcases UpdatePlayerBettingStatus_cases player.ID true w1 with
    ⟨w2, -, -, e2, h2⟩ | ⟨w2, -, -, h2⟩ <;>
  simp only [h2] <;>
  obtain ⟨w3, -, hb⟩ := processCashIn_cases player.ID
    (asFloat64 (mapGet pd "cashInAmount")).1 w2 <;>
  rcases UpdatePlayerBettingStatus_cases player.ID false w3 with
    ⟨w4, -, -, e4, h4⟩ | ⟨w4, -, -, h4⟩ <;>
  rcases hb with ⟨e, -, hb⟩ | ⟨p, -, -, -, hb⟩ | ⟨p, e, -, -, -, hb⟩ | ⟨p, -, -, -, hb⟩ <;>
  simp only [hb, Prog.run_UpdatePlayerBettingStatus, h4] <;>
  simp [Outcome.after, check_not_mem_sendResponse]

/-- C3. For each of the four money-moving handlers and every request: if
`CheckPlayerBettingStatus` reports the flag as true (the run contains that call with
answer `(true, nil)`), then the run contains no `UpdatePlayerBalance` and no
`UpdatePlayerBettingStatus` call, the rows of the store are unchanged, the flag of
the player is still true, and the rejection is reported: status 409 by deposit and
withdraw, and by place-bet and cash-in a response with code 400 whose `errorsList`
contains the entry "Player already betting, please await the bet processing...". -/
theorem gate_busy_rejects_without_mutation :
    (∀ (r : Request) (w : World) (id : Int),
      Event.CheckPlayerBettingStatus id true none ∈ ((HandleDeposit r).run w).trace →
      (∀ e ∈ ((HandleDeposit r).run w).trace,
          e.isBalanceWrite = false ∧ e.isStatusUpdate = false) ∧
      ((HandleDeposit r).run w).world.players = w.players ∧
      (∃ p, selectRow ((HandleDeposit r).run w).world.players id = some p ∧
          p.IsBetting = true) ∧
      ((HandleDeposit r).run w).value =
        some { status := 409,
               message := "Cannot deposit while player is in Betting Process" }) ∧
    (∀ (r : Request) (w : World) (id : Int),
      Event.CheckPlayerBettingStatus id true none ∈ ((HandleWithdraw r).run w).trace →
      (∀ e ∈ ((HandleWithdraw r).run w).trace,
          e.isBalanceWrite = false ∧ e.isStatusUpdate = false) ∧
      ((HandleWithdraw r).run w).world.players = w.players ∧
      (∃ p, selectRow ((HandleWithdraw r).run w).world.players id = some p ∧
          p.IsBetting = true) ∧
      ((HandleWithdraw r).run w).value =
        some { status := 409,
               message := "Cannot withdraw while player is in Betting Process" }) ∧
    (∀ (cfg : Config) (player : Player) (timeout : Nat) (messageType : Int)
        (parsedData : Option (List (String × JsonValue))) (w : World) (id : Int),
      Event.CheckPlayerBettingStatus id true none ∈
        ((playMessage cfg player timeout messageType parsedData).run w).trace →
      (∀ e ∈ ((playMessage cfg player timeout messageType parsedData).run w).trace,
          e.isBalanceWrite = false ∧ e.isStatusUpdate = false) ∧
      ((playMessage cfg player timeout messageType parsedData).run w).world.players
        = w.players ∧
      (∃ p, selectRow
          ((playMessage cfg player timeout messageType parsedData).run w).world.players
          id = some p ∧ p.IsBetting = true) ∧
      (∃ errs err,
        Event.WriteMessage messageType
          { message := "Error creating bet, check error list", code := 400,
            errorsList := some errs } err ∈
          ((playMessage cfg player timeout messageType parsedData).run w).trace ∧
        "Player already betting, please await the bet processing..." ∈ errs)) ∧
    (∀ (cfg : Config) (player : Player) (timeout : Nat) (messageType : Int)
        (parsedData : Option (List (String × JsonValue))) (w : World) (id : Int),
      Event.CheckPlayerBettingStatus id true none ∈
        ((endPlayMessage cfg player timeout messageType parsedData).run w).trace →
      (∀ e ∈ ((endPlayMessage cfg player timeout messageType parsedData).run w).trace,
          e.isBalanceWrite = false ∧ e.isStatusUpdate = false) ∧
      ((endPlayMessage cfg player timeout messageType parsedData).run w).world.players
        = w.players ∧
      (∃ p, selectRow
          ((endPlayMessage cfg player timeout messageType parsedData).run w).world.players
          id = some p ∧ p.IsBetting = true) ∧
      (∃ errs err,
        Event.WriteMessage messageType
          { message := "Error cashing bet balance, check error list", code := 400,
            errorsList := some errs } err ∈
          ((endPlayMessage cfg player timeout messageType parsedData).run w).trace ∧
        "Player already betting, please await the bet processing..." ∈ errs)) :=
  ⟨deposit_gate_busy, withdraw_gate_busy, play_gate_busy, endPlay_gate_busy⟩

/-- C3 (witness). Charlie is seeded with the flag set.  A deposit, a withdrawal, a
bet and a cash-in of Charlie each reach the gate check, which reports true, so the
statement applies to each of the four runs. -/
theorem gate_busy_rejects_without_mutation_witness :
    ((HandleDeposit (postAmount 3 50)).run { players := [charlie] }).value =
      some { status := 409, message := "Cannot deposit while player is in Betting Process" } ∧
    ((HandleWithdraw (postAmount 3 50)).run { players := [charlie] }).value =
      some { status := 409,
             message := "Cannot withdraw while player is in Betting Process" } ∧
    ((playMessage sampleConfig charlie 0 TextMessage
        (some [("betType", JsonValue.string "pair"), ("betAmount", JsonValue.number 20)])).run
      { players := [charlie] }).world.players = [charlie] ∧
    ((endPlayMessage sampleConfig charlie 0 TextMessage
        (some [("cashInAmount", JsonValue.number 15)])).run
      { players := [charlie] }).world.players = [charlie] :=
  ⟨(gate_busy_rejects_without_mutation.1 (postAmount 3 50) { players := [charlie] } 3
      (by simp [HandleDeposit, postAmount, charlie, AuthenticateUser, Prog.bind, Prog.run,
            models.GetPlayerByID, models.CheckPlayerBettingStatus, World.nextFault, selectRow,
            Outcome.after])).2.2.2,
   (gate_busy_rejects_without_mutation.2.1 (postAmount 3 50) { players := [charlie] } 3
      (by simp [HandleWithdraw, postAmount, charlie, AuthenticateUser, Prog.bind, Prog.run,
            models.GetPlayerByID, models.CheckPlayerBettingStatus, World.nextFault, selectRow,
            Outcome.after])).2.2.2,
   (gate_busy_rejects_without_mutation.2.2.1 sampleConfig charlie 0 TextMessage
      (some [("betType", JsonValue.string "pair"), ("betAmount", JsonValue.number 20)])
      { players := [charlie] } 3
      (by simp [playMessage, charlie, Prog.run, models.CheckPlayerBettingStatus,
            World.nextFault, selectRow, Outcome.after])).2.1,
   (gate_busy_rejects_without_mutation.2.2.2 sampleConfig charlie 0 TextMessage
      (some [("cashInAmount", JsonValue.number 15)])
      { players := [charlie] } 3
      (by simp [endPlayMessage, charlie, Prog.run, models.CheckPlayerBettingStatus,
            World.nextFault, World.Stop, selectRow, Outcome.after])).2.1⟩

/-! ## C4: the balance commit and its event -/

/-- After the balance update every row of that id holds the written values. -/
theorem setBalances_values {id : Int} {x y : ℚ} {rows : List Player} {p : Player}
    (hp : p ∈ setBalances id x y rows) (hid : p.ID = id) : p.Wallet = x ∧ p.BetBalance = y := by
  unfold setBalances at hp
  obtain ⟨q, -, hq⟩ := List.mem_map.1 hp
  by_cases h : q.ID = id
  · rw [if_pos h] at hq
    rw [← hq]
    exact ⟨rfl, rfl⟩
  · rw [if_neg h] at hq
    rw [← hq] at hid
    exact absurd hid h

/-- C4. `UpdatePlayerBalance` publishes exactly when the store write succeeds.  When
the write fails with `e`, it returns `e`, its only event is the failed write, and no
row changes.  When the write succeeds it returns nil, whatever the registry holds;
its events are the write followed by exactly one `Emit`, on the topic of that player,
carrying the rounded wallet and bet balance that were written, and those are the
values every row of that player now holds. -/
theorem UpdatePlayerBalance_publishes_iff_written (playerId : Int) (x y : ℚ) (w : World) :
    (∀ e, w.nextFault.1 = some e →
      (models.UpdatePlayerBalance playerId x y w).1 = some e ∧
      (models.UpdatePlayerBalance playerId x y w).2.2 =
        [Event.balanceWrite playerId (models.round2 x) (models.round2 y) (some e)] ∧
      (models.UpdatePlayerBalance playerId x y w).2.1.players = w.players) ∧
    (w.nextFault.1 = none →
      (models.UpdatePlayerBalance playerId x y w).1 = none ∧
      (models.UpdatePlayerBalance playerId x y w).2.2 =
        [Event.balanceWrite playerId (models.round2 x) (models.round2 y) none,
         Event.Emit (models.balanceUpdateEvent playerId)
           { Wallet := models.round2 x, BetBalance := models.round2 y }
           (w.emitter.Emit (models.balanceUpdateEvent playerId)
             { Wallet := models.round2 x, BetBalance := models.round2 y })] ∧
      (models.UpdatePlayerBalance playerId x y w).2.1.players =
        setBalances playerId (models.round2 x) (models.round2 y) w.players ∧
      ∀ p ∈ (models.UpdatePlayerBalance playerId x y w).2.1.players, p.ID = playerId →
        p.Wallet = models.round2 x ∧ p.BetBalance = models.round2 y) := by
  refine ⟨fun e he => ?_, fun hn => ?_⟩
  · simp [models.UpdatePlayerBalance, he, nextFault_players]
  · have hrows : (models.UpdatePlayerBalance playerId x y w).2.1.players =
        setBalances playerId (models.round2 x) (models.round2 y) w.players := by
      simp [models.UpdatePlayerBalance, hn, nextFault_players]
    refine ⟨by simp [models.UpdatePlayerBalance, hn],
      by simp [models.UpdatePlayerBalance, hn, nextFault_emitter], hrows, ?_⟩
    intro p hp hid
    rw [hrows] at hp
    exact setBalances_values hp hid

/-- C4 (witness). A commit of 350.004 / 30 for Bob: once with the store failing, once
with the store writing and one subscriber registered on Bob\x27s topic. -/
theorem UpdatePlayerBalance_publishes_iff_written_witness :
    (models.UpdatePlayerBalance 2 (350004 / 1000) 30
        { players := [bob], dbFaults := [some "disk full"] }).2.2 =
      [Event.balanceWrite 2 (models.round2 (350004 / 1000)) (models.round2 30)
        (some "disk full")] ∧
    (models.UpdatePlayerBalance 2 (350004 / 1000) 30
        { players := [bob],
          emitter := { listeners := [("BalanceUpdate_2", [(0, 7)])], nextID := 1 } }).1 = none :=
  ⟨((UpdatePlayerBalance_publishes_iff_written 2 (350004 / 1000) 30
      { players := [bob], dbFaults := [some "disk full"] }).1 "disk full" rfl).2.1,
   ((UpdatePlayerBalance_publishes_iff_written 2 (350004 / 1000) 30
      { players := [bob],
        emitter := { listeners := [("BalanceUpdate_2", [(0, 7)])], nextID := 1 } }).2 rfl).1⟩

/-! ## C5: non-negativity of committed balances -/

/-- C5 (evaluation at the failing input). Dana has wallet 5 and bet balance 30, both
non-negative; the multiplier is 2.  The cash-in message `{"cashInAmount": -10}`
makes the handler call `UpdatePlayerBalance` with wallet -5: a negative wallet is
written and stays in the store. -/
theorem cashIn_negative_amount_writes_negative_wallet :
    Event.balanceWrite 4 (-5) 40 none ∈
      ((endPlayMessage sampleConfig dana 0 TextMessage
          (some [("cashInAmount", JsonValue.number (-10))])).run { players := [dana] }).trace ∧
    ((endPlayMessage sampleConfig dana 0 TextMessage
        (some [("cashInAmount", JsonValue.number (-10))])).run { players := [dana] }).world.players
      = [{ dana with Wallet := -5, BetBalance := 40 }] ∧
    (0 : ℚ) ≤ dana.Wallet ∧ (0 : ℚ) ≤ dana.BetBalance ∧
    (0 : ℚ) ≤ sampleConfig.WINNING_MULTIPLIER ∧ (-5 : ℚ) < 0 := by
  simp [endPlayMessage, cashInValidation, gateErrors, cashInResponse, sendResponse,
    processCashIn, sampleConfig, dana, TextMessage, asFloat64, mapGet,
    Prog.bind, Prog.run, models.GetPlayerByID, models.CheckPlayerBettingStatus,
    models.UpdatePlayerBettingStatus, models.UpdatePlayerBalance, World.nextFault,
    World.WriteMessage, World.AfterFunc, World.Stop, selectRow, setIsBetting, setBalances,
    Outcome.after, models.round2, models.Round, models.balanceUpdateEvent,
    EventEmitter.Emit, NewEventEmitter]
  norm_num

/-! ## C6: release of the gate in the streaming handlers -/

/-- A place-bet round that takes the gate issues the reset right before the response.
-/
theorem play_gate_released (cfg : Config) (player : Player) (timeout : Nat)
    (messageType : Int) (parsedData : Option (List (String × JsonValue))) (w : World)
    (id : Int) (e1 : Option String)
    (h : Event.UpdatePlayerBettingStatus id true e1 ∈
      ((playMessage cfg player timeout messageType parsedData).run w).trace) :
    ∃ pre e2 response err post,
      ((playMessage cfg player timeout messageType parsedData).run w).trace =
        pre ++ Event.UpdatePlayerBettingStatus id false e2 ::
          Event.WriteMessage messageType response err :: post ∧
      (∀ e ∈ post, e.isStatusUpdate = false) ∧
      (e2 = none →
        ∀ p ∈ ((playMessage cfg player timeout messageType parsedData).run w).world.players,
          p.ID = id → p.IsBetting = false) := by
  revert h
  rcases parsedData with _ | pd
  · simp only [playMessage, Prog.run_WriteMessage, Prog.run_ret]
    obtain ⟨w1, err, hw1, -, h1⟩ := WriteMessage_cases messageType
      { message := "Invalid JSON", code := 400, errorsList := some ["Invalid JSON received"] } w
    simp [h1, Outcome.after]
  simp only [playMessage, Prog.run_CheckPlayerBettingStatus]
  obtain ⟨w1, hw1, -, ⟨e, h1⟩ | ⟨q, hq, h1⟩⟩ := CheckPlayerBettingStatus_cases player.ID w
  · simp [h1, Outcome.after, statusUpdate_not_mem_sendResponse]
  simp only [h1]
  split_ifs with hgo
  swap
  · simp [Outcome.after, statusUpdate_not_mem_sendResponse]
  simp only [Prog.run_UpdatePlayerBettingStatus, Prog.run_bind]
  obtain ⟨w2, e1a, -, h2⟩ := UpdatePlayerBettingStatus_any player.ID true w1
  simp only [h2]
  obtain ⟨⟨res, berr⟩, hval⟩ := processBet_value cfg player.ID
    (asFloat64 (mapGet pd "betAmount")).1 (asString (mapGet pd "betType")).1 w2
  have hnb := statusUpdate_not_mem_processBet cfg player.ID
    (asFloat64 (mapGet pd "betAmount")).1 (asString (mapGet pd "betType")).1 w2
  generalize (processBet cfg player.ID (asFloat64 (mapGet pd "betAmount")).1
    (asString (mapGet pd "betType")).1).run w2 = ob at hval hnb ⊢
  simp only [hval, Prog.run_UpdatePlayerBettingStatus]
  obtain ⟨w4, e2, hset, h4⟩ := UpdatePlayerBettingStatus_any player.ID false ob.world
  simp only [h4]
  intro hmem
  have hid : id = player.ID := by
    rcases berr with _ | be <;>
    simp [Outcome.after, statusUpdate_not_mem_sendResponse, hnb] at hmem <;>
    exact hmem.1
  subst hid
  rcases berr with _ | be
  · obtain ⟨w5, werr, v, rest, hw5, -, h5, hrest⟩ := sendResponse_cases cfg messageType
      (playResponse (gateErrors (playValidation pd) q.IsBetting none) (some res)) w4
    refine ⟨Event.CheckPlayerBettingStatus player.ID q.IsBetting none ::
        Event.UpdatePlayerBettingStatus player.ID true e1a :: ob.trace, e2,
      playResponse (gateErrors (playValidation pd) q.IsBetting none) (some res), werr, rest,
      by simp [h5, Outcome.after], ?_, ?_⟩
    · rcases hrest with rfl | ⟨t, rfl⟩ <;> simp [Event.isStatusUpdate]
    · intro he2 p hp hpid
      simp only [h5, Outcome.after] at hp
      rw [hw5, hset he2] at hp
      exact setIsBetting_flag hp hpid
  · obtain ⟨w5, werr, v, rest, hw5, -, h5, hrest⟩ := sendResponse_cases cfg messageType
      (playResponse (gateErrors (playValidation pd) q.IsBetting none ++ [be]) none) w4
    refine ⟨Event.CheckPlayerBettingStatus player.ID q.IsBetting none ::
        Event.UpdatePlayerBettingStatus player.ID true e1a :: ob.trace, e2,
      playResponse (gateErrors (playValidation pd) q.IsBetting none ++ [be]) none, werr, rest,
      by simp [h5, Outcome.after], ?_, ?_⟩
    · rcases hrest with rfl | ⟨t, rfl⟩ <;> simp [Event.isStatusUpdate]
    · intro he2 p hp hpid
      simp only [h5, Outcome.after] at hp
      rw [hw5, hset he2] at hp
      exact setIsBetting_flag hp hpid

/-- A cash-in round that takes the gate issues the reset right before the response. -/
theorem endPlay_gate_released (cfg : Config) (player : Player) (timeout : Nat)
    (messageType : Int) (parsedData : Option (List (String × JsonValue))) (w : World)
    (id : Int) (e1 : Option String)
    (h : Event.UpdatePlayerBettingStatus id true e1 ∈
      ((endPlayMessage cfg player timeout messageType parsedData).run w).trace) :
    ∃ pre e2 response err post,
      ((endPlayMessage cfg player timeout messageType parsedData).run w).trace =
        pre ++ Event.UpdatePlayerBettingStatus id false e2 ::
          Event.WriteMessage messageType response err :: post ∧
      (∀ e ∈ post, e.isStatusUpdate = false) ∧
      (e2 = none →
        ∀ p ∈ ((endPlayMessage cfg player timeout messageType parsedData).run w).world.players,
          p.ID = id → p.IsBetting = false) := by
  revert h
  obtain ⟨w0, hw0, -, h0⟩ := Stop_cases timeout w
  rcases parsedData with _ | pd
  · simp only [endPlayMessage, Prog.run_Stop, h0, Prog.run_WriteMessage, Prog.run_ret]
    obtain ⟨w1, err, hw1, -, h1⟩ := WriteMessage_cases messageType
      { message := "Invalid JSON", code := 400, errorsList := some ["Invalid JSON received"] } w0
    simp [h1, Outcome.after]
  simp only [endPlayMessage, Prog.run_Stop, h0, Prog.run_CheckPlayerBettingStatus]
  obtain ⟨w1, hw1, -, ⟨e, h1⟩ | ⟨q, hq, h1⟩⟩ := CheckPlayerBettingStatus_cases player.ID w0
  · simp [h1, Outcome.after, statusUpdate_not_mem_sendResponse]
  simp only [h1]
  split_ifs with hgo
  swap
  · simp [Outcome.after, statusUpdate_not_mem_sendResponse]
  simp only [Prog.run_UpdatePlayerBettingStatus, Prog.run_bind]
  obtain ⟨w2, e1a, -, h2⟩ := UpdatePlayerBettingStatus_any player.ID true w1
  simp only [h2]
  obtain ⟨cerr, hval⟩ := processCashIn_value player.ID
    (asFloat64 (mapGet pd "cashInAmount")).1 w2
  have hnb := statusUpdate_not_mem_processCashIn player.ID
    (asFloat64 (mapGet pd "cashInAmount")).1 w2
  generalize (processCashIn player.ID (asFloat64 (mapGet pd "cashInAmount")).1).run w2 = ob
    at hval hnb ⊢
  simp only [hval, Prog.run_UpdatePlayerBettingStatus]
  obtain ⟨w4, e2, hset, h4⟩ := UpdatePlayerBettingStatus_any player.ID false ob.world
  simp only [h4]
  intro hmem
  have hid : id = player.ID := by
    rcases cerr with _ | be <;>
    simp [Outcome.after, statusUpdate_not_mem_sendResponse, hnb] at hmem <;>
    exact hmem.1
  subst hid
  rcases cerr with _ | be
  · obtain ⟨w5, werr, v, rest, hw5, -, h5, hrest⟩ := sendResponse_cases cfg messageType
      (cashInResponse (gateErrors (cashInValidation pd) q.IsBetting none)) w4
    refine ⟨Event.Stop timeout :: Event.CheckPlayerBettingStatus player.ID q.IsBetting none ::
        Event.UpdatePlayerBettingStatus player.ID true e1a :: ob.trace, e2,
      cashInResponse (gateErrors (cashInValidation pd) q.IsBetting none), werr, rest,
      by simp [h5, Outcome.after], ?_, ?_⟩
    · rcases hrest with rfl | ⟨t, rfl⟩ <;> simp [Event.isStatusUpdate]
    · intro he2 p hp hpid
      simp only [h5, Outcome.after] at hp
      rw [hw5, hset he2] at hp
      exact setIsBetting_flag hp hpid
  · obtain ⟨w5, werr, v, rest, hw5, -, h5, hrest⟩ := sendResponse_cases cfg messageType
      (cashInResponse (gateErrors (cashInValidation pd) q.IsBetting none ++ [be])) w4
    refine ⟨Event.Stop timeout :: Event.CheckPlayerBettingStatus player.ID q.IsBetting none ::
        Event.UpdatePlayerBettingStatus player.ID true e1a :: ob.trace, e2,
      cashInResponse (gateErrors (cashInValidation pd) q.IsBetting none ++ [be]), werr, rest,
      by simp [h5, Outcome.after], ?_, ?_⟩
    · rcases hrest with rfl | ⟨t, rfl⟩ <;> simp [Event.isStatusUpdate]
    · intro he2 p hp hpid
      simp only [h5, Outcome.after] at hp
      rw [hw5, hset he2] at hp
      exact setIsBetting_flag hp hpid

/-- C6 (counterexample). Bob (wallet 300, bet balance 30, flag false) sends a bet of 20
on "pair" while the store accepts the gate lookup, the write of the flag, the account
load and the commit, and rejects the fifth call, the reset of the flag.  The handler
discards the error of `UpdatePlayerBettingStatus(id, false)`: the response "Bet
placed successfully" with code 200 is written and the timer re-armed, and every row
of Bob still has the flag true.  The same happens in a cash-in round in which the
account load and the reset are both rejected: the response lists the load error only
and the flag stays true. -/
theorem streaming_reset_failure_leaves_flag_set :
    ((playMessage sampleConfig bob 0 TextMessage
        (some [("betType", JsonValue.string "pair"),
               ("betAmount", JsonValue.number 20)])).run resetFailsWorld).trace =
      [Event.CheckPlayerBettingStatus 2 false none,
       Event.UpdatePlayerBettingStatus 2 true none,
       Event.GetPlayerByID 2 (some { bob with IsBetting := true }) none,
       Event.Intn 6 0,
       Event.balanceWrite 2 300 10 none,
       Event.Emit (models.balanceUpdateEvent 2) { Wallet := 300, BetBalance := 10 } [],
       Event.UpdatePlayerBettingStatus 2 false (some "player betting status was not updated"),
       Event.WriteMessage TextMessage
         { message := "Bet placed successfully", code := 200,
           result := some { DiceNumber := 1, PlayerWin := false, PlayerOriginalBet := "pair",
                            PlayerMessage := "You\x27ve Lost :(", Winnings := -20 } } none,
       Event.AfterFunc 10 0] ∧
    ((playMessage sampleConfig bob 0 TextMessage
        (some [("betType", JsonValue.string "pair"),
               ("betAmount", JsonValue.number 20)])).run resetFailsWorld).world.players =
      [{ bob with BetBalance := 10, IsBetting := true }] ∧
    ((endPlayMessage sampleConfig bob 0 TextMessage
        (some [("cashInAmount", JsonValue.number 15)])).run loadAndResetFailWorld).trace =
      [Event.Stop 0,
       Event.CheckPlayerBettingStatus 2 false none,
       Event.UpdatePlayerBettingStatus 2 true none,
       Event.GetPlayerByID 2 none (some "error fetching player: disk I/O error"),
       Event.UpdatePlayerBettingStatus 2 false (some "player betting status was not updated"),
       Event.WriteMessage TextMessage
         { message := "Error cashing bet balance, check error list", code := 400,
           errorsList := some ["error fetching player: disk I/O error"] } none,
       Event.AfterFunc 10 0] ∧
    ((endPlayMessage sampleConfig bob 0 TextMessage
        (some [("cashInAmount", JsonValue.number 15)])).run
          loadAndResetFailWorld).world.players = [{ bob with IsBetting := true }] := by
  have hT : mapGet [("betType", JsonValue.string "pair"), ("betAmount", JsonValue.number 20)]
      "betType" = some (JsonValue.string "pair") := by
    simp [mapGet]
  have hA : mapGet [("betType", JsonValue.string "pair"), ("betAmount", JsonValue.number 20)]
      "betAmount" = some (JsonValue.number 20) := by
    simp [mapGet]
  have hC : mapGet [("cashInAmount", JsonValue.number 15)] "cashInAmount" =
      some (JsonValue.number 15) := by
    simp [mapGet]
  have hlost : playerWon 1 "pair" = false := by decide
  refine ⟨?_, ?_, ?_, ?_⟩
  · norm_num [creditWinnings, rollResult, playMessage, playValidation, gateErrors, asString,
      asFloat64, hT, hA, hlost, rolledDiceNumber, sampleConfig, bob,
      resetFailsWorld, processBet, playResponse, sendResponse,
      Prog.run, Prog.bind, models.CheckPlayerBettingStatus, models.UpdatePlayerBettingStatus,
      models.GetPlayerByID, models.UpdatePlayerBalance, World.nextFault, World.Intn,
      World.WriteMessage, World.AfterFunc, selectRow, setIsBetting, setBalances, Outcome.after,
      Player.DeductBetAmount, models.round2, models.Round,
      EventEmitter.Emit, NewEventEmitter, TextMessage]
    rfl
  · norm_num [creditWinnings, rollResult, playMessage, playValidation, gateErrors, asString,
      asFloat64, hT, hA, hlost, rolledDiceNumber, sampleConfig, bob,
      resetFailsWorld, processBet, playResponse, sendResponse,
      Prog.run, Prog.bind, models.CheckPlayerBettingStatus, models.UpdatePlayerBettingStatus,
      models.GetPlayerByID, models.UpdatePlayerBalance, World.nextFault, World.Intn,
      World.WriteMessage, World.AfterFunc, selectRow, setIsBetting, setBalances, Outcome.after,
      Player.DeductBetAmount, models.round2, models.Round,
      EventEmitter.Emit, NewEventEmitter, TextMessage]
  · norm_num [endPlayMessage, cashInValidation, gateErrors, asFloat64, hC, bob,
      loadAndResetFailWorld, processCashIn, cashInResponse, sendResponse, sampleConfig,
      Prog.run, Prog.bind, models.CheckPlayerBettingStatus, models.UpdatePlayerBettingStatus,
      models.GetPlayerByID, World.nextFault, World.Stop, World.WriteMessage, World.AfterFunc,
      selectRow, setIsBetting, Outcome.after, TextMessage]
    decide
  · norm_num [endPlayMessage, cashInValidation, gateErrors, asFloat64, hC, bob,
      loadAndResetFailWorld, processCashIn, cashInResponse, sendResponse, sampleConfig,
      Prog.run, Prog.bind, models.CheckPlayerBettingStatus, models.UpdatePlayerBettingStatus,
      models.GetPlayerByID, World.nextFault, World.Stop, World.WriteMessage, World.AfterFunc,
      selectRow, setIsBetting, Outcome.after, TextMessage]

/-- C6 (amended). In every message round of the place-bet and of the cash-in handler
that contains a call `UpdatePlayerBettingStatus(id, true)`, the call
`UpdatePlayerBettingStatus(id, false)` is issued immediately before the response is
written, whatever `processBet` or `processCashIn` returned; no later operation of
the round touches the flag; and when the store accepts that reset write, every row
of the player has the flag false in the store the round leaves. -/
theorem streaming_gate_released_before_response :
    (∀ (cfg : Config) (player : Player) (timeout : Nat) (messageType : Int)
        (parsedData : Option (List (String × JsonValue))) (w : World) (id : Int)
        (e1 : Option String),
      Event.UpdatePlayerBettingStatus id true e1 ∈
        ((playMessage cfg player timeout messageType parsedData).run w).trace →
      ∃ pre e2 response err post,
        ((playMessage cfg player timeout messageType parsedData).run w).trace =
          pre ++ Event.UpdatePlayerBettingStatus id false e2 ::
            Event.WriteMessage messageType response err :: post ∧
        (∀ e ∈ post, e.isStatusUpdate = false) ∧
        (e2 = none →
          ∀ p ∈ ((playMessage cfg player timeout messageType parsedData).run w).world.players,
            p.ID = id → p.IsBetting = false)) ∧
    (∀ (cfg : Config) (player : Player) (timeout : Nat) (messageType : Int)
        (parsedData : Option (List (String × JsonValue))) (w : World) (id : Int)
        (e1 : Option String),
      Event.UpdatePlayerBettingStatus id true e1 ∈
        ((endPlayMessage cfg player timeout messageType parsedData).run w).trace →
      ∃ pre e2 response err post,
        ((endPlayMessage cfg player timeout messageType parsedData).run w).trace =
          pre ++ Event.UpdatePlayerBettingStatus id false e2 ::
            Event.WriteMessage messageType response err :: post ∧
        (∀ e ∈ post, e.isStatusUpdate = false) ∧
        (e2 = none →
          ∀ p ∈
            ((endPlayMessage cfg player timeout messageType parsedData).run w).world.players,
            p.ID = id → p.IsBetting = false)) :=
  ⟨play_gate_released, endPlay_gate_released⟩

/-- C6 (witness). Bob places a bet of 20 on "pair", and Bob cashes in 15: both rounds
take the gate, so the theorem applies to both. -/
theorem streaming_gate_released_before_response_witness :
    (∃ pre e2 response err post,
      ((playMessage sampleConfig bob 0 TextMessage
          (some [("betType", JsonValue.string "pair"),
                 ("betAmount", JsonValue.number 20)])).run { players := [bob] }).trace =
        pre ++ Event.UpdatePlayerBettingStatus 2 false e2 ::
          Event.WriteMessage TextMessage response err :: post ∧
      (∀ e ∈ post, e.isStatusUpdate = false) ∧
      (e2 = none →
        ∀ p ∈ ((playMessage sampleConfig bob 0 TextMessage
            (some [("betType", JsonValue.string "pair"),
                   ("betAmount", JsonValue.number 20)])).run { players := [bob] }).world.players,
          p.ID = 2 → p.IsBetting = false)) ∧
    (∃ pre e2 response err post,
      ((endPlayMessage sampleConfig bob 0 TextMessage
          (some [("cashInAmount", JsonValue.number 15)])).run { players := [bob] }).trace =
        pre ++ Event.UpdatePlayerBettingStatus 2 false e2 ::
          Event.WriteMessage TextMessage response err :: post ∧
      (∀ e ∈ post, e.isStatusUpdate = false) ∧
      (e2 = none →
        ∀ p ∈ ((endPlayMessage sampleConfig bob 0 TextMessage
            (some [("cashInAmount", JsonValue.number 15)])).run { players := [bob] }).world.players,
          p.ID = 2 → p.IsBetting = false)) :=
  ⟨streaming_gate_released_before_response.1 sampleConfig bob 0 TextMessage
      (some [("betType", JsonValue.string "pair"), ("betAmount", JsonValue.number 20)])
      { players := [bob] } 2 none
      (by simp [playMessage, playValidation, gateErrors, asString, asFloat64, mapGet, bob,
            Prog.run, models.CheckPlayerBettingStatus, models.UpdatePlayerBettingStatus,
            World.nextFault, selectRow, Outcome.after]),
   streaming_gate_released_before_response.2 sampleConfig bob 0 TextMessage
      (some [("cashInAmount", JsonValue.number 15)])
      { players := [bob] } 2 none
      (by simp [endPlayMessage, cashInValidation, gateErrors, asFloat64, mapGet, bob,
            Prog.run, models.CheckPlayerBettingStatus, models.UpdatePlayerBettingStatus,
            World.nextFault, World.Stop, selectRow, Outcome.after])⟩

/-! ## C7: two requests on one player -/

/-- C7 (evaluation at the failing interleaving). Two deposits of Bob, of 50 and of
70, run with every store call atomic.  When both requests read the flag before
either writes it, both observe false: both are inside the gate at the same time.
Neither is answered with gate-busy; both commit and get 200, and the second commit
(300 + 70) overwrites the first (300 + 50). -/
theorem two_deposits_both_enter_the_gate :
    insideGate 2 (twoDeposits.exec bothCheckFirst).firstTrace = true ∧
    insideGate 2 (twoDeposits.exec bothCheckFirst).secondTrace = true ∧
    (twoDeposits.exec (bothCheckFirst ++ thenAlternate)).first =
      Prog.ret { status := 200, message := "Deposit successful", amount := some 50,
                 newBalance := some 350 } ∧
    (twoDeposits.exec (bothCheckFirst ++ thenAlternate)).second =
      Prog.ret { status := 200, message := "Deposit successful", amount := some 70,
                 newBalance := some 370 } ∧
    Event.balanceWrite 2 350 30 none ∈
      (twoDeposits.exec (bothCheckFirst ++ thenAlternate)).firstTrace ∧
    Event.balanceWrite 2 370 30 none ∈
      (twoDeposits.exec (bothCheckFirst ++ thenAlternate)).secondTrace ∧
    (twoDeposits.exec (bothCheckFirst ++ thenAlternate)).world.players =
      [{ bob with Wallet := 370 }] := by
  simp [twoDeposits, bothCheckFirst, thenAlternate, Race.exec, Race.step, insideGate,
    HandleDeposit, postAmount, bob, AuthenticateUser, Prog.bind, Prog.step,
    models.GetPlayerByID, models.CheckPlayerBettingStatus, models.UpdatePlayerBettingStatus,
    models.UpdatePlayerBalance, World.nextFault, selectRow, setIsBetting, setBalances,
    errorText, models.round2, models.Round, models.balanceUpdateEvent,
    EventEmitter.Emit, NewEventEmitter]
  norm_num

/-! ## C8: deposit followed by withdraw -/

/-- The JSON number 0.005 stored in a `float32`: 0.004999999888241291. -/
theorem f32_half_cent : f32 (1 / 200) = (5368709 / 1073741824) :=
  f32_eq_of_pos (1 / 200) (-8) 10737418 (5368709 / 1073741824)
    (by norm_num) (by norm_num) (by norm_num)
    (by norm_num) (by norm_num) (by norm_num)

/-- The `float32` sum of the stored 0.01 and the decoded 0.005. -/
theorem f32_cent_add_half_cent : f32 (16106127 / 1073741824) = (16106127 / 1073741824) :=
  f32_eq_of_pos (16106127 / 1073741824) (-7) 16106127 (16106127 / 1073741824)
    (by norm_num) (by norm_num) (by norm_num)
    (by norm_num) (by norm_num) (by norm_num)

/-- The commit of that sum writes the `float32` 0.01. -/
theorem round2_cent_add_half_cent : Binary32.round2 (16106127 / 1073741824) = (5368709 / 536870912) :=
  Binary32.round2_eq_of (16106127 / 1073741824) (16106127 / 1073741824) (402653175 / 268435456) (5764607523034235 / 576460752303423488) (5368709 / 536870912) 1
    (f64_eq_of_pos (16106127 / 1073741824) (-7) 8646911091277824 (16106127 / 1073741824)
      (by norm_num) (by norm_num) (by norm_num)
      (by norm_num) (by norm_num) (by norm_num))
    (f64_eq_of_pos ((16106127 / 1073741824) * 100) (0) 6755399290060800 (402653175 / 268435456)
      (by norm_num) (by norm_num) (by norm_num)
      (by norm_num) (by norm_num) (by norm_num))
    (models.Round_eq_of_near (402653175 / 268435456) 1 (by norm_num) (by norm_num) (by norm_num))
    (f64_eq_of_pos (((1 : ℤ) : ℚ) / 100) (-7) 5764607523034235 (5764607523034235 / 576460752303423488)
      (by norm_num) (by norm_num) (by norm_num)
      (by norm_num) (by norm_num) (by norm_num))
    (f32_eq_of_pos (5764607523034235 / 576460752303423488) (-7) 10737418 (5368709 / 536870912)
      (by norm_num) (by norm_num) (by norm_num)
      (by norm_num) (by norm_num) (by norm_num))

/-- The commit of the decoded 0.005 writes 0. -/
theorem round2_half_cent : Binary32.round2 (5368709 / 1073741824) = 0 :=
  Binary32.round2_eq_of (5368709 / 1073741824) (5368709 / 1073741824) (134217725 / 268435456) 0 0 0
    (f64_eq_of_pos (5368709 / 1073741824) (-8) 5764607394185216 (5368709 / 1073741824)
      (by norm_num) (by norm_num) (by norm_num)
      (by norm_num) (by norm_num) (by norm_num))
    (f64_eq_of_pos ((5368709 / 1073741824) * 100) (-2) 9007199053414400 (134217725 / 268435456)
      (by norm_num) (by norm_num) (by norm_num)
      (by norm_num) (by norm_num) (by norm_num))
    (models.Round_eq_of_near (134217725 / 268435456) 0 (by norm_num) (by norm_num) (by norm_num))
    (by simpa using f64_intCast 0 (by norm_num))
    (f32_zero)

/-- The `float32` difference of the stored 0.01 and the decoded 0.005 is exact. -/
theorem f32_cent_sub_half_cent : f32 (5368709 / 1073741824) = (5368709 / 1073741824) :=
  f32_eq_of_pos (5368709 / 1073741824) (-8) 10737418 (5368709 / 1073741824)
    (by norm_num) (by norm_num) (by norm_num)
    (by norm_num) (by norm_num) (by norm_num)

/-- C8 (counterexample). Eve has wallet 0.01 and bet balance 0.  She deposits 0.005 and
then withdraws 0.005; both requests are answered 200.
* In the source\x27s `float32` arithmetic the body 0.005 is decoded to
  0.004999999888..., the deposit commits round(1.4999999...)/100 = 0.01 and the
  withdrawal commits round(0.4999999...)/100 = 0: the wallet ends at 0.00.
* Over exact decimal arithmetic the deposit commits round(1.5)/100 = 0.02 and the
  withdrawal commits round(1.5)/100 = 0.02: the wallet ends at 0.02.
In neither reading is the wallet 0.01 again. -/
theorem deposit_withdraw_half_cent_not_restored :
    f32 (1 / 100) = cent32 ∧ (0 : ℚ) < 1 / 200 ∧ (1 / 200 : ℚ) ≤ 1000000 ∧
    (((Binary32.HandleDeposit (postAmount 5 (1 / 200))).run
        { players := [{ eve with Wallet := cent32 }] }).value.map (fun r => r.status)) =
      some 200 ∧
    ((Binary32.HandleDeposit (postAmount 5 (1 / 200))).run
        { players := [{ eve with Wallet := cent32 }] }).world =
      { players := [{ eve with Wallet := cent32 }] } ∧
    (((Binary32.HandleWithdraw (postAmount 5 (1 / 200))).run
        ((Binary32.HandleDeposit (postAmount 5 (1 / 200))).run
          { players := [{ eve with Wallet := cent32 }] }).world).value.map
            (fun r => r.status)) = some 200 ∧
    ((Binary32.HandleWithdraw (postAmount 5 (1 / 200))).run
        ((Binary32.HandleDeposit (postAmount 5 (1 / 200))).run
          { players := [{ eve with Wallet := cent32 }] }).world).world.players =
      [{ eve with Wallet := 0 }] ∧
    (((HandleDeposit (postAmount 5 (1 / 200))).run
        { players := [{ eve with Wallet := 1 / 100 }] }).value.map (fun r => r.status)) =
      some 200 ∧
    (((HandleWithdraw (postAmount 5 (1 / 200))).run
        ((HandleDeposit (postAmount 5 (1 / 200))).run
          { players := [{ eve with Wallet := 1 / 100 }] }).world).value.map
            (fun r => r.status)) = some 200 ∧
    ((HandleWithdraw (postAmount 5 (1 / 200))).run
        ((HandleDeposit (postAmount 5 (1 / 200))).run
          { players := [{ eve with Wallet := 1 / 100 }] }).world).world.players =
      [{ eve with Wallet := 1 / 50 }] := by
  have hdec : decodeFloat32 (1 / 200) = some (5368709 / 1073741824) := by
    unfold decodeFloat32
    rw [f32_half_cent, if_pos]
    rw [abs_of_nonneg (by norm_num)]
    norm_num
  have hsum : cent32 + (5368709 / 1073741824 : ℚ) = 16106127 / 1073741824 := by
    unfold cent32
    norm_num
  have hdiff : cent32 - (5368709 / 1073741824 : ℚ) = 5368709 / 1073741824 := by
    unfold cent32
    norm_num
  have hge : ¬ cent32 < (5368709 / 1073741824 : ℚ) := by
    unfold cent32
    norm_num
  have hrow : selectRow ({ players := [{ eve with Wallet := cent32 }] } : World).players 5 =
      some { eve with Wallet := cent32 } := by
    simp [selectRow, eve]
  have h1 := Binary32.HandleDeposit_committed { players := [{ eve with Wallet := cent32 }] } 5
    (1 / 200) (5368709 / 1073741824) { eve with Wallet := cent32 } hrow rfl rfl hdec
    (by norm_num) (by norm_num)
  have h2 := Binary32.HandleWithdraw_committed { players := [{ eve with Wallet := cent32 }] } 5
    (1 / 200) (5368709 / 1073741824) { eve with Wallet := cent32 } hrow rfl rfl hdec
    (by norm_num) hge
  have hcent : (5368709 / 536870912 : ℚ) = cent32 := rfl
  have hw1 : ((Binary32.HandleDeposit (postAmount 5 (1 / 200))).run
      { players := [{ eve with Wallet := cent32 }] }).world =
      { players := [{ eve with Wallet := cent32 }] } := by
    rw [h1.2.1]
    simp only [hsum, f32_cent_add_half_cent, round2_cent_add_half_cent, hcent]
    simp [setBalances, setIsBetting, eve, Binary32.round2_of_zero]
  refine ⟨f32_cent, by norm_num, by norm_num, ?_, hw1, ?_, ?_, ?_, ?_, ?_⟩
  · rw [h1.1]
    rfl
  · rw [hw1, h2.1]
    rfl
  · rw [hw1, h2.2.1]
    simp only [hdiff, f32_cent_sub_half_cent, round2_half_cent]
    simp [setBalances, setIsBetting, eve, Binary32.round2_of_zero]
  · norm_num [HandleDeposit, postAmount, eve, AuthenticateUser, Prog.bind, Prog.run,
      models.GetPlayerByID, models.CheckPlayerBettingStatus, models.UpdatePlayerBettingStatus,
      models.UpdatePlayerBalance, World.nextFault, selectRow, setIsBetting, setBalances,
      Outcome.after, errorText, models.round2, models.Round]
  · norm_num [HandleDeposit, HandleWithdraw, postAmount, eve, AuthenticateUser, Prog.bind,
      Prog.run, models.GetPlayerByID, models.CheckPlayerBettingStatus,
      models.UpdatePlayerBettingStatus, models.UpdatePlayerBalance, World.nextFault, selectRow,
      setIsBetting, setBalances, Outcome.after, errorText, models.round2, models.Round]
  · norm_num [HandleDeposit, HandleWithdraw, postAmount, eve, AuthenticateUser, Prog.bind,
      Prog.run, models.GetPlayerByID, models.CheckPlayerBettingStatus,
      models.UpdatePlayerBettingStatus, models.UpdatePlayerBalance, World.nextFault, selectRow,
      setIsBetting, setBalances, Outcome.after, errorText, models.round2, models.Round]

/-- A deposit answered 200 ran the whole critical section: the gate was free, the
amount positive, and the row now holds the rounded new wallet with the flag false. -/
theorem deposit_success (w : World) (id : Int) (a : ℚ)
    (h : (((HandleDeposit (postAmount id a)).run w).value.map (fun r => r.status)) = some 200) :
    ∃ p, selectRow w.players id = some p ∧ p.IsBetting = false ∧ 0 < a ∧
      selectRow ((HandleDeposit (postAmount id a)).run w).world.players id =
        some { p with Wallet := models.round2 (p.Wallet + a),
                      BetBalance := models.round2 p.BetBalance } := by
  revert h
  simp only [HandleDeposit, postAmount, ne_eq, not_true_eq_false, if_false, AuthenticateUser,
    Prog.run_bind, Prog.run_GetPlayerByID]
  obtain ⟨w1, hw1, -, ⟨e, h1⟩ | ⟨p, hp, h1⟩⟩ := GetPlayerByID_cases id w
  · simp [h1, Outcome.after]
  have hpid : p.ID = id := selectRow_id hp
  simp only [h1, Prog.run_ret, Outcome.after]
  split_ifs with ha1 ha2
  · simp
  · simp
  simp only [Prog.run_CheckPlayerBettingStatus]
  obtain ⟨w2, hw2, -, ⟨e, h2⟩ | ⟨q, hq, h2⟩⟩ := CheckPlayerBettingStatus_cases p.ID w1
  · simp [h2, errorText, Outcome.after]
  obtain rfl : q = p := by
    rw [hw1, hpid, hp] at hq
    exact (Option.some.inj hq).symm
  simp only [h2]
  cases hflag : q.IsBetting
  swap
  · simp [Outcome.after]
  simp only [Bool.false_eq_true, if_false, ne_eq, not_true_eq_false,
    Prog.run_UpdatePlayerBettingStatus]
  rcases UpdatePlayerBettingStatus_cases q.ID true w2 with
    ⟨w3, hw3, -, e, h3⟩ | ⟨w3, hw3, -, h3⟩
  · simp [h3, errorText, Outcome.after]
  simp only [h3, not_true_eq_false, if_false, Prog.run_GetPlayerByID]
  obtain ⟨w4, hw4, -, ⟨e, h4⟩ | ⟨p4, hp4, h4⟩⟩ := GetPlayerByID_cases q.ID w3
  · simp [h4, Outcome.after]
  have hp4eq : p4 = { q with IsBetting := true } := by
    rw [hw3, hw2, hw1, selectRow_setIsBetting, hpid, hp] at hp4
    exact (Option.some.inj hp4).symm
  subst hp4eq
  simp only [h4, Prog.run_UpdatePlayerBalance]
  rcases UpdatePlayerBalance_cases q.ID (q.Wallet + a) q.BetBalance w4 with
    ⟨w5, hw5, -, e, h5⟩ | ⟨w5, hw5, -, h5⟩
  · simp [h5, Outcome.after]
  simp only [h5, Prog.run_UpdatePlayerBettingStatus]
  rcases UpdatePlayerBettingStatus_cases q.ID false w5 with
    ⟨w6, hw6, -, e, h6⟩ | ⟨w6, hw6, -, h6⟩
  · simp [h6, errorText, Outcome.after]
  intro _
  refine ⟨q, hp, hflag, not_le.1 ha1, ?_⟩
  simp only [h6, not_true_eq_false, if_false, Prog.run_ret, Outcome.after]
  rw [hw6, hw5, hw4, hw3, hw2, hw1, hpid, selectRow_setIsBetting, selectRow_setBalances,
    selectRow_setIsBetting, hp]
  simp [hflag, hpid]

/-- A withdrawal answered 200 ran the whole critical section: the gate was free, the
amount positive and covered by the wallet, and the row now holds the rounded new
wallet with the flag false. -/
theorem withdraw_success (w : World) (id : Int) (a : ℚ)
    (h : (((HandleWithdraw (postAmount id a)).run w).value.map (fun r => r.status)) = some 200) :
    ∃ p, selectRow w.players id = some p ∧ p.IsBetting = false ∧ 0 < a ∧ ¬ p.Wallet < a ∧
      selectRow ((HandleWithdraw (postAmount id a)).run w).world.players id =
        some { p with Wallet := models.round2 (p.Wallet - a),
                      BetBalance := models.round2 p.BetBalance } := by
  revert h
  simp only [HandleWithdraw, postAmount, ne_eq, not_true_eq_false, if_false, AuthenticateUser,
    Prog.run_bind, Prog.run_GetPlayerByID]
  obtain ⟨w1, hw1, -, ⟨e, h1⟩ | ⟨p, hp, h1⟩⟩ := GetPlayerByID_cases id w
  · simp [h1, Outcome.after]
  have hpid : p.ID = id := selectRow_id hp
  simp only [h1, Prog.run_ret, Outcome.after]
  split_ifs with ha1
  · simp
  simp only [Prog.run_CheckPlayerBettingStatus]
  obtain ⟨w2, hw2, -, ⟨e, h2⟩ | ⟨q, hq, h2⟩⟩ := CheckPlayerBettingStatus_cases p.ID w1
  · simp [h2, errorText, Outcome.after]
  obtain rfl : q = p := by
    rw [hw1, hpid, hp] at hq
    exact (Option.some.inj hq).symm
  simp only [h2]
  cases hflag : q.IsBetting
  swap
  · simp [Outcome.after]
  simp only [Bool.false_eq_true, if_false, ne_eq, not_true_eq_false,
    Prog.run_UpdatePlayerBettingStatus]
  rcases UpdatePlayerBettingStatus_cases q.ID true w2 with
    ⟨w3, hw3, -, e, h3⟩ | ⟨w3, hw3, -, h3⟩
  · simp [h3, errorText, Outcome.after]
  simp only [h3, not_true_eq_false, if_false, Prog.run_GetPlayerByID]
  obtain ⟨w4, hw4, -, ⟨e, h4⟩ | ⟨p4, hp4, h4⟩⟩ := GetPlayerByID_cases q.ID w3
  · simp [h4, Outcome.after]
  have hp4eq : p4 = { q with IsBetting := true } := by
    rw [hw3, hw2, hw1, selectRow_setIsBetting, hpid, hp] at hp4
    exact (Option.some.inj hp4).symm
  subst hp4eq
  simp only [h4]
  split_ifs with hlt
  · obtain ⟨w5, e5, -, h5⟩ := UpdatePlayerBettingStatus_any q.ID false w4
    simp [h5, Outcome.after]
  simp only [Prog.run_UpdatePlayerBalance]
  rcases UpdatePlayerBalance_cases q.ID (q.Wallet - a) q.BetBalance w4 with
    ⟨w5, hw5, -, e, h5⟩ | ⟨w5, hw5, -, h5⟩
  · simp [h5, Outcome.after]
  simp only [h5, Prog.run_UpdatePlayerBettingStatus]
  rcases UpdatePlayerBettingStatus_cases q.ID false w5 with
    ⟨w6, hw6, -, e, h6⟩ | ⟨w6, hw6, -, h6⟩
  · simp [h6, errorText, Outcome.after]
  intro _
  refine ⟨q, hp, hflag, not_le.1 ha1, hlt, ?_⟩
  simp only [h6, not_true_eq_false, if_false, Prog.run_ret, Outcome.after]
  rw [hw6, hw5, hw4, hw3, hw2, hw1, hpid, selectRow_setIsBetting, selectRow_setBalances,
    selectRow_setIsBetting, hp]
  simp [hflag, hpid]

/-- Over exact decimal arithmetic.  For every store, every player whose stored wallet is non-negative
and whose stored wallet and bet balance have at most 2 fraction digits, and every
amount that is not exactly halfway between two cents (100 x amount is not an integer
plus 1/2): when `HandleDeposit` of the amount succeeds and `HandleWithdraw` of the
same amount, run on the store the deposit left, succeeds too, the row of the player
is again the one the store held before (same wallet, same bet balance, flag
false). -/
theorem deposit_withdraw_round_trip_exact (w : World) (id : Int) (a : ℚ) (p : Player)
    (hp : selectRow w.players id = some p) (hnonneg : 0 ≤ p.Wallet)
    (hwallet : ∃ k : ℤ, p.Wallet = (k : ℚ) / 100)
    (hbet : ∃ k : ℤ, p.BetBalance = (k : ℚ) / 100)
    (htie : ∀ m : ℤ, 100 * a ≠ (m : ℚ) + 1 / 2)
    (hdeposit : (((HandleDeposit (postAmount id a)).run w).value.map
      (fun r => r.status)) = some 200)
    (hwithdraw : (((HandleWithdraw (postAmount id a)).run
      ((HandleDeposit (postAmount id a)).run w).world).value.map
      (fun r => r.status)) = some 200) :
    selectRow ((HandleWithdraw (postAmount id a)).run
      ((HandleDeposit (postAmount id a)).run w).world).world.players id = some p := by
  obtain ⟨p0, hp0, hflag, ha, hrow1⟩ := deposit_success w id a hdeposit
  obtain rfl : p0 = p := by
    rw [hp] at hp0
    exact (Option.some.inj hp0).symm
  obtain ⟨p1, hp1, -, -, hge, hrow2⟩ := withdraw_success _ id a hwithdraw
  rw [hrow1] at hp1
  obtain rfl := Option.some.inj hp1
  rw [hrow2]
  obtain ⟨k, hk⟩ := hwallet
  obtain ⟨kb, hkb⟩ := hbet
  simp only at hge ⊢
  rw [hk] at hge hnonneg
  rw [hk, hkb, models.round2_add_sub k a hnonneg ha htie hge, models.round2_cents,
    models.round2_cents, ← hk, ← hkb]

/-- In binary32.  A deposit answered 200 ran the whole critical section: the gate was
free, the decoded amount in range, and the row now holds the rounded new wallet with the flag false. -/
theorem Binary32.deposit_answered_200 (w : World) (id : Int) (x : ℚ)
    (h : (((Binary32.HandleDeposit (postAmount id x)).run w).value.map (fun r => r.status)) = some 200) :
    ∃ p a, selectRow w.players id = some p ∧ p.IsBetting = false ∧
      decodeFloat32 x = some a ∧ 0 < a ∧ a ≤ 1000000 ∧
      selectRow ((Binary32.HandleDeposit (postAmount id x)).run w).world.players id =
        some { p with Wallet := Binary32.round2 (f32 (p.Wallet + a)),
                      BetBalance := Binary32.round2 p.BetBalance } := by
  revert h
  simp only [Binary32.HandleDeposit, postAmount, ne_eq, not_true_eq_false, if_false, AuthenticateUser,
    Prog.run_bind, Prog.run_GetPlayerByID]
  obtain ⟨w1, hw1, -, ⟨e, h1⟩ | ⟨p, hp, h1⟩⟩ := GetPlayerByID_cases id w
  · simp [h1, Outcome.after]
  have hpid : p.ID = id := selectRow_id hp
  simp only [h1, Prog.run_ret, Outcome.after, Option.some_bind]
  rcases hx : decodeFloat32 x with _ | a
  · simp
  simp only []
  split_ifs with ha1 ha2
  · simp
  · simp
  simp only [Prog.run_CheckPlayerBettingStatus]
  obtain ⟨w2, hw2, -, ⟨e, h2⟩ | ⟨q, hq, h2⟩⟩ := CheckPlayerBettingStatus_cases p.ID w1
  · simp [h2, errorText, Outcome.after]
  obtain rfl : q = p := by
    rw [hw1, hpid, hp] at hq
    exact (Option.some.inj hq).symm
  simp only [h2]
  cases hflag : q.IsBetting
  swap
  · simp [Outcome.after]
  simp only [Bool.false_eq_true, if_false, ne_eq, not_true_eq_false,
    Prog.run_UpdatePlayerBettingStatus]
  rcases UpdatePlayerBettingStatus_cases q.ID true w2 with
    ⟨w3, hw3, -, e, h3⟩ | ⟨w3, hw3, -, h3⟩
  · simp [h3, errorText, Outcome.after]
  simp only [h3, not_true_eq_false, if_false, Prog.run_GetPlayerByID]
  obtain ⟨w4, hw4, -, ⟨e, h4⟩ | ⟨p4, hp4, h4⟩⟩ := GetPlayerByID_cases q.ID w3
  · simp [h4, Outcome.after]
  have hp4eq : p4 = { q with IsBetting := true } := by
    rw [hw3, hw2, hw1, selectRow_setIsBetting, hpid, hp] at hp4
    exact (Option.some.inj hp4).symm
  subst hp4eq
  simp only [h4, Prog.run_UpdatePlayerBalance32]
  rcases Binary32.UpdatePlayerBalance_paths q.ID (f32 (q.Wallet + a)) q.BetBalance w4 with
    ⟨w5, hw5, -, e, h5⟩ | ⟨w5, hw5, -, h5⟩
  · simp [h5, Outcome.after]
  simp only [h5, Prog.run_UpdatePlayerBettingStatus]
  rcases UpdatePlayerBettingStatus_cases q.ID false w5 with
    ⟨w6, hw6, -, e, h6⟩ | ⟨w6, hw6, -, h6⟩
  · simp [h6, errorText, Outcome.after]
  intro _
  refine ⟨q, a, hp, hflag, rfl, not_le.1 ha1, not_lt.1 ha2, ?_⟩
  simp only [h6, not_true_eq_false, if_false, Prog.run_ret, Outcome.after]
  rw [hw6, hw5, hw4, hw3, hw2, hw1, hpid, selectRow_setIsBetting, selectRow_setBalances,
    selectRow_setIsBetting, hp]
  simp [hflag, hpid]

/-- In binary32.  A withdrawal answered 200 ran the whole critical section: the gate was
free, the decoded amount positive and covered by the wallet, and the row now holds the rounded new
wallet with the flag false. -/
theorem Binary32.withdraw_answered_200 (w : World) (id : Int) (x : ℚ)
    (h : (((Binary32.HandleWithdraw (postAmount id x)).run w).value.map (fun r => r.status)) = some 200) :
    ∃ p a, selectRow w.players id = some p ∧ p.IsBetting = false ∧
      decodeFloat32 x = some a ∧ 0 < a ∧ ¬ p.Wallet < a ∧
      selectRow ((Binary32.HandleWithdraw (postAmount id x)).run w).world.players id =
        some { p with Wallet := Binary32.round2 (f32 (p.Wallet - a)),
                      BetBalance := Binary32.round2 p.BetBalance } := by
  revert h
  simp only [Binary32.HandleWithdraw, postAmount, ne_eq, not_true_eq_false, if_false, AuthenticateUser,
    Prog.run_bind, Prog.run_GetPlayerByID]
  obtain ⟨w1, hw1, -, ⟨e, h1⟩ | ⟨p, hp, h1⟩⟩ := GetPlayerByID_cases id w
  · simp [h1, Outcome.after]
  have hpid : p.ID = id := selectRow_id hp
  simp only [h1, Prog.run_ret, Outcome.after, Option.some_bind]
  rcases hx : decodeFloat32 x with _ | a
  · simp
  simp only []
  split_ifs with ha1
  · simp
  simp only [Prog.run_CheckPlayerBettingStatus]
  obtain ⟨w2, hw2, -, ⟨e, h2⟩ | ⟨q, hq, h2⟩⟩ := CheckPlayerBettingStatus_cases p.ID w1
  · simp [h2, errorText, Outcome.after]
  obtain rfl : q = p := by
    rw [hw1, hpid, hp] at hq
    exact (Option.some.inj hq).symm
  simp only [h2]
  cases hflag : q.IsBetting
  swap
  · simp [Outcome.after]
  simp only [Bool.false_eq_true, if_false, ne_eq, not_true_eq_false,
    Prog.run_UpdatePlayerBettingStatus]
  rcases UpdatePlayerBettingStatus_cases q.ID true w2 with
    ⟨w3, hw3, -, e, h3⟩ | ⟨w3, hw3, -, h3⟩
  · simp [h3, errorText, Outcome.after]
  simp only [h3, not_true_eq_false, if_false, Prog.run_GetPlayerByID]
  obtain ⟨w4, hw4, -, ⟨e, h4⟩ | ⟨p4, hp4, h4⟩⟩ := GetPlayerByID_cases q.ID w3
  · simp [h4, Outcome.after]
  have hp4eq : p4 = { q with IsBetting := true } := by
    rw [hw3, hw2, hw1, selectRow_setIsBetting, hpid, hp] at hp4
    exact (Option.some.inj hp4).symm
  subst hp4eq
  simp only [h4]
  split_ifs with hlt
  · obtain ⟨w5, e5, -, h5⟩ := UpdatePlayerBettingStatus_any q.ID false w4
    simp [h5, Outcome.after]
  simp only [Prog.run_UpdatePlayerBalance32]
  rcases Binary32.UpdatePlayerBalance_paths q.ID (f32 (q.Wallet - a)) q.BetBalance w4 with
    ⟨w5, hw5, -, e, h5⟩ | ⟨w5, hw5, -, h5⟩
  · simp [h5, Outcome.after]
  simp only [h5, Prog.run_UpdatePlayerBettingStatus]
  rcases UpdatePlayerBettingStatus_cases q.ID false w5 with
    ⟨w6, hw6, -, e, h6⟩ | ⟨w6, hw6, -, h6⟩
  · simp [h6, errorText, Outcome.after]
  intro _
  refine ⟨q, a, hp, hflag, rfl, not_le.1 ha1, hlt, ?_⟩
  simp only [h6, not_true_eq_false, if_false, Prog.run_ret, Outcome.after]
  rw [hw6, hw5, hw4, hw3, hw2, hw1, hpid, selectRow_setIsBetting, selectRow_setBalances,
    selectRow_setIsBetting, hp]
  simp [hflag, hpid]

/-- In the `float32` arithmetic of the source.  For every store and every player whose
stored wallet and bet balance are whole numbers (wallet >= 0, 0 <= bet balance <
10,000,000) and every whole amount > 0 with wallet + amount < 10,000,000: when the
deposit of the amount succeeds and the withdrawal of the same amount, run on the
store the deposit left, succeeds too, the row of the player is again the one the
store held before. -/
theorem Binary32.deposit_withdraw_round_trip_whole (w : World) (id : Int) (W B n : ℤ)
    (p : Player) (hp : selectRow w.players id = some p) (hW : p.Wallet = (W : ℚ))
    (hB : p.BetBalance = (B : ℚ)) (hW0 : 0 ≤ W) (hB0 : 0 ≤ B) (hBmax : B < 10000000)
    (hn : 0 < n) (hmax : W + n < 10000000)
    (hdeposit : (((Binary32.HandleDeposit (postAmount id (n : ℚ))).run w).value.map
      (fun r => r.status)) = some 200)
    (hwithdraw : (((Binary32.HandleWithdraw (postAmount id (n : ℚ))).run
      ((Binary32.HandleDeposit (postAmount id (n : ℚ))).run w).world).value.map
      (fun r => r.status)) = some 200) :
    selectRow ((Binary32.HandleWithdraw (postAmount id (n : ℚ))).run
      ((Binary32.HandleDeposit (postAmount id (n : ℚ))).run w).world).world.players id =
        some p := by
  have hdn : decodeFloat32 (n : ℚ) = some (n : ℚ) :=
    decodeFloat32_intCast n (by rw [abs_lt]; constructor <;> omega)
  have hsum : f32 ((W : ℚ) + (n : ℚ)) = (W : ℚ) + (n : ℚ) := by
    have h := f32_intCast (W + n) (by rw [abs_lt]; constructor <;> omega)
    push_cast at h
    exact h
  have hr1 : Binary32.round2 ((W : ℚ) + (n : ℚ)) = (W : ℚ) + (n : ℚ) := by
    have h := Binary32.round2_intCast (W + n) (by rw [abs_lt]; constructor <;> omega)
    push_cast at h
    exact h
  have hfW : f32 (W : ℚ) = (W : ℚ) :=
    f32_intCast W (by rw [abs_lt]; constructor <;> omega)
  have hrW : Binary32.round2 (W : ℚ) = (W : ℚ) :=
    Binary32.round2_intCast W (by rw [abs_lt]; constructor <;> omega)
  have hrB : Binary32.round2 (B : ℚ) = (B : ℚ) :=
    Binary32.round2_intCast B (by rw [abs_lt]; constructor <;> omega)
  obtain ⟨p0, a0, hp0, -, ha0, -, -, hrow1⟩ := Binary32.deposit_answered_200 w id (n : ℚ) hdeposit
  obtain rfl : p0 = p := by
    rw [hp] at hp0
    exact (Option.some.inj hp0).symm
  obtain rfl : (n : ℚ) = a0 := by
    rw [hdn] at ha0
    exact Option.some.inj ha0
  obtain ⟨p1, a1, hp1, -, ha1, -, -, hrow2⟩ := Binary32.withdraw_answered_200 _ id (n : ℚ) hwithdraw
  obtain rfl : (n : ℚ) = a1 := by
    rw [hdn] at ha1
    exact Option.some.inj ha1
  rw [hrow1] at hp1
  obtain rfl := Option.some.inj hp1
  rw [hrow2]
  simp only [hW, hB, hsum, hr1, hrB, add_sub_cancel_right, hfW, hrW]
  rw [← hW, ← hB]

/-- C8 (amended). When `HandleDeposit` of an amount succeeds and `HandleWithdraw` of the
same amount, run on the store the deposit left, succeeds too, the row of the player
is again the one the store held before (same wallet, same bet balance, flag false)
* over exact decimal arithmetic with the commit\x27s 2-digit rounding: for every
  stored wallet >= 0 and bet balance with at most 2 fraction digits and every amount
  that is not exactly halfway between two cents (100 x amount is not an integer
  plus 1/2);
* in the `float32` arithmetic of the source: for every whole-number wallet >= 0, bet
  balance in [0, 10,000,000) and amount > 0 with wallet + amount < 10,000,000. -/
theorem deposit_withdraw_round_trip :
    (∀ (w : World) (id : Int) (a : ℚ) (p : Player),
      selectRow w.players id = some p → 0 ≤ p.Wallet →
      (∃ k : ℤ, p.Wallet = (k : ℚ) / 100) → (∃ k : ℤ, p.BetBalance = (k : ℚ) / 100) →
      (∀ m : ℤ, 100 * a ≠ (m : ℚ) + 1 / 2) →
      (((HandleDeposit (postAmount id a)).run w).value.map (fun r => r.status)) = some 200 →
      (((HandleWithdraw (postAmount id a)).run
        ((HandleDeposit (postAmount id a)).run w).world).value.map
        (fun r => r.status)) = some 200 →
      selectRow ((HandleWithdraw (postAmount id a)).run
        ((HandleDeposit (postAmount id a)).run w).world).world.players id = some p) ∧
    (∀ (w : World) (id : Int) (W B n : ℤ) (p : Player),
      selectRow w.players id = some p → p.Wallet = (W : ℚ) → p.BetBalance = (B : ℚ) →
      0 ≤ W → 0 ≤ B → B < 10000000 → 0 < n → W + n < 10000000 →
      (((Binary32.HandleDeposit (postAmount id (n : ℚ))).run w).value.map
        (fun r => r.status)) = some 200 →
      (((Binary32.HandleWithdraw (postAmount id (n : ℚ))).run
        ((Binary32.HandleDeposit (postAmount id (n : ℚ))).run w).world).value.map
        (fun r => r.status)) = some 200 →
      selectRow ((Binary32.HandleWithdraw (postAmount id (n : ℚ))).run
        ((Binary32.HandleDeposit (postAmount id (n : ℚ))).run w).world).world.players id =
          some p) :=
  ⟨fun w id a p h1 h2 h3 h4 h5 h6 h7 =>
      deposit_withdraw_round_trip_exact w id a p h1 h2 h3 h4 h5 h6 h7,
   fun w id W B n p h1 h2 h3 h4 h5 h6 h7 h8 h9 h10 =>
      Binary32.deposit_withdraw_round_trip_whole w id W B n p h1 h2 h3 h4 h5 h6 h7 h8 h9 h10⟩

/-- C8 (witness). Bob (wallet 300.00, bet balance 30.00) deposits 50 and withdraws
50: his row is restored, over exact arithmetic and in `float32` arithmetic. -/
theorem deposit_withdraw_round_trip_witness :
    selectRow ((HandleWithdraw (postAmount 2 50)).run
      ((HandleDeposit (postAmount 2 50)).run { players := [bob] }).world).world.players 2
      = some bob ∧
    selectRow ((Binary32.HandleWithdraw (postAmount 2 ((50 : ℤ) : ℚ))).run
      ((Binary32.HandleDeposit (postAmount 2 ((50 : ℤ) : ℚ))).run
        { players := [bob] }).world).world.players 2 = some bob := by
  have hbob : selectRow ({ players := [bob] } : World).players 2 = some bob := by
    simp [selectRow, bob]
  have hd50 : decodeFloat32 ((50 : ℤ) : ℚ) = some ((50 : ℤ) : ℚ) :=
    decodeFloat32_intCast 50 (by norm_num)
  have hsum : f32 (bob.Wallet + ((50 : ℤ) : ℚ)) = 350 := by
    have h := f32_intCast 350 (by norm_num)
    have e : bob.Wallet + ((50 : ℤ) : ℚ) = ((350 : ℤ) : ℚ) := by norm_num [bob]
    rw [e, h]
    norm_num
  have hr350 : Binary32.round2 (350 : ℚ) = 350 := by
    have h := Binary32.round2_intCast 350 (by norm_num)
    simp only [Int.cast_ofNat] at h
    exact h
  have hr30 : Binary32.round2 bob.BetBalance = 30 := by
    have h := Binary32.round2_intCast 30 (by norm_num)
    simp only [Int.cast_ofNat] at h
    exact h
  have hdep := Binary32.HandleDeposit_committed { players := [bob] } 2 ((50 : ℤ) : ℚ)
    ((50 : ℤ) : ℚ) bob hbob rfl rfl hd50 (by norm_num) (by norm_num)
  have hworld : ((Binary32.HandleDeposit (postAmount 2 ((50 : ℤ) : ℚ))).run
      { players := [bob] }).world = { players := [{ bob with Wallet := 350 }] } := by
    rw [hdep.2.1, hsum, hr350, hr30]
    simp [setBalances, setIsBetting, bob]
  have hwd := Binary32.HandleWithdraw_committed { players := [{ bob with Wallet := 350 }] } 2
    ((50 : ℤ) : ℚ) ((50 : ℤ) : ℚ) { bob with Wallet := 350 } (by simp [selectRow, bob]) rfl rfl
    hd50 (by norm_num) (by norm_num)
  exact
    ⟨deposit_withdraw_round_trip.1 { players := [bob] } 2 50 bob hbob
      (by norm_num [bob]) ⟨30000, by norm_num [bob]⟩ ⟨3000, by norm_num [bob]⟩
      (by
        intro m h
        have h2 : (m : ℚ) = ((4999 : ℤ) : ℚ) + 1 / 2 := by push_cast; linarith
        have h3 : (2 : ℚ) * m = ((9999 : ℤ) : ℚ) := by rw [h2]; push_cast; ring
        have h4 : (2 : ℤ) * m = 9999 := by exact_mod_cast h3
        omega)
      (by norm_num [HandleDeposit, postAmount, bob, AuthenticateUser, Prog.bind, Prog.run,
            models.GetPlayerByID, models.CheckPlayerBettingStatus,
            models.UpdatePlayerBettingStatus, models.UpdatePlayerBalance, World.nextFault,
            selectRow, setIsBetting, setBalances, Outcome.after, errorText])
      (by norm_num [HandleDeposit, HandleWithdraw, postAmount, bob, AuthenticateUser, Prog.bind,
            Prog.run, models.GetPlayerByID, models.CheckPlayerBettingStatus,
            models.UpdatePlayerBettingStatus, models.UpdatePlayerBalance, World.nextFault,
            selectRow, setIsBetting, setBalances, Outcome.after, errorText, models.round2,
            models.Round]),
     deposit_withdraw_round_trip.2 { players := [bob] } 2 300 30 50 bob hbob
      (by norm_num [bob]) (by norm_num [bob]) (by norm_num) (by norm_num) (by norm_num)
      (by norm_num) (by norm_num)
      (by rw [hdep.1]; rfl)
      (by rw [hworld, hwd.1]; rfl)⟩

/-! ## C9: an amount above the balance -/

/-- The JSON number 131072.02 as the `float32` the handler passes on: 131072.015625. -/
theorem f32_f64_131072_02 : f32 (f64 (6553601 / 50)) = (8388609 / 64) := by
  rw [f64_eq_of_pos (6553601 / 50) (17) 4503600314565263 (4503600314565263 / 34359738368)
      (by norm_num) (by norm_num) (by norm_num)
      (by norm_num) (by norm_num) (by norm_num)]
  exact f32_eq_of_pos (4503600314565263 / 34359738368) (17) 8388609 (8388609 / 64)
      (by norm_num) (by norm_num) (by norm_num)
      (by norm_num) (by norm_num) (by norm_num)

/-- The `float32` sum 0.01 + 131072 is 131072.015625. -/
theorem f32_cent_add_131072 : f32 (70368749546373 / 536870912) = (8388609 / 64) :=
  f32_eq_of_pos (70368749546373 / 536870912) (17) 8388609 (8388609 / 64)
    (by norm_num) (by norm_num) (by norm_num)
    (by norm_num) (by norm_num) (by norm_num)

/-- The `float32` difference 131072.015625 - 0.01 is 131072. -/
theorem f32_131072_sub_cent : f32 (70368747197563 / 536870912) = 131072 :=
  f32_eq_of_pos (70368747197563 / 536870912) (17) 8388608 131072
    (by norm_num) (by norm_num) (by norm_num)
    (by norm_num) (by norm_num) (by norm_num)

/-- A withdrawal with a positive decoded amount by an authenticated player whose
betting flag is set, on a store that does not fail, is answered 409. -/
theorem Binary32.withdraw_gate_busy_response (w : World) (pid : Int) (x a : ℚ) (p : Player)
    (hp : selectRow w.players pid = some p) (hflag : p.IsBetting = true)
    (hfaults : w.dbFaults = []) (hx : decodeFloat32 x = some a) (ha : 0 < a) :
    ((Binary32.HandleWithdraw (postAmount pid x)).run w).value =
      some { status := 409, message := "Cannot withdraw while player is in Betting Process" } := by
  have hpid : p.ID = pid := selectRow_id hp
  have hna : ¬ a ≤ 0 := not_le.2 ha
  simp [Binary32.HandleWithdraw, postAmount, AuthenticateUser, Prog.bind, Prog.run,
    models.GetPlayerByID, models.CheckPlayerBettingStatus, World.nextFault, hfaults, hp, hpid,
    hflag, hna, hx, Outcome.after]

/-- C9 (counterexample). Two account states at which an amount above the balance is
not rejected as the claim says.
* Charlie has wallet 700.00 and the betting flag set.  His withdrawal of 800 is
  answered 409, not 400 "Insufficient funds".
* Eve has wallet 131072.00 and bet balance 0.01 and bets 131072.02, which the
  handler passes on as the `float32` 131072.015625.  The amount is above
  wallet + bet balance, but the `float32` sum `player.BetBalance+player.Wallet` is
  131072.015625 too, so the guard `betAmount > sum` is false: `processBet` returns
  without error and its `UpdatePlayerBalance` call writes wallet 0 and bet balance
  0. -/
theorem bet_above_total_is_committed :
    charlie.Wallet < 800 ∧
    ((Binary32.HandleWithdraw (postAmount 3 800)).run { players := [charlie] }).value =
      some { status := 409, message := "Cannot withdraw while player is in Betting Process" } ∧
    f32 (f64 (6553601 / 50)) = 8388609 / 64 ∧
    (131072 : ℚ) + cent32 < 8388609 / 64 ∧
    ((Binary32.processBet (riggedConfig 1) 5 (8388609 / 64) "pair").run
        { players := [{ eve with Wallet := 131072, BetBalance := cent32 }] }).value =
      some ({ DiceNumber := 1, PlayerOriginalBet := "pair", PlayerMessage := "You\x27ve Lost :(",
              Winnings := -(8388609 / 64), PlayerWin := false }, none) ∧
    ((Binary32.processBet (riggedConfig 1) 5 (8388609 / 64) "pair").run
        { players := [{ eve with Wallet := 131072, BetBalance := cent32 }] }).trace.filter
          Event.isBalanceWrite = [Event.balanceWrite 5 0 0 none] ∧
    ((Binary32.processBet (riggedConfig 1) 5 (8388609 / 64) "pair").run
        { players := [{ eve with Wallet := 131072, BetBalance := cent32 }] }).world.players =
      [{ eve with Wallet := 0, BetBalance := 0 }] := by
  have d800 : decodeFloat32 (800 : ℚ) = some 800 := by
    have h := decodeFloat32_intCast 800 (by norm_num)
    simp only [Int.cast_ofNat] at h
    exact h
  have hsum : cent32 + (131072 : ℚ) = 70368749546373 / 536870912 := by
    unfold cent32
    norm_num
  have hdiff : (8388609 / 64 : ℚ) - cent32 = 70368747197563 / 536870912 := by
    unfold cent32
    norm_num
  have hgt : ¬ (8388609 / 64 : ℚ) ≤ cent32 := by
    unfold cent32
    norm_num
  have hlost : playerWon (rolledDiceNumber (riggedConfig 1) 0) "pair" = false := by
    decide
  have hdice : rolledDiceNumber (riggedConfig 1) 0 = 1 := by
    decide
  have hd : Binary32.DeductBetAmount { eve with Wallet := 131072, BetBalance := cent32 }
      (8388609 / 64) = { eve with Wallet := 0, BetBalance := 0 } := by
    simp only [Binary32.DeductBetAmount, eve, hgt, if_false, hdiff, f32_131072_sub_cent,
      sub_self, f32_zero]
  have h := Binary32.processBet_committed (riggedConfig 1) 5 (8388609 / 64) "pair"
    { players := [{ eve with Wallet := 131072, BetBalance := cent32 }] }
    { eve with Wallet := 131072, BetBalance := cent32 }
    (by simp [selectRow, eve]) rfl rfl
    (by
      show ¬ (8388609 / 64 : ℚ) > f32 (cent32 + 131072)
      rw [hsum, f32_cent_add_131072]
      exact lt_irrefl _)
  rw [hlost, hd] at h
  simp only [Binary32.creditWinnings, Bool.false_eq_true, if_false, Binary32.round2_of_zero,
    Binary32.rollResult, hdice] at h
  refine ⟨by norm_num [charlie], ?_, f32_f64_131072_02, ?_, h.2.1, h.1, ?_⟩
  · exact Binary32.withdraw_gate_busy_response { players := [charlie] } 3 800 800 charlie
      (by simp [selectRow, charlie]) rfl rfl d800 (by norm_num)
  · unfold cent32
    norm_num
  · exact h.2.2.trans (by simp [setBalances, eve])

/-- A withdrawal whose decoded amount is above the stored wallet never reaches
`UpdatePlayerBalance`. -/
theorem Binary32.withdraw_above_wallet_no_commit (r : Request) (w : World) (pid : Int)
    (x a : ℚ) (p : Player) (htok : r.token = .ok pid) (hb : r.body = some x)
    (hx : decodeFloat32 x = some a) (hp : selectRow w.players pid = some p)
    (hlt : p.Wallet < a) :
    ∀ e ∈ ((Binary32.HandleWithdraw r).run w).trace, e.isBalanceWrite = false := by
  have hpid : p.ID = pid := selectRow_id hp
  simp only [Binary32.HandleWithdraw]
  split_ifs with hm
  · simp
  simp only [AuthenticateUser, htok, Prog.run_bind, Prog.run_GetPlayerByID]
  obtain ⟨w1, hw1, -, ⟨e, h1⟩ | ⟨p1, hp1, h1⟩⟩ := GetPlayerByID_cases pid w
  · simp [h1, Outcome.after, Event.isBalanceWrite]
  obtain rfl : p1 = p := by
    rw [hp] at hp1
    exact (Option.some.inj hp1).symm
  simp only [h1, hb, Option.some_bind, hx, Prog.run_ret, Outcome.after]
  split_ifs with ha1
  · simp [Event.isBalanceWrite]
  simp only [Prog.run_CheckPlayerBettingStatus]
  obtain ⟨w2, hw2, -, ⟨e, h2⟩ | ⟨q, hq, h2⟩⟩ := CheckPlayerBettingStatus_cases p1.ID w1
  · simp [h2, errorText, Outcome.after, Event.isBalanceWrite]
  simp only [h2]
  cases hflag : q.IsBetting
  swap
  · simp [Outcome.after, Event.isBalanceWrite]
  simp only [Bool.false_eq_true, if_false, ne_eq, not_true_eq_false,
    Prog.run_UpdatePlayerBettingStatus]
  rcases UpdatePlayerBettingStatus_cases p1.ID true w2 with
    ⟨w3, hw3, -, e, h3⟩ | ⟨w3, hw3, -, h3⟩
  · simp [h3, errorText, Outcome.after, Event.isBalanceWrite]
  simp only [h3, not_true_eq_false, if_false, Prog.run_GetPlayerByID]
  obtain ⟨w4, hw4, -, ⟨e, h4⟩ | ⟨p4, hp4, h4⟩⟩ := GetPlayerByID_cases p1.ID w3
  · simp [h4, Outcome.after, Event.isBalanceWrite]
  have hw4lt : p4.Wallet < a := by
    rw [hw3, hw2, hw1, selectRow_setIsBetting, hpid, hp] at hp4
    rw [← Option.some.inj hp4]
    exact hlt
  simp only [h4, hw4lt, if_true, Prog.run_UpdatePlayerBettingStatus]
  obtain ⟨w5, e5, -, h5⟩ := UpdatePlayerBettingStatus_any p4.ID false w4
  simp [h5, Outcome.after, Event.isBalanceWrite]

/-- A withdrawal above the stored wallet that reaches the balance check is answered
400. -/
theorem Binary32.withdraw_above_wallet_response (w : World) (pid : Int) (x a : ℚ)
    (p : Player) (hp : selectRow w.players pid = some p) (hflag : p.IsBetting = false)
    (hfaults : w.dbFaults = []) (hx : decodeFloat32 x = some a) (ha : 0 < a)
    (hlt : p.Wallet < a) :
    ((Binary32.HandleWithdraw (postAmount pid x)).run w).value =
      some { status := 400, message := "Insufficient funds for withdrawal" } := by
  have hpid : p.ID = pid := selectRow_id hp
  have hna : ¬ a ≤ 0 := not_le.2 ha
  simp [Binary32.HandleWithdraw, postAmount, AuthenticateUser, Prog.bind, Prog.run,
    models.GetPlayerByID, models.CheckPlayerBettingStatus, models.UpdatePlayerBettingStatus,
    World.nextFault, hfaults, hp, hpid, hflag, hna, hx, selectRow_setIsBetting, hlt,
    Outcome.after]

/-- A withdrawal of the whole wallet is accepted and commits wallet 0. -/
theorem Binary32.withdraw_whole_wallet_accepted (w : World) (pid : Int) (x : ℚ) (p : Player)
    (hp : selectRow w.players pid = some p) (hflag : p.IsBetting = false)
    (hfaults : w.dbFaults = []) (hx : decodeFloat32 x = some p.Wallet) (ha : 0 < p.Wallet) :
    ((Binary32.HandleWithdraw (postAmount pid x)).run w).value =
      some { status := 200, message := "Withdrawal successful", amount := some p.Wallet,
             newBalance := some 0 } ∧
    ((Binary32.HandleWithdraw (postAmount pid x)).run w).trace.filter Event.isBalanceWrite =
      [Event.balanceWrite pid 0 (Binary32.round2 p.BetBalance) none] := by
  have h := Binary32.HandleWithdraw_committed w pid x p.Wallet p hp hflag hfaults hx ha
    (lt_irrefl _)
  rw [sub_self, f32_zero, Binary32.round2_of_zero] at h
  exact ⟨h.1, h.2.2⟩

/-- A cash-in above the stored bet balance returns an error and commits nothing. -/
theorem Binary32.cashIn_above_bet_balance_rejected (id : Int) (a : ℚ) (w : World)
    (p : Player) (hp : selectRow w.players id = some p) (hlt : p.BetBalance < a) :
    (∃ e, ((Binary32.processCashIn id a).run w).value = some (some e)) ∧
    (∀ e ∈ ((Binary32.processCashIn id a).run w).trace, e.isBalanceWrite = false) ∧
    ((Binary32.processCashIn id a).run w).world.players = w.players := by
  obtain ⟨w1, -, ⟨e, hw, h⟩ | ⟨p1, hp1, -, hw, h⟩ | ⟨p1, e, hp1, hge, -, h⟩ |
    ⟨p1, hp1, hge, -, h⟩⟩ := Binary32.processCashIn_paths id a w
  · exact ⟨⟨e, by rw [h]⟩, by simp [h, Event.isBalanceWrite], by rw [h]; exact hw⟩
  · exact ⟨⟨_, by rw [h]⟩, by simp [h, Event.isBalanceWrite], by rw [h]; exact hw⟩
  · rw [hp] at hp1
    rw [← Option.some.inj hp1] at hge
    exact absurd hlt hge
  · rw [hp] at hp1
    rw [← Option.some.inj hp1] at hge
    exact absurd hlt hge

/-- A cash-in of the whole bet balance is committed and leaves bet balance 0. -/
theorem Binary32.cashIn_whole_bet_balance_accepted (id : Int) (w : World) (p : Player)
    (hp : selectRow w.players id = some p) (hfaults : w.dbFaults = []) :
    ((Binary32.processCashIn id p.BetBalance).run w).value = some none ∧
    ((Binary32.processCashIn id p.BetBalance).run w).trace.filter Event.isBalanceWrite =
      [Event.balanceWrite id (Binary32.round2 (f32 (p.Wallet + p.BetBalance))) 0 none] := by
  have h := Binary32.processCashIn_committed id p.BetBalance w p hp hfaults (lt_irrefl _)
  rw [sub_self, f32_zero, Binary32.round2_of_zero] at h
  exact ⟨h.1, h.2.1⟩

/-- A bet above the `float32` sum of bet balance and wallet returns an error and
commits nothing. -/
theorem Binary32.bet_above_sum_rejected (cfg : Config) (id : Int) (a : ℚ) (betType : String)
    (w : World) (p : Player) (hp : selectRow w.players id = some p)
    (hgt : a > f32 (p.BetBalance + p.Wallet)) :
    (∃ r e, ((Binary32.processBet cfg id a betType).run w).value = some (r, some e)) ∧
    (∀ e ∈ ((Binary32.processBet cfg id a betType).run w).trace, e.isBalanceWrite = false) ∧
    ((Binary32.processBet cfg id a betType).run w).world.players = w.players := by
  obtain ⟨w1, -, ⟨e, hw, h⟩ | ⟨p1, hp1, -, hw, h⟩ | ⟨p1, n, q, e, hp1, hge, -, -, h⟩ |
    ⟨p1, n, q, hp1, hge, -, -, h⟩⟩ := Binary32.processBet_paths cfg id a betType w
  · exact ⟨⟨_, _, by rw [h]⟩, by simp [h, Event.isBalanceWrite], by rw [h]; exact hw⟩
  · exact ⟨⟨_, _, by rw [h]⟩, by simp [h, Event.isBalanceWrite], by rw [h]; exact hw⟩
  · rw [hp] at hp1
    rw [← Option.some.inj hp1] at hge
    exact absurd hgt hge
  · rw [hp] at hp1
    rw [← Option.some.inj hp1] at hge
    exact absurd hgt hge

/-- A bet that is at most the `float32` sum of bet balance and wallet is committed. -/
theorem Binary32.bet_up_to_sum_accepted (cfg : Config) (id : Int) (a : ℚ) (betType : String)
    (w : World) (p : Player) (hp : selectRow w.players id = some p)
    (hfaults : w.dbFaults = []) (hle : a ≤ f32 (p.BetBalance + p.Wallet)) :
    (∃ r, ((Binary32.processBet cfg id a betType).run w).value = some (r, none)) ∧
    (∃ e ∈ ((Binary32.processBet cfg id a betType).run w).trace,
        e.isBalanceWrite = true) := by
  have hge : ¬ f32 (p.BetBalance + p.Wallet) < a := not_lt.2 hle
  rcases hr : w.rolls with _ | ⟨n, rest⟩ <;>
  simp [Binary32.processBet, Prog.run, models.GetPlayerByID, Binary32.UpdatePlayerBalance,
    World.nextFault, World.Intn, hr, hfaults, hp, hge, Outcome.after, Event.isBalanceWrite]

/-- C9 (amended). Amounts and balances are the `float32` values the source handles.
* `HandleWithdraw`: when the stored wallet of the authenticated player is below the
  decoded amount, no run contains an `UpdatePlayerBalance` call (whatever the flag
  and whatever store calls fail); when in addition the gate is free, no store call
  fails and the amount is positive, the answer is 400 "Insufficient funds for
  withdrawal"; a withdrawal of the whole (positive) wallet is then answered 200 and
  commits wallet 0.
* `processCashIn`: with the stored bet balance below the amount it returns an error,
  calls no `UpdatePlayerBalance` and changes no row; an amount equal to the bet
  balance is committed (bet balance 0) and nil is returned.
* `processBet`: with the amount above the `float32` sum of bet balance and wallet it
  returns an error, calls no `UpdatePlayerBalance` and changes no row; an amount
  equal to that sum is committed and nil is returned, and so is an amount that is a
  `float32` and equals wallet + bet balance exactly. -/
theorem amount_above_float_balance_rejected :
    (∀ (r : Request) (w : World) (pid : Int) (x a : ℚ) (p : Player),
      r.token = .ok pid → r.body = some x → decodeFloat32 x = some a →
      selectRow w.players pid = some p → p.Wallet < a →
      ∀ e ∈ ((Binary32.HandleWithdraw r).run w).trace, e.isBalanceWrite = false) ∧
    (∀ (w : World) (pid : Int) (x a : ℚ) (p : Player),
      selectRow w.players pid = some p → p.IsBetting = false → w.dbFaults = [] →
      decodeFloat32 x = some a → 0 < a → p.Wallet < a →
      ((Binary32.HandleWithdraw (postAmount pid x)).run w).value =
        some { status := 400, message := "Insufficient funds for withdrawal" }) ∧
    (∀ (w : World) (pid : Int) (x : ℚ) (p : Player),
      selectRow w.players pid = some p → p.IsBetting = false → w.dbFaults = [] →
      decodeFloat32 x = some p.Wallet → 0 < p.Wallet →
      ((Binary32.HandleWithdraw (postAmount pid x)).run w).value =
        some { status := 200, message := "Withdrawal successful", amount := some p.Wallet,
               newBalance := some 0 } ∧
      ((Binary32.HandleWithdraw (postAmount pid x)).run w).trace.filter Event.isBalanceWrite =
        [Event.balanceWrite pid 0 (Binary32.round2 p.BetBalance) none]) ∧
    (∀ (id : Int) (a : ℚ) (w : World) (p : Player),
      selectRow w.players id = some p → p.BetBalance < a →
      (∃ e, ((Binary32.processCashIn id a).run w).value = some (some e)) ∧
      (∀ e ∈ ((Binary32.processCashIn id a).run w).trace, e.isBalanceWrite = false) ∧
      ((Binary32.processCashIn id a).run w).world.players = w.players) ∧
    (∀ (id : Int) (w : World) (p : Player),
      selectRow w.players id = some p → w.dbFaults = [] →
      ((Binary32.processCashIn id p.BetBalance).run w).value = some none ∧
      ((Binary32.processCashIn id p.BetBalance).run w).trace.filter Event.isBalanceWrite =
        [Event.balanceWrite id (Binary32.round2 (f32 (p.Wallet + p.BetBalance))) 0 none]) ∧
    (∀ (cfg : Config) (id : Int) (a : ℚ) (betType : String) (w : World) (p : Player),
      selectRow w.players id = some p → a > f32 (p.BetBalance + p.Wallet) →
      (∃ r e, ((Binary32.processBet cfg id a betType).run w).value = some (r, some e)) ∧
      (∀ e ∈ ((Binary32.processBet cfg id a betType).run w).trace,
        e.isBalanceWrite = false) ∧
      ((Binary32.processBet cfg id a betType).run w).world.players = w.players) ∧
    (∀ (cfg : Config) (id : Int) (betType : String) (w : World) (p : Player),
      selectRow w.players id = some p → w.dbFaults = [] →
      (∃ r, ((Binary32.processBet cfg id (f32 (p.BetBalance + p.Wallet)) betType).run w).value
          = some (r, none)) ∧
      (∃ e ∈ ((Binary32.processBet cfg id (f32 (p.BetBalance + p.Wallet)) betType).run w).trace,
          e.isBalanceWrite = true)) ∧
    (∀ (cfg : Config) (id : Int) (a : ℚ) (betType : String) (w : World) (p : Player),
      selectRow w.players id = some p → w.dbFaults = [] → f32 a = a →
      a = p.Wallet + p.BetBalance →
      (∃ r, ((Binary32.processBet cfg id a betType).run w).value = some (r, none)) ∧
      (∃ e ∈ ((Binary32.processBet cfg id a betType).run w).trace,
          e.isBalanceWrite = true)) :=
  ⟨fun r w pid x a p h1 h2 h3 h4 h5 =>
      Binary32.withdraw_above_wallet_no_commit r w pid x a p h1 h2 h3 h4 h5,
   fun w pid x a p h1 h2 h3 h4 h5 h6 =>
      Binary32.withdraw_above_wallet_response w pid x a p h1 h2 h3 h4 h5 h6,
   fun w pid x p h1 h2 h3 h4 h5 =>
      Binary32.withdraw_whole_wallet_accepted w pid x p h1 h2 h3 h4 h5,
   fun id a w p h1 h2 => Binary32.cashIn_above_bet_balance_rejected id a w p h1 h2,
   fun id w p h1 h2 => Binary32.cashIn_whole_bet_balance_accepted id w p h1 h2,
   fun cfg id a betType w p h1 h2 => Binary32.bet_above_sum_rejected cfg id a betType w p h1 h2,
   fun cfg id betType w p h1 h2 =>
      Binary32.bet_up_to_sum_accepted cfg id _ betType w p h1 h2 (le_refl _),
   fun cfg id a betType w p h1 h2 h3 h4 =>
      Binary32.bet_up_to_sum_accepted cfg id a betType w p h1 h2
        (by
          have h5 : p.BetBalance + p.Wallet = a := by rw [h4, add_comm]
          rw [h5, h3])⟩

/-- C9 (witness). Bob has wallet 300 and bet balance 30: a withdrawal of 500, a
withdrawal of 300, a cash-in of 50, a cash-in of 30, a bet of 331 and a bet of 330. -/
theorem amount_above_float_balance_rejected_witness :
    (∀ e ∈ ((Binary32.HandleWithdraw (postAmount 2 500)).run { players := [bob] }).trace,
        e.isBalanceWrite = false) ∧
    ((Binary32.HandleWithdraw (postAmount 2 500)).run { players := [bob] }).value =
      some { status := 400, message := "Insufficient funds for withdrawal" } ∧
    ((Binary32.HandleWithdraw (postAmount 2 300)).run { players := [bob] }).value =
      some { status := 200, message := "Withdrawal successful", amount := some bob.Wallet,
             newBalance := some 0 } ∧
    ((Binary32.processCashIn 2 50).run { players := [bob] }).world.players = [bob] ∧
    ((Binary32.processCashIn 2 bob.BetBalance).run { players := [bob] }).value = some none ∧
    ((Binary32.processBet sampleConfig 2 331 "pair").run { players := [bob] }).world.players =
      [bob] ∧
    (∃ r, ((Binary32.processBet sampleConfig 2 (f32 (bob.BetBalance + bob.Wallet)) "pair").run
        { players := [bob] }).value = some (r, none)) ∧
    (∃ r, ((Binary32.processBet sampleConfig 2 330 "pair").run
        { players := [bob] }).value = some (r, none)) := by
  have hbob : selectRow ({ players := [bob] } : World).players 2 = some bob := by
    simp [selectRow, bob]
  have d500 : decodeFloat32 (500 : ℚ) = some 500 := by
    have h := decodeFloat32_intCast 500 (by norm_num)
    simp only [Int.cast_ofNat] at h
    exact h
  have d300 : decodeFloat32 (300 : ℚ) = some bob.Wallet := by
    have h := decodeFloat32_intCast 300 (by norm_num)
    simp only [Int.cast_ofNat] at h
    exact h
  have h330 : f32 (330 : ℚ) = 330 := by
    have h := f32_intCast 330 (by norm_num)
    simp only [Int.cast_ofNat] at h
    exact h
  have hsum : f32 (bob.BetBalance + bob.Wallet) = 330 := by
    have h : bob.BetBalance + bob.Wallet = 330 := by norm_num [bob]
    rw [h, h330]
  exact
    ⟨amount_above_float_balance_rejected.1 (postAmount 2 500) { players := [bob] } 2 500 500
        bob rfl rfl d500 hbob (by norm_num [bob]),
     amount_above_float_balance_rejected.2.1 { players := [bob] } 2 500 500 bob hbob rfl rfl
        d500 (by norm_num) (by norm_num [bob]),
     (amount_above_float_balance_rejected.2.2.1 { players := [bob] } 2 300 bob hbob rfl rfl
        d300 (by norm_num [bob])).1,
     (amount_above_float_balance_rejected.2.2.2.1 2 50 { players := [bob] } bob hbob
        (by norm_num [bob])).2.2,
     (amount_above_float_balance_rejected.2.2.2.2.1 2 { players := [bob] } bob hbob rfl).1,
     (amount_above_float_balance_rejected.2.2.2.2.2.1 sampleConfig 2 331 "pair"
        { players := [bob] } bob hbob (by rw [hsum]; norm_num)).2.2,
     (amount_above_float_balance_rejected.2.2.2.2.2.2.1 sampleConfig 2 "pair"
        { players := [bob] } bob hbob rfl).1,
     (amount_above_float_balance_rejected.2.2.2.2.2.2.2 sampleConfig 2 330 "pair"
        { players := [bob] } bob hbob rfl h330 (by norm_num [bob])).1⟩

/-! ## C10: failure of the gate lookup in deposit -/

/-- C10 (evaluation at the failing input). Bob deposits 50 and the gate lookup
fails.  `HandleDeposit` builds its answer from `err`, which is nil at that point:
the handler panics and writes no response.  The gate is not taken and nothing is
committed.  `HandleWithdraw`, on the same input, answers 500 with the message of
the lookup error. -/
theorem deposit_gate_lookup_failure_panics :
    ((HandleDeposit (postAmount 2 50)).run
        { players := [bob], dbFaults := [none, some "database is locked"] }).value = none ∧
    ((HandleDeposit (postAmount 2 50)).run
        { players := [bob], dbFaults := [none, some "database is locked"] }).trace
      = [Event.GetPlayerByID 2 (some bob) none,
         Event.CheckPlayerBettingStatus 2 false
           (some "error checking player playing status: database is locked")] ∧
    ((HandleDeposit (postAmount 2 50)).run
        { players := [bob], dbFaults := [none, some "database is locked"] }).world.players
      = [bob] ∧
    ((HandleWithdraw (postAmount 2 50)).run
        { players := [bob], dbFaults := [none, some "database is locked"] }).value
      = some { status := 500,
               message := "error checking player playing status: database is locked" } := by
  simp [HandleDeposit, HandleWithdraw, postAmount, bob, AuthenticateUser, Prog.bind, Prog.run,
    models.GetPlayerByID, models.CheckPlayerBettingStatus, World.nextFault, selectRow,
    Outcome.after, errorText]

/-! ## C11: the idle timer around each message -/

/-- C11 (evaluation at the failing input). Bob\x27s session receives a text frame
that is not JSON.  Both handlers stop the idle timer (in `HandlePlayWS` right after
the read, in `HandleEndPlayWS` before parsing), write the "Invalid JSON" response
and go back to `ReadMessage` without arming a timer: no timer is pending while the
loop waits for the next frame.  On a frame that parses (the empty object, answered
with code 400) the same loops arm a fresh timer after the response, and one timer
is pending. -/
theorem invalid_json_leaves_no_idle_timer :
    ((HandlePlayWS sampleConfig true (.ok 2) 1).run invalidFrameWorld).trace =
      [Event.GetPlayerByID 2 (some bob) none,
       Event.AfterFunc 10 0,
       Event.ReadMessage (.message TextMessage none),
       Event.Stop 0,
       Event.WriteMessage TextMessage
         { message := "Invalid JSON", code := 400,
           errorsList := some ["Invalid JSON received"] } none] ∧
    ((HandlePlayWS sampleConfig true (.ok 2) 1).run invalidFrameWorld).value = some false ∧
    ((HandlePlayWS sampleConfig true (.ok 2) 1).run invalidFrameWorld).world.timers =
      [(10, false)] ∧
    ((HandlePlayWS sampleConfig true (.ok 2) 1).run invalidFrameWorld).world.pendingTimers
      = 0 ∧
    ((HandleEndPlayWS sampleConfig true (.ok 2) 1).run invalidFrameWorld).trace =
      [Event.GetPlayerByID 2 (some bob) none,
       Event.AfterFunc 10 0,
       Event.ReadMessage (.message TextMessage none),
       Event.Stop 0,
       Event.WriteMessage TextMessage
         { message := "Invalid JSON", code := 400,
           errorsList := some ["Invalid JSON received"] } none] ∧
    ((HandleEndPlayWS sampleConfig true (.ok 2) 1).run invalidFrameWorld).value = some false ∧
    ((HandleEndPlayWS sampleConfig true (.ok 2) 1).run invalidFrameWorld).world.pendingTimers
      = 0 ∧
    ((HandlePlayWS sampleConfig true (.ok 2) 1).run emptyObjectWorld).value = some false ∧
    ((HandlePlayWS sampleConfig true (.ok 2) 1).run emptyObjectWorld).world.timers =
      [(10, false), (10, true)] ∧
    ((HandlePlayWS sampleConfig true (.ok 2) 1).run emptyObjectWorld).world.pendingTimers
      = 1 ∧
    ((HandleEndPlayWS sampleConfig true (.ok 2) 1).run emptyObjectWorld).world.pendingTimers
      = 1 := by
  simp [HandlePlayWS, HandleEndPlayWS, AuthenticateUser, playLoop, endPlayLoop, playMessage,
    endPlayMessage, playValidation, cashInValidation, gateErrors, playResponse, cashInResponse,
    sendResponse, processCashIn, sampleConfig, bob, TextMessage, asFloat64, asString, mapGet,
    invalidFrameWorld, emptyObjectWorld, World.pendingTimers,
    Prog.bind, Prog.run, models.GetPlayerByID, models.CheckPlayerBettingStatus,
    models.UpdatePlayerBettingStatus, models.UpdatePlayerBalance, World.nextFault,
    World.ReadMessage, World.WriteMessage, World.AfterFunc, World.Stop, selectRow,
    setIsBetting, setBalances, Outcome.after, List.modify, List.modifyHead]

/-! ## C12: read errors of a peer that went away -/

/-- Once the inbox is exhausted every read fails with a transport error, and the
loop of `HandlePlayWS` goes back to `ReadMessage` each time: it is still receiving
after any number of iterations. -/
theorem playLoop_connection_lost (cfg : Config) (player : Player) (fuel timeout : Nat)
    (w : World) (h : w.inbox = []) :
    ((playLoop cfg player fuel timeout).run w).value = some false ∧
    ((playLoop cfg player fuel timeout).run w).world.closed = w.closed ∧
    Event.Close ∉ ((playLoop cfg player fuel timeout).run w).trace ∧
    (((playLoop cfg player fuel timeout).run w).trace.filter Event.isReadMessage).length
      = fuel := by
  induction fuel generalizing w with
  | zero => simp [playLoop, Prog.run]
  | succ n ih =>
    have ih2 := ih (w.Stop timeout).1 (by simpa [World.Stop] using h)
    simp only [playLoop, Prog.run, World.ReadMessage, h, IsUnexpectedCloseError,
      Bool.false_eq_true, if_false, Outcome.after]
    refine ⟨ih2.1, ih2.2.1, ?_, ?_⟩
    · simpa [World.Stop] using ih2.2.2.1
    · simpa [World.Stop, Event.isReadMessage] using ih2.2.2.2

/-- The loop of `HandleEndPlayWS` on an exhausted inbox is still receiving after any
number of iterations. -/
theorem endPlayLoop_connection_lost (cfg : Config) (player : Player) (fuel timeout : Nat)
    (w : World) (h : w.inbox = []) :
    ((endPlayLoop cfg player fuel timeout).run w).value = some false ∧
    ((endPlayLoop cfg player fuel timeout).run w).world.closed = w.closed ∧
    Event.Close ∉ ((endPlayLoop cfg player fuel timeout).run w).trace ∧
    (((endPlayLoop cfg player fuel timeout).run w).trace.filter Event.isReadMessage).length
      = fuel := by
  induction fuel generalizing w with
  | zero => simp [endPlayLoop, Prog.run]
  | succ n ih =>
    have ih2 := ih w h
    simp only [endPlayLoop, Prog.run, World.ReadMessage, h, IsUnexpectedCloseError,
      Bool.false_eq_true, if_false, Outcome.after]
    refine ⟨ih2.1, ih2.2.1, ?_, ?_⟩
    · simpa using ih2.2.2.1
    · simpa [Event.isReadMessage] using ih2.2.2.2

/-- The loop of `HandlePlayWS` when the peer went away (a close error of code 1001,
or transport errors only): the loop is still receiving after any number of
iterations and `Close` is not reached. -/
theorem playLoop_peer_gone (cfg : Config) (player : Player) (fuel timeout : Nat)
    (w : World) (h : w.inbox = [] ∨ w.inbox = [.closeError CloseGoingAway]) :
    ((playLoop cfg player fuel timeout).run w).value = some false ∧
    ((playLoop cfg player fuel timeout).run w).world.closed = w.closed ∧
    Event.Close ∉ ((playLoop cfg player fuel timeout).run w).trace ∧
    (((playLoop cfg player fuel timeout).run w).trace.filter Event.isReadMessage).length
      = fuel := by
  rcases h with h | h
  · exact playLoop_connection_lost cfg player fuel timeout w h
  rcases fuel with _ | n
  · simp [playLoop, Prog.run]
  have ih2 := playLoop_connection_lost cfg player n timeout
    (World.Stop timeout { w with inbox := [] }).1 (by simp [World.Stop])
  have hc : IsUnexpectedCloseError (.closeError CloseGoingAway) [CloseGoingAway] = false := by
    decide
  simp only [playLoop, Prog.run, World.ReadMessage, h, hc, Bool.false_eq_true, if_false,
    Outcome.after]
  refine ⟨ih2.1, ih2.2.1, ?_, ?_⟩
  · simpa [World.Stop] using ih2.2.2.1
  · simpa [World.Stop, Event.isReadMessage] using ih2.2.2.2

/-- The loop of `HandleEndPlayWS` when the peer went away. -/
theorem endPlayLoop_peer_gone (cfg : Config) (player : Player) (fuel timeout : Nat)
    (w : World) (h : w.inbox = [] ∨ w.inbox = [.closeError CloseGoingAway]) :
    ((endPlayLoop cfg player fuel timeout).run w).value = some false ∧
    ((endPlayLoop cfg player fuel timeout).run w).world.closed = w.closed ∧
    Event.Close ∉ ((endPlayLoop cfg player fuel timeout).run w).trace ∧
    (((endPlayLoop cfg player fuel timeout).run w).trace.filter Event.isReadMessage).length
      = fuel := by
  rcases h with h | h
  · exact endPlayLoop_connection_lost cfg player fuel timeout w h
  rcases fuel with _ | n
  · simp [endPlayLoop, Prog.run]
  have ih2 := endPlayLoop_connection_lost cfg player n timeout
    ({ w with inbox := [] } : World) rfl
  have hc : IsUnexpectedCloseError (.closeError CloseGoingAway) [CloseGoingAway] = false := by
    decide
  simp only [endPlayLoop, Prog.run, World.ReadMessage, h, hc, Bool.false_eq_true, if_false,
    Outcome.after]
  refine ⟨ih2.1, ih2.2.1, ?_, ?_⟩
  · simpa using ih2.2.2.1
  · simpa [Event.isReadMessage] using ih2.2.2.2

/-- An authenticated session of `HandlePlayWS` whose peer went away never leaves the
loop. -/
theorem HandlePlayWS_peer_gone (cfg : Config) (id : Int) (p : Player) (fuel : Nat)
    (w : World) (hp : selectRow w.players id = some p) (hf : w.dbFaults = [])
    (h : w.inbox = [] ∨ w.inbox = [.closeError CloseGoingAway]) :
    ((HandlePlayWS cfg true (.ok id) fuel).run w).value = some false ∧
    ((HandlePlayWS cfg true (.ok id) fuel).run w).world.closed = w.closed ∧
    Event.Close ∉ ((HandlePlayWS cfg true (.ok id) fuel).run w).trace ∧
    (((HandlePlayWS cfg true (.ok id) fuel).run w).trace.filter Event.isReadMessage).length
      = fuel := by
  have hg : models.GetPlayerByID id w = (.ok p, w, [Event.GetPlayerByID id (some p) none]) := by
    simp [models.GetPlayerByID, World.nextFault, hf, hp]
  obtain ⟨k1, k2, k3, k4⟩ := playLoop_peer_gone cfg p fuel w.timers.length
    (w.AfterFunc cfg.SOCKET_TIMEOUT_DURATION).2.1 (by simpa [World.AfterFunc] using h)
  simp only [HandlePlayWS, AuthenticateUser, Prog.bind, Prog.run_GetPlayerByID, hg,
    Prog.run_AfterFunc, Prog.run_bind, Bool.not_true, Bool.false_eq_true, if_false]
  have hl : (w.AfterFunc cfg.SOCKET_TIMEOUT_DURATION).1 = w.timers.length := rfl
  simp only [hl, k1, Prog.run_ret, Outcome.after]
  refine ⟨rfl, by simpa [World.AfterFunc] using k2, ?_, ?_⟩
  · simpa [World.AfterFunc] using k3
  · simpa [World.AfterFunc, Event.isReadMessage] using k4

/-- An authenticated session of `HandleEndPlayWS` whose peer went away never leaves
the loop. -/
theorem HandleEndPlayWS_peer_gone (cfg : Config) (id : Int) (p : Player) (fuel : Nat)
    (w : World) (hp : selectRow w.players id = some p) (hf : w.dbFaults = [])
    (h : w.inbox = [] ∨ w.inbox = [.closeError CloseGoingAway]) :
    ((HandleEndPlayWS cfg true (.ok id) fuel).run w).value = some false ∧
    ((HandleEndPlayWS cfg true (.ok id) fuel).run w).world.closed = w.closed ∧
    Event.Close ∉ ((HandleEndPlayWS cfg true (.ok id) fuel).run w).trace ∧
    (((HandleEndPlayWS cfg true (.ok id) fuel).run w).trace.filter
      Event.isReadMessage).length = fuel := by
  have hg : models.GetPlayerByID id w = (.ok p, w, [Event.GetPlayerByID id (some p) none]) := by
    simp [models.GetPlayerByID, World.nextFault, hf, hp]
  obtain ⟨k1, k2, k3, k4⟩ := endPlayLoop_peer_gone cfg p fuel w.timers.length
    (w.AfterFunc cfg.SOCKET_TIMEOUT_DURATION).2.1 (by simpa [World.AfterFunc] using h)
  simp only [HandleEndPlayWS, AuthenticateUser, Prog.bind, Prog.run_GetPlayerByID, hg,
    Prog.run_AfterFunc, Prog.run_bind, Bool.not_true, Bool.false_eq_true, if_false]
  have hl : (w.AfterFunc cfg.SOCKET_TIMEOUT_DURATION).1 = w.timers.length := rfl
  simp only [hl, k1, Prog.run_ret, Outcome.after]
  refine ⟨rfl, by simpa [World.AfterFunc] using k2, ?_, ?_⟩
  · simpa [World.AfterFunc] using k3
  · simpa [World.AfterFunc, Event.isReadMessage] using k4

/-- C12 (evaluation at the failing input). Bob\x27s peer goes away: the read fails
with a close error of code 1001 (`goingAwayWorld`) or with a transport error that
is not a close error (`connectionLostWorld`).  `IsUnexpectedCloseError(err,
CloseGoingAway)` is false for both, so both handlers `continue`: after any number
`fuel` of iterations the loop has called `ReadMessage` `fuel` times, is still
receiving, and `conn.Close()` has not been called.  A close error of another code
(1000) does leave the loop at once and closes the connection. -/
theorem going_away_read_error_keeps_receiving :
    IsUnexpectedCloseError (.closeError CloseGoingAway) [CloseGoingAway] = false ∧
    IsUnexpectedCloseError .otherError [CloseGoingAway] = false ∧
    IsUnexpectedCloseError (.closeError 1000) [CloseGoingAway] = true ∧
    (∀ fuel : Nat,
      ((HandlePlayWS sampleConfig true (.ok 2) fuel).run goingAwayWorld).value = some false ∧
      ((HandlePlayWS sampleConfig true (.ok 2) fuel).run goingAwayWorld).world.closed
        = false ∧
      Event.Close ∉ ((HandlePlayWS sampleConfig true (.ok 2) fuel).run goingAwayWorld).trace ∧
      (((HandlePlayWS sampleConfig true (.ok 2) fuel).run goingAwayWorld).trace.filter
        Event.isReadMessage).length = fuel) ∧
    (∀ fuel : Nat,
      ((HandlePlayWS sampleConfig true (.ok 2) fuel).run connectionLostWorld).value
        = some false ∧
      ((HandlePlayWS sampleConfig true (.ok 2) fuel).run connectionLostWorld).world.closed
        = false ∧
      Event.Close ∉
        ((HandlePlayWS sampleConfig true (.ok 2) fuel).run connectionLostWorld).trace ∧
      (((HandlePlayWS sampleConfig true (.ok 2) fuel).run connectionLostWorld).trace.filter
        Event.isReadMessage).length = fuel) ∧
    (∀ fuel : Nat,
      ((HandleEndPlayWS sampleConfig true (.ok 2) fuel).run goingAwayWorld).value
        = some false ∧
      ((HandleEndPlayWS sampleConfig true (.ok 2) fuel).run goingAwayWorld).world.closed
        = false ∧
      Event.Close ∉
        ((HandleEndPlayWS sampleConfig true (.ok 2) fuel).run goingAwayWorld).trace ∧
      (((HandleEndPlayWS sampleConfig true (.ok 2) fuel).run goingAwayWorld).trace.filter
        Event.isReadMessage).length = fuel) ∧
    (∀ fuel : Nat,
      ((HandleEndPlayWS sampleConfig true (.ok 2) fuel).run connectionLostWorld).value
        = some false ∧
      ((HandleEndPlayWS sampleConfig true (.ok 2) fuel).run connectionLostWorld).world.closed
        = false ∧
      Event.Close ∉
        ((HandleEndPlayWS sampleConfig true (.ok 2) fuel).run connectionLostWorld).trace ∧
      (((HandleEndPlayWS sampleConfig true (.ok 2) fuel).run connectionLostWorld).trace.filter
        Event.isReadMessage).length = fuel) ∧
    ((HandlePlayWS sampleConfig true (.ok 2) 3).run goingAwayWorld).trace =
      [Event.GetPlayerByID 2 (some bob) none,
       Event.AfterFunc 10 0,
       Event.ReadMessage (.closeError 1001), Event.Stop 0,
       Event.ReadMessage .otherError, Event.Stop 0,
       Event.ReadMessage .otherError, Event.Stop 0] ∧
    ((HandlePlayWS sampleConfig true (.ok 2) 3).run normalClosureWorld).trace =
      [Event.GetPlayerByID 2 (some bob) none,
       Event.AfterFunc 10 0,
       Event.ReadMessage (.closeError 1000), Event.Stop 0,
       Event.Close] ∧
    ((HandlePlayWS sampleConfig true (.ok 2) 3).run normalClosureWorld).value = some true ∧
    ((HandlePlayWS sampleConfig true (.ok 2) 3).run normalClosureWorld).world.closed = true ∧
    ((HandleEndPlayWS sampleConfig true (.ok 2) 3).run normalClosureWorld).trace =
      [Event.GetPlayerByID 2 (some bob) none,
       Event.AfterFunc 10 0,
       Event.ReadMessage (.closeError 1000),
       Event.Close] := by
  have hb : selectRow [bob] 2 = some bob := by simp [selectRow, bob]
  refine ⟨by decide, by decide, by decide,
    fun fuel => HandlePlayWS_peer_gone sampleConfig 2 bob fuel goingAwayWorld hb rfl
      (Or.inr rfl),
    fun fuel => HandlePlayWS_peer_gone sampleConfig 2 bob fuel connectionLostWorld hb rfl
      (Or.inl rfl),
    fun fuel => HandleEndPlayWS_peer_gone sampleConfig 2 bob fuel goingAwayWorld hb rfl
      (Or.inr rfl),
    fun fuel => HandleEndPlayWS_peer_gone sampleConfig 2 bob fuel connectionLostWorld hb rfl
      (Or.inl rfl), ?_⟩
  have h1 : IsUnexpectedCloseError (.closeError CloseGoingAway) [CloseGoingAway] = false := by
    decide
  have h2 : IsUnexpectedCloseError (.closeError 1000) [CloseGoingAway] = true := by decide
  have h3 : IsUnexpectedCloseError .otherError [CloseGoingAway] = false := by decide
  have h4 : CloseGoingAway = 1001 := rfl
  simp [HandlePlayWS, HandleEndPlayWS, AuthenticateUser, playLoop, endPlayLoop,
    sampleConfig, bob, goingAwayWorld, normalClosureWorld, h1, h2, h3,
    Prog.bind, Prog.run, models.GetPlayerByID, World.nextFault,
    World.ReadMessage, World.AfterFunc, World.Stop, selectRow, Outcome.after]
  exact h4

/-! ## C13: what a bet commits -/

/-- The `float32` difference 200000 - 0.01. -/
theorem f32_200000_sub_cent : f32 (107374177031291 / 536870912) = 12799999 / 64 :=
  f32_eq_of_pos ((107374177031291 / 536870912)) (17) 12799999 (12799999 / 64)
      (by norm_num) (by norm_num) (by norm_num)
      (by norm_num) (by norm_num) (by norm_num)

/-- The commit of 199999.984375 writes 199999.984375. -/
theorem round2_199999 : Binary32.round2 (12799999 / 64) = 12799999 / 64 :=
  Binary32.round2_eq_of (12799999 / 64) (12799999 / 64) (319999975 / 16) (6871946986405233 / 34359738368) (12799999 / 64) 19999998
    (f64_eq_of_pos (12799999 / 64) (17) 6871947136729088 (12799999 / 64)
        (by norm_num) (by norm_num) (by norm_num)
        (by norm_num) (by norm_num) (by norm_num))
    (f64_eq_of_pos ((12799999 / 64) * 100) (24) 5368708700569600 (319999975 / 16)
        (by norm_num) (by norm_num) (by norm_num)
        (by norm_num) (by norm_num) (by norm_num))
    (models.Round_eq_of_near (319999975 / 16) 19999998 (by norm_num) (by norm_num) (by norm_num))
    (f64_eq_of_pos (((19999998 : ℤ) : ℚ) / 100) (17) 6871946986405233 (6871946986405233 / 34359738368)
        (by norm_num) (by norm_num) (by norm_num)
        (by norm_num) (by norm_num) (by norm_num))
    (f32_eq_of_pos ((6871946986405233 / 34359738368)) (17) 12799999 (12799999 / 64)
        (by norm_num) (by norm_num) (by norm_num)
        (by norm_num) (by norm_num) (by norm_num))

/-- The player wins exactly on an even dice with "pair" or an odd dice with
"not pair". -/
theorem playerWon_iff (d : Int) (t : String) :
    playerWon d t = true ↔ (2 ∣ d ∧ t = "pair") ∨ (¬ 2 ∣ d ∧ t = "not pair") := by
  simp [playerWon, Int.dvd_iff_tmod_eq_zero]

/-- C13. Over the binary32 reading of `processBet` (every `float32` operation
rounded as in the source).  Whenever `processBet` returns without error, the account
was loaded, the guard `betAmount > BetBalance + Wallet` was false, and exactly one
`UpdatePlayerBalance` call was made: its arguments are the wallet that
`DeductBetAmount` left and, as bet balance, the deducted bet balance plus
amount x `WINNING_MULTIPLIER` on a win and the deducted bet balance on a loss (the
event shows them as the commit rounds them).  The result reports the dice, the win
flag, and as `Winnings` amount x multiplier on a win and -amount on a loss.  Without
store failure every amount that passes the guard is committed.  The player wins
exactly on an even dice with "pair" or an odd dice with "not pair".  With wallet
300, bet balance 30, amount 20 and multiplier 2, a win writes 300 / 50 and a loss
writes 300 / 10; with bet balance 200000 a lost bet of 0.01 writes the `float32`
difference 199999.984375. -/
theorem processBet_commits_deduct_then_credit :
    (∀ (cfg : Config) (id : Int) (a : ℚ) (betType : String) (w : World)
        (r : DiceRollResult),
      ((Binary32.processBet cfg id a betType).run w).value = some (r, none) →
      ∃ p n, selectRow w.players id = some p ∧ ¬ a > f32 (p.BetBalance + p.Wallet) ∧
        Event.Intn 6 n ∈ ((Binary32.processBet cfg id a betType).run w).trace ∧
        ((Binary32.processBet cfg id a betType).run w).trace.filter Event.isBalanceWrite =
          [Event.balanceWrite id (Binary32.round2 (Binary32.DeductBetAmount p a).Wallet)
            (Binary32.round2
              (if playerWon (rolledDiceNumber cfg n) betType then
                f32 ((Binary32.DeductBetAmount p a).BetBalance +
                  f32 (a * cfg.WINNING_MULTIPLIER))
              else (Binary32.DeductBetAmount p a).BetBalance)) none] ∧
        r.DiceNumber = rolledDiceNumber cfg n ∧
        r.PlayerWin = playerWon (rolledDiceNumber cfg n) betType ∧
        r.Winnings = (if playerWon (rolledDiceNumber cfg n) betType then
          f32 (a * cfg.WINNING_MULTIPLIER) else -a)) ∧
    (∀ (cfg : Config) (id : Int) (a : ℚ) (betType : String) (w : World) (p : Player),
      selectRow w.players id = some p → w.dbFaults = [] →
      a ≤ f32 (p.BetBalance + p.Wallet) →
      ∃ r, ((Binary32.processBet cfg id a betType).run w).value = some (r, none)) ∧
    (∀ (d : Int) (t : String),
      playerWon d t = true ↔ (2 ∣ d ∧ t = "pair") ∨ (¬ 2 ∣ d ∧ t = "not pair")) ∧
    ((Binary32.processBet (riggedConfig 2) 2 20 "pair").run { players := [bob] }).trace.filter
        Event.isBalanceWrite = [Event.balanceWrite 2 300 50 none] ∧
    ((Binary32.processBet (riggedConfig 1) 2 20 "pair").run { players := [bob] }).trace.filter
        Event.isBalanceWrite = [Event.balanceWrite 2 300 10 none] ∧
    ((Binary32.processBet (riggedConfig 1) 5 cent32 "pair").run
        { players := [{ eve with BetBalance := 200000 }] }).trace.filter
        Event.isBalanceWrite = [Event.balanceWrite 5 0 (12799999 / 64) none] := by
  have h10 : f32 (10 : ℚ) = 10 := by simpa using f32_intCast 10 (by norm_num)
  have h40 : f32 (40 : ℚ) = 40 := by simpa using f32_intCast 40 (by norm_num)
  have h50 : f32 (50 : ℚ) = 50 := by simpa using f32_intCast 50 (by norm_num)
  have h330 : f32 (330 : ℚ) = 330 := by simpa using f32_intCast 330 (by norm_num)
  have h2e5 : f32 (200000 : ℚ) = 200000 := by simpa using f32_intCast 200000 (by norm_num)
  have r0 : Binary32.round2 (0 : ℚ) = 0 := by
    simpa using Binary32.round2_intCast 0 (by norm_num)
  have r10 : Binary32.round2 (10 : ℚ) = 10 := by
    simpa using Binary32.round2_intCast 10 (by norm_num)
  have r50 : Binary32.round2 (50 : ℚ) = 50 := by
    simpa using Binary32.round2_intCast 50 (by norm_num)
  have r300 : Binary32.round2 (300 : ℚ) = 300 := by
    simpa using Binary32.round2_intCast 300 (by norm_num)
  refine ⟨?_, ?_, playerWon_iff, ?_, ?_, ?_⟩
  · intro cfg id a betType w r hval
    obtain ⟨w1, -, ⟨e, -, h⟩ | ⟨p, -, -, -, h⟩ | ⟨p, n, q, e, -, -, -, -, h⟩ |
      ⟨p, n, q, hp, hle, hq, -, h⟩⟩ := Binary32.processBet_paths cfg id a betType w
    · rw [h] at hval
      simp at hval
    · rw [h] at hval
      simp at hval
    · rw [h] at hval
      simp at hval
    · rw [h] at hval ⊢
      have hr : r = Binary32.rollResult cfg (rolledDiceNumber cfg n) betType a
          (playerWon (rolledDiceNumber cfg n) betType) := by
        simp only [Option.some.injEq, Prod.mk.injEq, and_true] at hval
        exact hval.symm
      refine ⟨p, n, hp, hle, by simp, ?_, ?_, ?_, ?_⟩
      · subst hq
        cases hwon : playerWon (rolledDiceNumber cfg n) betType <;>
          simp [List.filter, Event.isBalanceWrite, Binary32.creditWinnings, hwon]
      · subst hr
        cases hwon : playerWon (rolledDiceNumber cfg n) betType <;>
          simp [Binary32.rollResult]
      · subst hr
        cases hwon : playerWon (rolledDiceNumber cfg n) betType <;>
          simp [Binary32.rollResult]
      · subst hr
        cases hwon : playerWon (rolledDiceNumber cfg n) betType <;>
          simp [Binary32.rollResult]
  · intro cfg id a betType w p hp hf hle
    have hng : ¬ f32 (p.BetBalance + p.Wallet) < a := not_lt.2 hle
    rcases hr : w.rolls with _ | ⟨n, rest⟩ <;>
    simp [Binary32.processBet, Prog.run, models.GetPlayerByID, Binary32.UpdatePlayerBalance,
      World.nextFault, World.Intn, hr, hf, hp, hng, Outcome.after]
  · have hsum : bob.BetBalance + bob.Wallet = 330 := by norm_num [bob]
    have hwon : playerWon (rolledDiceNumber (riggedConfig 2) 0) "pair" = true := by
      decide
    have hd : Binary32.DeductBetAmount bob 20 = { bob with BetBalance := 10 } := by
      have hle : (20 : ℚ) ≤ 30 := by norm_num
      have hv : (30 : ℚ) - 20 = 10 := by norm_num
      simp only [Binary32.DeductBetAmount, bob, hle, if_true, hv, h10]
    have hm : (20 : ℚ) * (riggedConfig 2).WINNING_MULTIPLIER = 40 := by
      norm_num [riggedConfig]
    have hc : (10 : ℚ) + 40 = 50 := by norm_num
    have h := (Binary32.processBet_committed (riggedConfig 2) 2 20 "pair" { players := [bob] }
      bob (by simp [selectRow, bob]) rfl rfl
      (by
        rw [hsum, h330]
        norm_num)).1
    rw [h, hwon, hd]
    simp only [Binary32.creditWinnings, if_true, hm, h40, hc, h50, bob, r300, r50]
  · have hsum : bob.BetBalance + bob.Wallet = 330 := by norm_num [bob]
    have hlost : playerWon (rolledDiceNumber (riggedConfig 1) 0) "pair" = false := by
      decide
    have hd : Binary32.DeductBetAmount bob 20 = { bob with BetBalance := 10 } := by
      have hle : (20 : ℚ) ≤ 30 := by norm_num
      have hv : (30 : ℚ) - 20 = 10 := by norm_num
      simp only [Binary32.DeductBetAmount, bob, hle, if_true, hv, h10]
    have h := (Binary32.processBet_committed (riggedConfig 1) 2 20 "pair" { players := [bob] }
      bob (by simp [selectRow, bob]) rfl rfl
      (by
        rw [hsum, h330]
        norm_num)).1
    rw [h, hlost, hd]
    simp only [Binary32.creditWinnings, Bool.false_eq_true, if_false, bob, r300, r10]
  · have h2e5' : f32 (200000 + 0 : ℚ) = 200000 := by
      rw [add_zero]
      exact h2e5
    have hle : cent32 ≤ 200000 := by
      unfold cent32
      norm_num
    have hv : (200000 : ℚ) - cent32 = 107374177031291 / 536870912 := by
      unfold cent32
      norm_num
    have hlost : playerWon (rolledDiceNumber (riggedConfig 1) 0) "pair" = false := by
      decide
    have hd : Binary32.DeductBetAmount { eve with BetBalance := 200000 } cent32 =
        { eve with BetBalance := 12799999 / 64 } := by
      simp only [Binary32.DeductBetAmount, eve, hle, if_true, hv, f32_200000_sub_cent]
    have h := (Binary32.processBet_committed (riggedConfig 1) 5 cent32 "pair"
      { players := [{ eve with BetBalance := 200000 }] } { eve with BetBalance := 200000 }
      (by simp [selectRow, eve]) rfl rfl
      (by
        show ¬ cent32 > f32 ((200000 : ℚ) + 0)
        rw [h2e5']
        exact not_lt.2 hle)).1
    rw [h, hlost, hd]
    simp only [Binary32.creditWinnings, Bool.false_eq_true, if_false, eve, r0, round2_199999]

/-- C13 (witness). Bob bets 20 on "pair" with the dice rigged to 2: the bet returns
without error, so the statement applies. -/
theorem processBet_commits_deduct_then_credit_witness :
    ∃ p n, selectRow [bob] 2 = some p ∧ ¬ (20 : ℚ) > f32 (p.BetBalance + p.Wallet) ∧
      Event.Intn 6 n ∈ ((Binary32.processBet (riggedConfig 2) 2 20 "pair").run
        { players := [bob] }).trace ∧
      ((Binary32.processBet (riggedConfig 2) 2 20 "pair").run
          { players := [bob] }).trace.filter Event.isBalanceWrite =
        [Event.balanceWrite 2 (Binary32.round2 (Binary32.DeductBetAmount p 20).Wallet)
          (Binary32.round2
            (if playerWon (rolledDiceNumber (riggedConfig 2) n) "pair" then
              f32 ((Binary32.DeductBetAmount p 20).BetBalance +
                f32 (20 * (riggedConfig 2).WINNING_MULTIPLIER))
            else (Binary32.DeductBetAmount p 20).BetBalance)) none] ∧
      (Binary32.rollResult (riggedConfig 2) 2 "pair" 20 true).DiceNumber =
        rolledDiceNumber (riggedConfig 2) n ∧
      (Binary32.rollResult (riggedConfig 2) 2 "pair" 20 true).PlayerWin =
        playerWon (rolledDiceNumber (riggedConfig 2) n) "pair" ∧
      (Binary32.rollResult (riggedConfig 2) 2 "pair" 20 true).Winnings =
        (if playerWon (rolledDiceNumber (riggedConfig 2) n) "pair" then
          f32 (20 * (riggedConfig 2).WINNING_MULTIPLIER) else -20) :=
  processBet_commits_deduct_then_credit.1 (riggedConfig 2) 2 20 "pair" { players := [bob] }
    (Binary32.rollResult (riggedConfig 2) 2 "pair" 20 true)
    (by
      have h330 : f32 (330 : ℚ) = 330 := by simpa using f32_intCast 330 (by norm_num)
      have hsum : bob.BetBalance + bob.Wallet = 330 := by norm_num [bob]
      have hwon : playerWon (rolledDiceNumber (riggedConfig 2) 0) "pair" = true := by
        decide
      have hdice : rolledDiceNumber (riggedConfig 2) 0 = 2 := by
        decide
      have h := (Binary32.processBet_committed (riggedConfig 2) 2 20 "pair"
        { players := [bob] } bob (by simp [selectRow, bob]) rfl rfl
        (by
          rw [hsum, h330]
          norm_num)).2.1
      rw [h, hwon, hdice])

/-! ## C14: the deduction of a bet -/

/-- C14. `DeductBetAmount` takes the bet from the bet balance first and only the
remainder from the wallet: when the amount is at most the bet balance, the bet
balance decreases by the amount and the wallet is unchanged; otherwise the bet
balance becomes 0 and the wallet decreases by the part of the amount the bet balance
did not cover.  In both cases wallet + bet balance decreases by exactly the amount,
and from non-negative balances an amount between 0 and wallet + bet balance leaves
both balances non-negative. -/
theorem DeductBetAmount_bet_balance_first (p : Player) (betAmount : ℚ) :
    (betAmount ≤ p.BetBalance →
      (p.DeductBetAmount betAmount).BetBalance = p.BetBalance - betAmount ∧
      (p.DeductBetAmount betAmount).Wallet = p.Wallet) ∧
    (¬ betAmount ≤ p.BetBalance →
      (p.DeductBetAmount betAmount).BetBalance = 0 ∧
      (p.DeductBetAmount betAmount).Wallet = p.Wallet - (betAmount - p.BetBalance)) ∧
    (p.DeductBetAmount betAmount).Wallet + (p.DeductBetAmount betAmount).BetBalance =
      p.Wallet + p.BetBalance - betAmount ∧
    (0 ≤ p.Wallet → 0 ≤ p.BetBalance → 0 ≤ betAmount →
      betAmount ≤ p.Wallet + p.BetBalance →
      0 ≤ (p.DeductBetAmount betAmount).Wallet ∧
      0 ≤ (p.DeductBetAmount betAmount).BetBalance) := by
  unfold Player.DeductBetAmount
  by_cases h : betAmount ≤ p.BetBalance
  · simp only [h, if_true, not_true_eq_false, true_implies, false_implies, and_true, true_and]
    refine ⟨by ring, fun h1 _ _ _ => ⟨h1, by linarith⟩⟩
  · simp only [h, if_false, not_false_eq_true, true_implies, false_implies, and_true, true_and]
    refine ⟨by ring, fun _ _ _ h4 => ⟨by linarith, le_refl _⟩⟩

/-- C14 (witness). Bob has wallet 300 and bet balance 30: a bet of 20 is covered by
the bet balance, a bet of 50 takes the 30 and 20 from the wallet. -/
theorem DeductBetAmount_bet_balance_first_witness :
    ((bob.DeductBetAmount 20).BetBalance = bob.BetBalance - 20 ∧
      (bob.DeductBetAmount 20).Wallet = bob.Wallet) ∧
    ((bob.DeductBetAmount 50).BetBalance = 0 ∧
      (bob.DeductBetAmount 50).Wallet = bob.Wallet - (50 - bob.BetBalance)) ∧
    (0 ≤ (bob.DeductBetAmount 50).Wallet ∧ 0 ≤ (bob.DeductBetAmount 50).BetBalance) :=
  ⟨(DeductBetAmount_bet_balance_first bob 20).1 (by norm_num [bob]),
   (DeductBetAmount_bet_balance_first bob 50).2.1 (by norm_num [bob]),
   (DeductBetAmount_bet_balance_first bob 50).2.2.2 (by norm_num [bob]) (by norm_num [bob])
     (by norm_num) (by norm_num [bob])⟩

/-! ## C15: what a cash-in commits -/

/-- The `float32` sum 300000 + 0.01 is 300000. -/
theorem f32_300000_add_cent : f32 (161061278968709 / 536870912) = 300000 :=
  f32_eq_of_pos (161061278968709 / 536870912) (18) 9600000 300000
    (by norm_num) (by norm_num) (by norm_num)
    (by norm_num) (by norm_num) (by norm_num)

/-- The `float32` difference 30 - 0.01. -/
theorem f32_30_sub_cent : f32 (16100758651 / 536870912) = (15723397 / 524288) :=
  f32_eq_of_pos (16100758651 / 536870912) (4) 15723397 (15723397 / 524288)
    (by norm_num) (by norm_num) (by norm_num)
    (by norm_num) (by norm_num) (by norm_num)

/-- The commit of the `float32` 29.99 writes it as it is. -/
theorem round2_2999 : Binary32.round2 (15723397 / 524288) = (15723397 / 524288) :=
  Binary32.round2_eq_of (15723397 / 524288) (15723397 / 524288) (393084925 / 131072) (8441434551552573 / 281474976710656) (15723397 / 524288) 2999
    (f64_eq_of_pos (15723397 / 524288) (4) 8441434487128064 (15723397 / 524288)
      (by norm_num) (by norm_num) (by norm_num)
      (by norm_num) (by norm_num) (by norm_num))
    (f64_eq_of_pos ((15723397 / 524288) * 100) (11) 6594870693068800 (393084925 / 131072)
      (by norm_num) (by norm_num) (by norm_num)
      (by norm_num) (by norm_num) (by norm_num))
    (models.Round_eq_of_near (393084925 / 131072) 2999 (by norm_num) (by norm_num) (by norm_num))
    (f64_eq_of_pos (((2999 : ℤ) : ℚ) / 100) (4) 8441434551552573 (8441434551552573 / 281474976710656)
      (by norm_num) (by norm_num) (by norm_num)
      (by norm_num) (by norm_num) (by norm_num))
    (f32_eq_of_pos (8441434551552573 / 281474976710656) (4) 15723397 (15723397 / 524288)
      (by norm_num) (by norm_num) (by norm_num)
      (by norm_num) (by norm_num) (by norm_num))

/-- C15 (code bug). Eve has wallet 300000.00 and bet balance 30.00 and cashes in 0.01
(the `float32` the handler passes for the JSON number 0.01).  The amount is positive
and at most the bet balance and `processCashIn` returns nil, but its one
`UpdatePlayerBalance` call carries wallet 300000.00 and bet balance 29.99 (the
`float32` nearest to it): the `float32` sum `player.Wallet+cashInAmount` is
300000.00, so the cent leaves the bet balance and does not reach the wallet, and the
committed total is below the total before. -/
theorem cashIn_cent_never_reaches_wallet :
    f32 (f64 (1 / 100)) = cent32 ∧ 0 < cent32 ∧ cent32 ≤ 30 ∧
    ((Binary32.processCashIn 5 cent32).run
        { players := [{ eve with Wallet := 300000, BetBalance := 30 }] }).value = some none ∧
    ((Binary32.processCashIn 5 cent32).run
        { players := [{ eve with Wallet := 300000, BetBalance := 30 }] }).trace.filter
          Event.isBalanceWrite =
      [Event.balanceWrite 5 300000 (15723397 / 524288) none] ∧
    ((Binary32.processCashIn 5 cent32).run
        { players := [{ eve with Wallet := 300000, BetBalance := 30 }] }).world.players =
      [{ eve with Wallet := 300000, BetBalance := 15723397 / 524288 }] ∧
    (300000 : ℚ) + 15723397 / 524288 < 300000 + 30 := by
  have hpos : 0 < cent32 := by
    unfold cent32
    norm_num
  have hle : cent32 ≤ 30 := by
    unfold cent32
    norm_num
  have hsum : (300000 : ℚ) + cent32 = 161061278968709 / 536870912 := by
    unfold cent32
    norm_num
  have hdiff : (30 : ℚ) - cent32 = 16100758651 / 536870912 := by
    unfold cent32
    norm_num
  have hw : Binary32.round2 (300000 : ℚ) = 300000 := by
    simpa using Binary32.round2_intCast 300000 (by norm_num)
  have h := Binary32.processCashIn_committed 5 cent32
    { players := [{ eve with Wallet := 300000, BetBalance := 30 }] }
    { eve with Wallet := 300000, BetBalance := 30 } (by simp [selectRow, eve]) rfl
    (not_lt.2 hle)
  simp only [hsum, hdiff, f32_300000_add_cent, f32_30_sub_cent, hw, round2_2999] at h
  refine ⟨f32_f64_cent, hpos, hle, h.1, h.2.1, ?_, by norm_num⟩
  rw [h.2.2]
  simp [setBalances, eve]

/-! ## C16: rounding to 2 fraction digits -/

/-- The nearest integer is within one half. -/
theorem models.Round_dist (y : ℚ) : |(models.Round y : ℚ) - y| ≤ 1 / 2 := by
  unfold models.Round
  split_ifs with h
  · have h1 := Int.floor_le (y + 1 / 2)
    have h2 := Int.lt_floor_add_one (y + 1 / 2)
    rw [abs_le]
    constructor <;> linarith
  · have h1 := Int.floor_le (-y + 1 / 2)
    have h2 := Int.lt_floor_add_one (-y + 1 / 2)
    rw [abs_le]
    push_cast
    constructor <;> linarith

/-- A value exactly halfway between two integers goes to the one further from zero. -/
theorem models.Round_tie (m : ℤ) :
    models.Round ((m : ℚ) + 1 / 2) = if 0 ≤ m then m + 1 else m := by
  unfold models.Round
  by_cases hm : 0 ≤ m
  · have h0 : (0 : ℚ) ≤ (m : ℚ) + 1 / 2 := by
      have : (0 : ℚ) ≤ (m : ℚ) := by exact_mod_cast hm
      linarith
    rw [if_pos h0, if_pos hm, Int.floor_eq_iff]
    push_cast
    constructor <;> linarith
  · have hm1 : m ≤ -1 := by omega
    have h0 : ¬ (0 : ℚ) ≤ (m : ℚ) + 1 / 2 := by
      have : (m : ℚ) ≤ -1 := by exact_mod_cast hm1
      linarith
    rw [if_neg h0, if_neg hm]
    have : ⌊-((m : ℚ) + 1 / 2) + 1 / 2⌋ = -m := by
      rw [Int.floor_eq_iff]
      push_cast
      constructor <;> linarith
    rw [this, neg_neg]

/-- C16. `UpdatePlayerBalance` writes `round2` of both arguments, and `round2 x` is
round(100 x) / 100: a multiple of 0.01 whose distance from `x` is at most 0.005; a
value exactly halfway between two cents goes to the cent further from zero; a value
with at most 2 fraction digits is written unchanged.  The same `round2` is applied
to the wallet and to the bet balance. -/
theorem UpdatePlayerBalance_rounds_to_cents :
    (∀ (playerId : Int) (x y : ℚ) (w : World),
      (models.UpdatePlayerBalance playerId x y w).2.2.head? =
        some (Event.balanceWrite playerId (models.round2 x) (models.round2 y)
          w.nextFault.1)) ∧
    (∀ x : ℚ, models.round2 x = (models.Round (100 * x) : ℚ) / 100) ∧
    (∀ x : ℚ, ∃ k : ℤ, models.round2 x = (k : ℚ) / 100) ∧
    (∀ x : ℚ, |models.round2 x - x| ≤ 1 / 200) ∧
    (∀ (x : ℚ) (m : ℤ), 100 * x = (m : ℚ) + 1 / 2 →
      models.round2 x = ((if 0 ≤ m then m + 1 else m : ℤ) : ℚ) / 100) ∧
    (∀ k : ℤ, models.round2 ((k : ℚ) / 100) = (k : ℚ) / 100) := by
  refine ⟨?_, ?_, ?_, ?_, ?_, models.round2_cents⟩
  · intro playerId x y w
    rcases UpdatePlayerBalance_cases playerId x y w with ⟨w1, -, -, e, h⟩ | ⟨w1, -, -, h⟩
    · have hf : w.nextFault.1 = some e := by
        have := congrArg (fun r => r.1) h
        rcases hn : w.nextFault.1 with _ | e2
        · simp [models.UpdatePlayerBalance, hn] at this
        · simp [models.UpdatePlayerBalance, hn] at this
          rw [this]
      rw [h, hf]
      rfl
    · have hf : w.nextFault.1 = none := by
        have := congrArg (fun r => r.1) h
        rcases hn : w.nextFault.1 with _ | e2
        · rfl
        · simp [models.UpdatePlayerBalance, hn] at this
      rw [h, hf]
      rfl
  · intro x
    unfold models.round2
    rw [mul_comm]
  · intro x
    exact ⟨models.Round (x * 100), rfl⟩
  · intro x
    unfold models.round2
    have h := models.Round_dist (x * 100)
    have hx : (models.Round (x * 100) : ℚ) / 100 - x =
        ((models.Round (x * 100) : ℚ) - x * 100) / 100 := by ring
    rw [hx, abs_div, abs_of_pos (by norm_num : (0 : ℚ) < 100), div_le_iff₀ (by norm_num)]
    linarith
  · intro x m hx
    unfold models.round2
    rw [mul_comm] at hx
    rw [hx, models.Round_tie]

/-- C16 (witness). The amounts 0.125 and -0.125 are exactly halfway between two
cents: they are written as 0.13 and -0.13. -/
theorem UpdatePlayerBalance_rounds_to_cents_witness :
    models.round2 (1 / 8) = ((13 : ℤ) : ℚ) / 100 ∧
    models.round2 (-1 / 8) = ((-13 : ℤ) : ℚ) / 100 :=
  ⟨(UpdatePlayerBalance_rounds_to_cents.2.2.2.2.1 (1 / 8) 12 (by norm_num)).trans
     (by norm_num),
   (UpdatePlayerBalance_rounds_to_cents.2.2.2.2.1 (-1 / 8) (-13) (by norm_num)).trans
     (by norm_num)⟩

/-! ## C17: out-of-range amounts in deposit and withdraw -/

/-- The JSON number 1000000.01 stored in a `float32` is 1000000. -/
theorem f32_million_and_cent : f32 (100000001 / 100) = 1000000 :=
  f32_eq_of_pos (100000001 / 100) (19) 16000000 1000000
    (by norm_num) (by norm_num) (by norm_num)
    (by norm_num) (by norm_num) (by norm_num)

/-- C17 (counterexample). Bob (wallet 300.00) posts a deposit of 1000000.01.  The
number is above 1,000,000, but `Decode` stores it in the `float32` field as
1000000.0, the check `AmountToDeposit > 1000000` is false, and the deposit is
answered 200 and committed: the wallet is 1000300.00. -/
theorem deposit_above_ceiling_accepted :
    (1000000 : ℚ) < 100000001 / 100 ∧
    decodeFloat32 (100000001 / 100) = some 1000000 ∧
    ((Binary32.HandleDeposit (postAmount 2 (100000001 / 100))).run
        { players := [bob] }).value =
      some { status := 200, message := "Deposit successful", amount := some 1000000,
             newBalance := some 1000300 } ∧
    ((Binary32.HandleDeposit (postAmount 2 (100000001 / 100))).run
        { players := [bob] }).trace.filter Event.isBalanceWrite =
      [Event.balanceWrite 2 1000300 30 none] ∧
    ((Binary32.HandleDeposit (postAmount 2 (100000001 / 100))).run
        { players := [bob] }).world.players = [{ bob with Wallet := 1000300 }] := by
  have hdec : decodeFloat32 (100000001 / 100) = some 1000000 := by
    unfold decodeFloat32
    rw [f32_million_and_cent, if_pos]
    rw [abs_of_nonneg (by norm_num)]
    norm_num
  have hsum : f32 ((300 : ℚ) + 1000000) = 1000300 := by
    have h := f32_intCast 1000300 (by norm_num)
    norm_num at h ⊢
    exact h
  have hw : Binary32.round2 (1000300 : ℚ) = 1000300 := by
    simpa using Binary32.round2_intCast 1000300 (by norm_num)
  have hb : Binary32.round2 (30 : ℚ) = 30 := by
    simpa using Binary32.round2_intCast 30 (by norm_num)
  have h := Binary32.HandleDeposit_committed { players := [bob] } 2 (100000001 / 100) 1000000
    bob (by simp [selectRow, bob]) rfl rfl hdec (by norm_num) (le_refl _)
  simp only [bob, hsum, hw, hb] at h
  refine ⟨by norm_num, hdec, h.1, h.2.2, ?_⟩
  exact (congrArg World.players h.2.1).trans (by simp [setBalances, setIsBetting, bob])

/-- A deposit whose decoded amount is out of range makes no gate call and no
commit. -/
theorem Binary32.deposit_out_of_range_no_gate (r : Request) (w : World) (x a : ℚ)
    (hb : r.body = some x) (hx : decodeFloat32 x = some a) (ha : a ≤ 0 ∨ a > 1000000) :
    ∀ e ∈ ((Binary32.HandleDeposit r).run w).trace,
      e.isStatusCheck = false ∧ e.isStatusUpdate = false ∧ e.isBalanceWrite = false := by
  simp only [Binary32.HandleDeposit]
  split_ifs with hm
  · simp
  rcases htok : r.token with e | pid
  · simp [AuthenticateUser, Prog.run_bind, Outcome.after]
  simp only [AuthenticateUser, Prog.run_bind, Prog.run_GetPlayerByID]
  obtain ⟨w1, -, -, ⟨e, h1⟩ | ⟨p, -, h1⟩⟩ := GetPlayerByID_cases pid w
  · simp [h1, Outcome.after, Event.isStatusCheck, Event.isStatusUpdate, Event.isBalanceWrite]
  simp only [h1, hb, Option.some_bind, hx, Prog.run_ret, Outcome.after]
  rcases ha with ha | ha
  · simp [ha, Event.isStatusCheck, Event.isStatusUpdate, Event.isBalanceWrite]
  · by_cases h0 : a ≤ 0
    · simp [h0, Event.isStatusCheck, Event.isStatusUpdate, Event.isBalanceWrite]
    · simp [h0, ha, Event.isStatusCheck, Event.isStatusUpdate, Event.isBalanceWrite]

/-- A withdrawal whose decoded amount is not positive makes no gate call and no
commit. -/
theorem Binary32.withdraw_out_of_range_no_gate (r : Request) (w : World) (x a : ℚ)
    (hb : r.body = some x) (hx : decodeFloat32 x = some a) (ha : a ≤ 0) :
    ∀ e ∈ ((Binary32.HandleWithdraw r).run w).trace,
      e.isStatusCheck = false ∧ e.isStatusUpdate = false ∧ e.isBalanceWrite = false := by
  simp only [Binary32.HandleWithdraw]
  split_ifs with hm
  · simp
  rcases htok : r.token with e | pid
  · simp [AuthenticateUser, Prog.run_bind, Outcome.after]
  simp only [AuthenticateUser, Prog.run_bind, Prog.run_GetPlayerByID]
  obtain ⟨w1, -, -, ⟨e, h1⟩ | ⟨p, -, h1⟩⟩ := GetPlayerByID_cases pid w
  · simp [h1, Outcome.after, Event.isStatusCheck, Event.isStatusUpdate, Event.isBalanceWrite]
  simp only [h1, hb, Option.some_bind, hx, Prog.run_ret, Outcome.after]
  simp [ha, Event.isStatusCheck, Event.isStatusUpdate, Event.isBalanceWrite]

/-- The answers to an out-of-range decoded amount of an authenticated POST request,
and the deposit whose decoded amount is in range. -/
theorem Binary32.out_of_range_responses (w : World) (id : Int) (x a : ℚ) (p : Player)
    (hp : selectRow w.players id = some p) (hf : w.nextFault.1 = none)
    (hx : decodeFloat32 x = some a) :
    (a ≤ 0 → ((Binary32.HandleDeposit (postAmount id x)).run w).value =
      some { status := 400, message := "Deposit must be above 0" }) ∧
    (a > 1000000 → ((Binary32.HandleDeposit (postAmount id x)).run w).value =
      some { status := 400,
             message :=
               "Deposit must be below or equal to 1.000.000 (you can\x27t be that rich!)" }) ∧
    (a ≤ 0 → ((Binary32.HandleWithdraw (postAmount id x)).run w).value =
      some { status := 400, message := "Withdraw amount must be greater than 0" }) ∧
    (0 < a → a ≤ 1000000 →
      ∃ e ∈ ((Binary32.HandleDeposit (postAmount id x)).run w).trace,
        e.isStatusCheck = true) := by
  have hget : models.GetPlayerByID id w =
      (.ok p, w.nextFault.2, [Event.GetPlayerByID id (some p) none]) := by
    simp [models.GetPlayerByID, hf, nextFault_players, hp]
  refine ⟨fun ha => ?_, fun ha => ?_, fun ha => ?_, fun hpos hmax => ?_⟩
  · simp [Binary32.HandleDeposit, postAmount, AuthenticateUser, Prog.run_bind, hget,
      Outcome.after, hx, ha]
  · have h0 : ¬ a ≤ 0 := by linarith
    simp [Binary32.HandleDeposit, postAmount, AuthenticateUser, Prog.run_bind, hget,
      Outcome.after, hx, ha, h0]
  · simp [Binary32.HandleWithdraw, postAmount, AuthenticateUser, Prog.run_bind, hget,
      Outcome.after, hx, ha]
  · have h0 : ¬ a ≤ 0 := not_le.2 hpos
    have h1 : ¬ 1000000 < a := not_lt.2 hmax
    simp only [Binary32.HandleDeposit, postAmount, AuthenticateUser, Prog.run_bind,
      Prog.run_GetPlayerByID, hget, Prog.run_ret, Outcome.after, ne_eq, not_true_eq_false,
      if_false, Option.some_bind, hx, h0, gt_iff_lt, h1, Prog.run_CheckPlayerBettingStatus]
    obtain ⟨w1, -, -, ⟨e, h2⟩ | ⟨q, -, h2⟩⟩ :=
      CheckPlayerBettingStatus_cases p.ID w.nextFault.2
    · simp [h2, Outcome.after, Event.isStatusCheck]
    · simp [h2, Outcome.after, Event.isStatusCheck]

/-- C17 (amended). The amount is the `float32` that `Decode` stores for the number in
the body.  For every request and every store, a deposit whose decoded amount is <= 0
or > 1,000,000 and a withdrawal whose decoded amount is <= 0 lead to a run with no
`CheckPlayerBettingStatus`, no `UpdatePlayerBettingStatus` and no
`UpdatePlayerBalance` call.  For an authenticated POST request the answer is 400
(with the message of the violated bound), and a deposit whose decoded amount is
positive and at most 1,000,000 goes on to the gate lookup. -/
theorem decoded_amount_out_of_range_rejected_before_gate :
    (∀ (r : Request) (w : World) (x a : ℚ), r.body = some x → decodeFloat32 x = some a →
      a ≤ 0 ∨ a > 1000000 →
      ∀ e ∈ ((Binary32.HandleDeposit r).run w).trace,
        e.isStatusCheck = false ∧ e.isStatusUpdate = false ∧ e.isBalanceWrite = false) ∧
    (∀ (r : Request) (w : World) (x a : ℚ), r.body = some x → decodeFloat32 x = some a →
      a ≤ 0 →
      ∀ e ∈ ((Binary32.HandleWithdraw r).run w).trace,
        e.isStatusCheck = false ∧ e.isStatusUpdate = false ∧ e.isBalanceWrite = false) ∧
    (∀ (w : World) (id : Int) (x a : ℚ) (p : Player),
      selectRow w.players id = some p → w.nextFault.1 = none → decodeFloat32 x = some a →
      (a ≤ 0 → ((Binary32.HandleDeposit (postAmount id x)).run w).value =
        some { status := 400, message := "Deposit must be above 0" }) ∧
      (a > 1000000 → ((Binary32.HandleDeposit (postAmount id x)).run w).value =
        some { status := 400,
               message :=
                 "Deposit must be below or equal to 1.000.000 (you can\x27t be that rich!)" }) ∧
      (a ≤ 0 → ((Binary32.HandleWithdraw (postAmount id x)).run w).value =
        some { status := 400, message := "Withdraw amount must be greater than 0" }) ∧
      (0 < a → a ≤ 1000000 →
        ∃ e ∈ ((Binary32.HandleDeposit (postAmount id x)).run w).trace,
          e.isStatusCheck = true)) :=
  ⟨fun r w x a hb hx ha => Binary32.deposit_out_of_range_no_gate r w x a hb hx ha,
   fun r w x a hb hx ha => Binary32.withdraw_out_of_range_no_gate r w x a hb hx ha,
   fun w id x a p hp hf hx => Binary32.out_of_range_responses w id x a p hp hf hx⟩

/-- C17 (witness). Bob deposits 0, deposits 1,000,001, withdraws -5 and deposits
exactly 1,000,000. -/
theorem decoded_amount_out_of_range_rejected_before_gate_witness :
    (∀ e ∈ ((Binary32.HandleDeposit (postAmount 2 1000001)).run { players := [bob] }).trace,
      e.isStatusCheck = false ∧ e.isStatusUpdate = false ∧ e.isBalanceWrite = false) ∧
    (∀ e ∈ ((Binary32.HandleWithdraw (postAmount 2 (-5))).run { players := [bob] }).trace,
      e.isStatusCheck = false ∧ e.isStatusUpdate = false ∧ e.isBalanceWrite = false) ∧
    ((Binary32.HandleDeposit (postAmount 2 0)).run { players := [bob] }).value =
      some { status := 400, message := "Deposit must be above 0" } ∧
    ((Binary32.HandleDeposit (postAmount 2 1000001)).run { players := [bob] }).value =
      some { status := 400,
             message :=
               "Deposit must be below or equal to 1.000.000 (you can\x27t be that rich!)" } ∧
    ((Binary32.HandleWithdraw (postAmount 2 (-5))).run { players := [bob] }).value =
      some { status := 400, message := "Withdraw amount must be greater than 0" } ∧
    (∃ e ∈ ((Binary32.HandleDeposit (postAmount 2 1000000)).run { players := [bob] }).trace,
      e.isStatusCheck = true) := by
  have hbob : selectRow ({ players := [bob] } : World).players 2 = some bob := by
    simp [selectRow, bob]
  have d0 : decodeFloat32 (0 : ℚ) = some 0 := by
    have h := decodeFloat32_intCast 0 (by norm_num)
    simp only [Int.cast_zero] at h
    exact h
  have d1 : decodeFloat32 (1000001 : ℚ) = some 1000001 := by
    have h := decodeFloat32_intCast 1000001 (by norm_num)
    simp only [Int.cast_ofNat] at h
    exact h
  have d2 : decodeFloat32 (-5 : ℚ) = some (-5) := by
    have h := decodeFloat32_intCast (-5) (by norm_num)
    simp only [Int.cast_neg, Int.cast_ofNat] at h
    exact h
  have d3 : decodeFloat32 (1000000 : ℚ) = some 1000000 := by
    have h := decodeFloat32_intCast 1000000 (by norm_num)
    simp only [Int.cast_ofNat] at h
    exact h
  exact
    ⟨decoded_amount_out_of_range_rejected_before_gate.1 (postAmount 2 1000001)
        { players := [bob] } 1000001 1000001 rfl d1 (Or.inr (by norm_num)),
     decoded_amount_out_of_range_rejected_before_gate.2.1 (postAmount 2 (-5))
        { players := [bob] } (-5) (-5) rfl d2 (by norm_num),
     (decoded_amount_out_of_range_rejected_before_gate.2.2 { players := [bob] } 2 0 0 bob
        hbob rfl d0).1 (le_refl _),
     (decoded_amount_out_of_range_rejected_before_gate.2.2 { players := [bob] } 2 1000001
        1000001 bob hbob rfl d1).2.1 (by norm_num),
     (decoded_amount_out_of_range_rejected_before_gate.2.2 { players := [bob] } 2 (-5) (-5) bob
        hbob rfl d2).2.2.1 (by norm_num),
     (decoded_amount_out_of_range_rejected_before_gate.2.2 { players := [bob] } 2 1000000
        1000000 bob hbob rfl d3).2.2.2 (by norm_num) (le_refl _)⟩

/-! ## C18: business-rule failures of a place-bet message -/

/-- Each failing rule leaves its entry in the list, and the list is empty exactly
for a message whose `betType` is the string "pair" or "not pair" and whose
`betAmount` is a positive number. -/
theorem playValidation_rules (pd : List (String × JsonValue)) :
    ((asString (mapGet pd "betType")).2 = false →
      "Invalid or missing betType" ∈ playValidation pd) ∧
    ((asString (mapGet pd "betType")).1 ≠ "pair" ∧
        (asString (mapGet pd "betType")).1 ≠ "not pair" →
      "betType must be \x27pair\x27 or \x27not pair\x27" ∈ playValidation pd) ∧
    ((asFloat64 (mapGet pd "betAmount")).2 = false →
      "Invalid or missing betAmount" ∈ playValidation pd) ∧
    ((asFloat64 (mapGet pd "betAmount")).1 ≤ 0 →
      "betAmount must be greater than 0" ∈ playValidation pd) ∧
    (playValidation pd = [] ↔
      ∃ s x, mapGet pd "betType" = some (JsonValue.string s) ∧
        (s = "pair" ∨ s = "not pair") ∧
        mapGet pd "betAmount" = some (JsonValue.number x) ∧ 0 < x) := by
  unfold playValidation
  rcases hT : mapGet pd "betType" with _ | (_ | _ | _ | s | _ | _) <;>
  rcases hA : mapGet pd "betAmount" with _ | (_ | _ | x | _ | _ | _) <;>
  simp [asString, asFloat64]
  all_goals by_cases hx : x ≤ 0 <;> simp [hx, not_le]
  all_goals by_cases h1 : s = "pair" <;> by_cases h2 : s = "not pair" <;> simp [h1, h2]
  all_goals exact not_le.1 hx

/-- The gate entries are appended: every entry of the list before is still in the
list after. -/
theorem gateErrors_keeps (errorList : List String) (b : Bool) (err : Option String) :
    ∀ m ∈ errorList, m ∈ gateErrors errorList b err := by
  intro m hm
  unfold gateErrors
  cases err <;> cases b <;> simp [hm]

/-- A place-bet round whose message fails a rule is the gate lookup followed by the
response, and nothing else but the timer. -/
theorem play_rule_failure_run (cfg : Config) (player : Player) (timeout : Nat)
    (messageType : Int) (pd : List (String × JsonValue)) (w : World)
    (h : playValidation pd ≠ []) :
    ∃ (b : Bool) (e err : Option String) (errs : List String) (rest : List Event)
      (v : LoopStep),
      (∀ m ∈ playValidation pd, m ∈ errs) ∧
      (rest = [] ∨ ∃ t, rest = [Event.AfterFunc cfg.SOCKET_TIMEOUT_DURATION t]) ∧
      ((playMessage cfg player timeout messageType (some pd)).run w).value = some v ∧
      ((playMessage cfg player timeout messageType (some pd)).run w).world.players
        = w.players ∧
      ((playMessage cfg player timeout messageType (some pd)).run w).trace =
        Event.CheckPlayerBettingStatus player.ID b e ::
        Event.WriteMessage messageType
          { message := "Error creating bet, check error list", code := 400,
            errorsList := some errs, result := none } err :: rest := by
  simp only [playMessage, Prog.run_CheckPlayerBettingStatus]
  have key : ∀ (b : Bool) (e : Option String),
      (gateErrors (playValidation pd) b e).length ≠ 0 := by
    intro b e hlen
    rcases hpv : playValidation pd with _ | ⟨m, ms⟩
    · exact h hpv
    · have := gateErrors_keeps (playValidation pd) b e m (by simp [hpv])
      rw [List.length_eq_zero.1 hlen] at this
      simp at this
  have hresp : ∀ (b : Bool) (e : Option String),
      playResponse (gateErrors (playValidation pd) b e) none =
        { message := "Error creating bet, check error list", code := 400,
          errorsList := some (gateErrors (playValidation pd) b e), result := none } := by
    intro b e
    simp [playResponse, Nat.pos_of_ne_zero (key b e)]
  obtain ⟨w1, hw1, -, ⟨e, h1⟩ | ⟨q, -, h1⟩⟩ := CheckPlayerBettingStatus_cases player.ID w
  · simp only [h1]
    obtain ⟨w2, err, v, rest, hw2, -, h2, hrest⟩ := sendResponse_cases cfg messageType
      (playResponse (gateErrors (playValidation pd) false (some e)) none) w1
    rw [hresp] at h2
    refine ⟨false, some e, err, gateErrors (playValidation pd) false (some e), rest, v,
      gateErrors_keeps _ _ _, hrest, ?_, ?_, ?_⟩ <;>
    simp [hresp, h2, Outcome.after, hw2, hw1]
  · simp only [h1]
    obtain ⟨w2, err, v, rest, hw2, -, h2, hrest⟩ := sendResponse_cases cfg messageType
      (playResponse (gateErrors (playValidation pd) q.IsBetting none) none) w1
    rw [hresp] at h2
    refine ⟨q.IsBetting, none, err, gateErrors (playValidation pd) q.IsBetting none, rest, v,
      gateErrors_keeps _ _ _, hrest, ?_, ?_, ?_⟩ <;>
    simp [key, hresp, h2, Outcome.after, hw2, hw1]

/-- With an error list that is not empty the response is the 400 one, without the
result keys. -/
theorem playResponse_errors (errs : List String) (h : errs ≠ []) :
    playResponse errs none =
      { message := "Error creating bet, check error list", code := 400,
        errorsList := some errs, result := none } := by
  simp [playResponse, List.length_pos.2 h]

/-- Every response of a place-bet round on a parsed message is either the 200 one,
with the result of the bet and no error list, or the 400 one, with an error list
that is not empty and no result. -/
theorem play_response_code (cfg : Config) (player : Player) (timeout : Nat)
    (messageType : Int) (pd : List (String × JsonValue)) (w : World)
    (mt : Int) (resp : WSResponse) (err : Option String)
    (h : Event.WriteMessage mt resp err ∈
      ((playMessage cfg player timeout messageType (some pd)).run w).trace) :
    (resp.code = 200 ∧ resp.message = "Bet placed successfully" ∧ resp.errorsList = none ∧
      playValidation pd = [] ∧
      ∃ n, Event.Intn 6 n ∈
          ((playMessage cfg player timeout messageType (some pd)).run w).trace ∧
        resp.result = some (rollResult cfg (rolledDiceNumber cfg n)
          (asString (mapGet pd "betType")).1 (asFloat64 (mapGet pd "betAmount")).1
          (playerWon (rolledDiceNumber cfg n) (asString (mapGet pd "betType")).1))) ∨
    (resp.code = 400 ∧ resp.message = "Error creating bet, check error list" ∧
      resp.result = none ∧ ∃ errs, errs ≠ [] ∧ resp.errorsList = some errs) := by
  revert h
  simp only [playMessage, Prog.run_CheckPlayerBettingStatus]
  have hsend : ∀ (errs : List String) (w0 : World), errs ≠ [] →
      Event.WriteMessage mt resp err ∈
        ((sendResponse cfg messageType (playResponse errs none)).run w0).trace →
      resp.code = 400 ∧ resp.message = "Error creating bet, check error list" ∧
        resp.result = none ∧ ∃ errs, errs ≠ [] ∧ resp.errorsList = some errs := by
    intro errs w0 hne hmem
    obtain ⟨w2, err2, v, rest, -, -, h2, hrest⟩ := sendResponse_cases cfg messageType
      (playResponse errs none) w0
    rw [h2, playResponse_errors errs hne] at hmem
    have : resp =
        { message := "Error creating bet, check error list", code := 400,
          errorsList := some errs, result := none } := by
      rcases hrest with rfl | ⟨t, rfl⟩ <;> simp at hmem <;> exact hmem.2.1
    subst this
    exact ⟨rfl, rfl, rfl, errs, hne, rfl⟩
  obtain ⟨w1, hw1, -, ⟨e, h1⟩ | ⟨q, hq, h1⟩⟩ := CheckPlayerBettingStatus_cases player.ID w
  · simp only [h1]
    intro hmem
    right
    refine hsend (gateErrors (playValidation pd) false (some e)) w1 ?_ ?_
    · simp [gateErrors]
    · simpa [Outcome.after] using hmem
  simp only [h1]
  cases hflag : q.IsBetting
  swap
  · intro hmem
    right
    refine hsend (gateErrors (playValidation pd) true none) w1 ?_ ?_
    · simp [gateErrors]
    · simpa [Outcome.after] using hmem
  simp only [Bool.not_false, true_and]
  by_cases hlen : (gateErrors (playValidation pd) false none).length = 0
  swap
  · intro hmem
    right
    refine hsend (gateErrors (playValidation pd) false none) w1 ?_ ?_
    · intro h0
      exact hlen (by rw [h0]; rfl)
    · simpa [hlen, Outcome.after] using hmem
  have hpv : playValidation pd = [] := by
    simpa [gateErrors] using hlen
  simp only [hlen, if_true, Prog.run_UpdatePlayerBettingStatus, Prog.run_bind]
  obtain ⟨w2, e2, -, h2⟩ := UpdatePlayerBettingStatus_any player.ID true w1
  simp only [h2]
  obtain ⟨w3, -, hb⟩ := processBet_cases cfg player.ID (asFloat64 (mapGet pd "betAmount")).1
    (asString (mapGet pd "betType")).1 w2
  obtain ⟨w4, e4, -, h4⟩ := UpdatePlayerBettingStatus_any player.ID false w3
  rcases hb with ⟨e, -, hb⟩ | ⟨p, -, -, -, hb⟩ | ⟨p, n, q1, e, -, -, -, -, hb⟩ |
    ⟨p, n, q1, -, -, -, -, hb⟩
  · simp only [hb, Prog.run_UpdatePlayerBettingStatus, h4]
    intro hmem
    right
    refine hsend (gateErrors (playValidation pd) false none ++ ["Error getting player info for bet processing"]) w4
      (by simp) ?_
    simpa [Outcome.after] using hmem
  · simp only [hb, Prog.run_UpdatePlayerBettingStatus, h4]
    intro hmem
    right
    refine hsend (gateErrors (playValidation pd) false none ++ ["betAmount exceeds player\x27s balance and bet balance"]) w4
      (by simp) ?_
    simpa [Outcome.after] using hmem
  · simp only [hb, Prog.run_UpdatePlayerBettingStatus, h4]
    intro hmem
    right
    refine hsend (gateErrors (playValidation pd) false none ++ [e]) w4
      (by simp) ?_
    simpa [Outcome.after] using hmem
  · simp only [hb, Prog.run_UpdatePlayerBettingStatus, h4]
    intro hmem
    left
    obtain ⟨w5, err5, v, rest, -, -, h5, hrest⟩ := sendResponse_cases cfg messageType
      (playResponse (gateErrors (playValidation pd) false none)
        (some (rollResult cfg (rolledDiceNumber cfg n) (asString (mapGet pd "betType")).1
          (asFloat64 (mapGet pd "betAmount")).1
          (playerWon (rolledDiceNumber cfg n) (asString (mapGet pd "betType")).1)))) w4
    rw [h5] at hmem ⊢
    have hr : resp = playResponse (gateErrors (playValidation pd) false none)
        (some (rollResult cfg (rolledDiceNumber cfg n) (asString (mapGet pd "betType")).1
          (asFloat64 (mapGet pd "betAmount")).1
          (playerWon (rolledDiceNumber cfg n) (asString (mapGet pd "betType")).1))) := by
      rcases hrest with rfl | ⟨t, rfl⟩ <;> simp [Outcome.after] at hmem <;> exact hmem.2.1
    subst hr
    refine ⟨by simp [playResponse, hlen], by simp [playResponse, hlen],
      by simp [playResponse, hlen], hpv, n, by simp [Outcome.after], by simp [playResponse, hlen]⟩

/-- C18. A well-formed place-bet message that fails a business rule gets one
response with code 400 whose `errorsList` holds the entry of every failing rule; the
round is the gate lookup and that response (then the timer): the flag is never set,
`processBet` never runs (no player load, no dice), nothing is committed, and the rows
are unchanged.  The entries are those of the rules on `betType` (missing or not a
string; not "pair" or "not pair") and on `betAmount` (missing or not a number;
<= 0), and no rule fails exactly for a string "pair" or "not pair" with a positive
number.  Conversely every response of a round on a parsed message either has code
200, no `errorsList`, and the five result keys of the bet (then no rule failed), or
has code 400, an `errorsList` that is not empty, and no result key. -/
theorem play_rule_failures_collected_in_one_response :
    (∀ (cfg : Config) (player : Player) (timeout : Nat) (messageType : Int)
        (pd : List (String × JsonValue)) (w : World), playValidation pd ≠ [] →
      (∃ (b : Bool) (e err : Option String) (errs : List String) (rest : List Event)
          (v : LoopStep),
        (∀ m ∈ playValidation pd, m ∈ errs) ∧
        (rest = [] ∨ ∃ t, rest = [Event.AfterFunc cfg.SOCKET_TIMEOUT_DURATION t]) ∧
        ((playMessage cfg player timeout messageType (some pd)).run w).value = some v ∧
        ((playMessage cfg player timeout messageType (some pd)).run w).world.players
          = w.players ∧
        ((playMessage cfg player timeout messageType (some pd)).run w).trace =
          Event.CheckPlayerBettingStatus player.ID b e ::
          Event.WriteMessage messageType
            { message := "Error creating bet, check error list", code := 400,
              errorsList := some errs, result := none } err :: rest) ∧
      (∀ ev ∈ ((playMessage cfg player timeout messageType (some pd)).run w).trace,
        ev.isStatusUpdate = false ∧ ev.isPlayerLoad = false ∧ ev.isBalanceWrite = false ∧
        ∀ n k, ev ≠ Event.Intn n k)) ∧
    (∀ pd : List (String × JsonValue),
      ((asString (mapGet pd "betType")).2 = false →
        "Invalid or missing betType" ∈ playValidation pd) ∧
      ((asString (mapGet pd "betType")).1 ≠ "pair" ∧
          (asString (mapGet pd "betType")).1 ≠ "not pair" →
        "betType must be \x27pair\x27 or \x27not pair\x27" ∈ playValidation pd) ∧
      ((asFloat64 (mapGet pd "betAmount")).2 = false →
        "Invalid or missing betAmount" ∈ playValidation pd) ∧
      ((asFloat64 (mapGet pd "betAmount")).1 ≤ 0 →
        "betAmount must be greater than 0" ∈ playValidation pd) ∧
      (playValidation pd = [] ↔
        ∃ s x, mapGet pd "betType" = some (JsonValue.string s) ∧
          (s = "pair" ∨ s = "not pair") ∧
          mapGet pd "betAmount" = some (JsonValue.number x) ∧ 0 < x)) ∧
    (∀ (cfg : Config) (player : Player) (timeout : Nat) (messageType : Int)
        (pd : List (String × JsonValue)) (w : World) (mt : Int) (resp : WSResponse)
        (err : Option String),
      Event.WriteMessage mt resp err ∈
        ((playMessage cfg player timeout messageType (some pd)).run w).trace →
      (resp.code = 200 ∧ resp.message = "Bet placed successfully" ∧
        resp.errorsList = none ∧ playValidation pd = [] ∧
        ∃ n, Event.Intn 6 n ∈
            ((playMessage cfg player timeout messageType (some pd)).run w).trace ∧
          resp.result = some (rollResult cfg (rolledDiceNumber cfg n)
            (asString (mapGet pd "betType")).1 (asFloat64 (mapGet pd "betAmount")).1
            (playerWon (rolledDiceNumber cfg n) (asString (mapGet pd "betType")).1))) ∨
      (resp.code = 400 ∧ resp.message = "Error creating bet, check error list" ∧
        resp.result = none ∧ ∃ errs, errs ≠ [] ∧ resp.errorsList = some errs)) := by
  refine ⟨fun cfg player timeout messageType pd w h => ?_, playValidation_rules,
    play_response_code⟩
  obtain ⟨b, e, err, errs, rest, v, hall, hrest, hv, hp, ht⟩ :=
    play_rule_failure_run cfg player timeout messageType pd w h
  refine ⟨⟨b, e, err, errs, rest, v, hall, hrest, hv, hp, ht⟩, ?_⟩
  rw [ht]
  rcases hrest with rfl | ⟨t, rfl⟩ <;>
  simp [Event.isStatusUpdate, Event.isPlayerLoad, Event.isBalanceWrite]

/-- C18 (witness). Bob sends `betType` "odd" with `betAmount` -5: both entries are in
the one 400 response and no row changes. -/
theorem play_rule_failures_collected_in_one_response_witness :
    playValidation [("betType", .string "odd"), ("betAmount", .number (-5))] =
      ["betType must be \x27pair\x27 or \x27not pair\x27",
       "betAmount must be greater than 0"] ∧
    ∀ ev ∈ ((playMessage sampleConfig bob 0 TextMessage
        (some [("betType", .string "odd"), ("betAmount", .number (-5))])).run
        { players := [bob] }).trace,
      ev.isStatusUpdate = false ∧ ev.isPlayerLoad = false ∧ ev.isBalanceWrite = false ∧
      ∀ n k, ev ≠ Event.Intn n k :=
  have h : playValidation [("betType", .string "odd"), ("betAmount", .number (-5))] =
      ["betType must be \x27pair\x27 or \x27not pair\x27",
       "betAmount must be greater than 0"] := by
    have h1 : ("odd" : String) ≠ "pair" := by decide
    have h2 : ("odd" : String) ≠ "not pair" := by decide
    have h3 : ("betAmount" : String) ≠ "betType" := by decide
    simp [playValidation, asString, asFloat64, mapGet, h1, h2, h3]
  ⟨h, (play_rule_failures_collected_in_one_response.1 sampleConfig bob 0 TextMessage
    [("betType", .string "odd"), ("betAmount", .number (-5))] { players := [bob] }
    (by rw [h]; simp)).2⟩

/-! ## Maps as association lists -/

/-- Lookup at the key of the first entry. -/
theorem mapGet_cons_eq {κ ν : Type} [DecidableEq κ] (x : κ × ν) (m : List (κ × ν)) {k : κ}
    (h : x.1 = k) : mapGet (x :: m) k = some x.2 := by
  simp [mapGet, List.find?_cons, h]

/-- Lookup at another key than that of the first entry. -/
theorem mapGet_cons_ne {κ ν : Type} [DecidableEq κ] (x : κ × ν) (m : List (κ × ν)) {k : κ}
    (h : x.1 ≠ k) : mapGet (x :: m) k = mapGet m k := by
  simp [mapGet, List.find?_cons, h]

/-- Removal of the key of the first entry. -/
theorem mapDelete_cons_eq {κ ν : Type} [DecidableEq κ] (x : κ × ν) (m : List (κ × ν))
    {k : κ} (h : x.1 = k) : mapDelete (x :: m) k = mapDelete m k := by
  simp [mapDelete, List.filter_cons, h]

/-- Removal of another key than that of the first entry. -/
theorem mapDelete_cons_ne {κ ν : Type} [DecidableEq κ] (x : κ × ν) (m : List (κ × ν))
    {k : κ} (h : x.1 ≠ k) : mapDelete (x :: m) k = x :: mapDelete m k := by
  simp [mapDelete, List.filter_cons, h]

/-- A key that is looked up with success is the key of an entry. -/
theorem mapGet_mem {κ ν : Type} [DecidableEq κ] {m : List (κ × ν)} {k : κ} {v : ν}
    (h : mapGet m k = some v) : (k, v) ∈ m := by
  unfold mapGet at h
  rcases hf : m.find? (fun e => decide (e.1 = k)) with _ | x
  · simp [hf] at h
  · have hk := List.find?_some hf
    have hm := List.mem_of_find?_eq_some hf
    simp [hf] at h
    simp at hk
    rw [← hk, ← h]
    exact hm

/-- A key that is absent is the key of no entry. -/
theorem mapGet_none {κ ν : Type} [DecidableEq κ] {m : List (κ × ν)} {k : κ}
    (h : mapGet m k = none) : ∀ x ∈ m, x.1 ≠ k := by
  unfold mapGet at h
  intro x hx
  simp at h
  exact h x.1 x.2 hx

/-- The entries after `delete(m, k)` are the entries under the other keys. -/
theorem mem_mapDelete {κ ν : Type} [DecidableEq κ] (m : List (κ × ν)) (k : κ) (x : κ × ν) :
    x ∈ mapDelete m k ↔ x ∈ m ∧ x.1 ≠ k := by
  simp [mapDelete]

/-- After `delete(m, k)` the key is absent. -/
theorem mapGet_mapDelete_self {κ ν : Type} [DecidableEq κ] (m : List (κ × ν)) (k : κ) :
    mapGet (mapDelete m k) k = none := by
  simp [mapGet, mapDelete]

/-- The call `delete(m, k)` leaves the other keys as they are. -/
theorem mapGet_mapDelete_ne {κ ν : Type} [DecidableEq κ] (m : List (κ × ν)) {k j : κ}
    (h : j ≠ k) : mapGet (mapDelete m k) j = mapGet m j := by
  induction m with
  | nil => rfl
  | cons x rest ih =>
    by_cases hx : x.1 = k
    · have hj : x.1 ≠ j := fun hxj => h (hxj.symm.trans hx)
      rw [mapDelete_cons_eq x rest hx, mapGet_cons_ne x rest hj, ih]
    · rw [mapDelete_cons_ne x rest hx]
      by_cases hj : x.1 = j
      · rw [mapGet_cons_eq x _ hj, mapGet_cons_eq x _ hj]
      · rw [mapGet_cons_ne x _ hj, mapGet_cons_ne x _ hj, ih]

/-- An entry after `m[k] = v` is the new entry or an entry under another key. -/
theorem mem_mapSet {κ ν : Type} [DecidableEq κ] {m : List (κ × ν)} {k : κ} {v : ν}
    {x : κ × ν} (h : x ∈ mapSet m k v) : (x ∈ m ∧ x.1 ≠ k) ∨ x = (k, v) := by
  unfold mapSet at h
  split_ifs at h with hs
  · obtain ⟨y, hy, rfl⟩ := List.mem_map.1 h
    by_cases hk : y.1 = k
    · right
      simp [hk]
    · left
      simpa [hk] using hy
  · rcases List.mem_append.1 h with h | h
    · left
      refine ⟨h, mapGet_none ?_ x h⟩
      simpa using hs
    · right
      simpa using h

/-- A map is not empty after an assignment. -/
theorem mapSet_ne_nil {κ ν : Type} [DecidableEq κ] (m : List (κ × ν)) (k : κ) (v : ν) :
    mapSet m k v ≠ [] := by
  unfold mapSet
  split_ifs with hs
  · rcases m with _ | ⟨x, rest⟩
    · simp [mapGet] at hs
    · simp
  · simp

/-- After `m[k] = v` the key maps to `v`. -/
theorem mapGet_mapSet_self {κ ν : Type} [DecidableEq κ] (m : List (κ × ν)) (k : κ) (v : ν) :
    mapGet (mapSet m k v) k = some v := by
  unfold mapSet
  split_ifs with hs
  · induction m with
    | nil => simp [mapGet] at hs
    | cons x rest ih =>
      rw [List.map_cons]
      by_cases hx : x.1 = k
      · rw [if_pos hx]
        exact mapGet_cons_eq (k, v) _ rfl
      · rw [if_neg hx, mapGet_cons_ne x _ hx]
        rw [mapGet_cons_ne x _ hx] at hs
        exact ih hs
  · have hn : mapGet m k = none := by simpa using hs
    induction m with
    | nil => exact mapGet_cons_eq (k, v) [] rfl
    | cons x rest ih =>
      have hx : x.1 ≠ k := mapGet_none hn x (List.mem_cons_self _ _)
      rw [List.cons_append, mapGet_cons_ne x _ hx]
      rw [mapGet_cons_ne x _ hx] at hn hs
      exact ih hs hn

/-- The assignment `m[k] = v` leaves the other keys as they are. -/
theorem mapGet_mapSet_ne {κ ν : Type} [DecidableEq κ] (m : List (κ × ν)) {k j : κ} (v : ν)
    (h : j ≠ k) : mapGet (mapSet m k v) j = mapGet m j := by
  have hkj : (k, v).1 ≠ j := fun hkj => h hkj.symm
  unfold mapSet
  split_ifs with hs
  · clear hs
    induction m with
    | nil => rfl
    | cons x rest ih =>
      rw [List.map_cons]
      by_cases hx : x.1 = k
      · have hj : x.1 ≠ j := fun hxj => h (hxj.symm.trans hx)
        rw [if_pos hx, mapGet_cons_ne _ _ hkj, mapGet_cons_ne x _ hj, ih]
      · rw [if_neg hx]
        by_cases hj : x.1 = j
        · rw [mapGet_cons_eq x _ hj, mapGet_cons_eq x _ hj]
        · rw [mapGet_cons_ne x _ hj, mapGet_cons_ne x _ hj, ih]
  · clear hs
    induction m with
    | nil => exact mapGet_cons_ne (k, v) [] hkj
    | cons x rest ih =>
      rw [List.cons_append]
      by_cases hj : x.1 = j
      · rw [mapGet_cons_eq x _ hj, mapGet_cons_eq x _ hj]
      · rw [mapGet_cons_ne x _ hj, mapGet_cons_ne x _ hj, ih]

/-! ## C19: no topic with an empty handler set -/

/-- The method `On` keeps every handler set non-empty. -/
theorem On_no_empty_topic (e : EventEmitter) (event : String) (handler : EventHandler)
    (h : ∀ x ∈ e.listeners, x.2 ≠ []) : ∀ x ∈ (e.On event handler).2.listeners, x.2 ≠ [] := by
  intro x hx
  unfold EventEmitter.On at hx
  simp only at hx
  rcases mem_mapSet hx with ⟨hx1, hne⟩ | rfl
  · split_ifs at hx1 with hs
    · rcases mem_mapSet hx1 with ⟨hx2, -⟩ | rfl
      · exact h x hx2
      · exact absurd rfl hne
    · exact h x hx1
  · exact mapSet_ne_nil _ _ _

/-- The method `Off` keeps every handler set non-empty. -/
theorem Off_no_empty_topic (e : EventEmitter) (event : String) (id : Int)
    (h : ∀ x ∈ e.listeners, x.2 ≠ []) : ∀ x ∈ (e.Off event id).listeners, x.2 ≠ [] := by
  intro x hx
  unfold EventEmitter.Off at hx
  rcases hg : mapGet e.listeners event with _ | handlers
  · rw [hg] at hx
    exact h x hx
  · rw [hg] at hx
    simp only at hx
    split_ifs at hx with hlen
    · exact h x ((mem_mapDelete _ _ _).1 hx).1
    · rcases mem_mapSet hx with ⟨hx1, -⟩ | rfl
      · exact h x hx1
      · intro h0
        exact hlen (List.length_eq_zero.2 h0)

/-- Every registry reached from the empty one keeps every handler set non-empty. -/
theorem calls_no_empty_topic (e : EventEmitter) (cs : List EmitterCall)
    (h : ∀ x ∈ e.listeners, x.2 ≠ []) : ∀ x ∈ (e.calls cs).listeners, x.2 ≠ [] := by
  induction cs generalizing e with
  | nil => exact h
  | cons c rest ih =>
    unfold EventEmitter.calls
    rw [List.foldl_cons]
    refine ih (e.call c) ?_
    cases c with
    | On event handler => exact On_no_empty_topic e event handler h
    | Off event id => exact Off_no_empty_topic e event id h
    | Emit event data => exact h

/-- What `Off` leaves under the topic and under the other topics. -/
theorem Off_topic (e : EventEmitter) (event : String) (id : Int)
    (handlers : List (Int × EventHandler)) (h : mapGet e.listeners event = some handlers) :
    (mapDelete handlers id = [] → mapGet (e.Off event id).listeners event = none) ∧
    (mapDelete handlers id ≠ [] →
      mapGet (e.Off event id).listeners event = some (mapDelete handlers id)) ∧
    (∀ other, other ≠ event →
      mapGet (e.Off event id).listeners other = mapGet e.listeners other) := by
  unfold EventEmitter.Off
  rw [h]
  simp only
  refine ⟨fun h0 => ?_, fun h0 => ?_, fun other ho => ?_⟩
  · rw [if_pos (by rw [h0]; rfl)]
    exact mapGet_mapDelete_self _ _
  · rw [if_neg (fun hl => h0 (List.length_eq_zero.1 hl))]
    exact mapGet_mapSet_self _ _ _
  · split_ifs
    · exact mapGet_mapDelete_ne _ ho
    · exact mapGet_mapSet_ne _ _ ho

/-- C19. In every registry reached from `NewEventEmitter` by a sequence of `On`,
`Off` and `Emit` calls no topic maps to an empty handler set.  For `Off` on a topic
that is present: when no handler is left (every handler of the topic had that id)
the topic entry is gone; when handlers are left the topic maps to exactly the
handlers under the other ids; the other topics are as before. -/
theorem registry_has_no_empty_topic :
    (∀ (cs : List EmitterCall),
      (∀ x ∈ (NewEventEmitter.calls cs).listeners, x.2 ≠ []) ∧
      ∀ event handlers, mapGet (NewEventEmitter.calls cs).listeners event = some handlers →
        handlers ≠ []) ∧
    (∀ (e : EventEmitter) (event : String) (id : Int) (handlers : List (Int × EventHandler)),
      mapGet e.listeners event = some handlers →
      (mapDelete handlers id = [] ↔ ∀ x ∈ handlers, x.1 = id) ∧
      (∀ x, x ∈ mapDelete handlers id ↔ x ∈ handlers ∧ x.1 ≠ id) ∧
      (mapDelete handlers id = [] → mapGet (e.Off event id).listeners event = none) ∧
      (mapDelete handlers id ≠ [] →
        mapGet (e.Off event id).listeners event = some (mapDelete handlers id)) ∧
      (∀ other, other ≠ event →
        mapGet (e.Off event id).listeners other = mapGet e.listeners other)) := by
  refine ⟨fun cs => ?_, fun e event id handlers h => ?_⟩
  · have hall := calls_no_empty_topic NewEventEmitter cs (by simp [NewEventEmitter])
    exact ⟨hall, fun event handlers hg => hall (event, handlers) (mapGet_mem hg)⟩
  · obtain ⟨h1, h2, h3⟩ := Off_topic e event id handlers h
    refine ⟨?_, mem_mapDelete handlers id, h1, h2, h3⟩
    simp [mapDelete, List.filter_eq_nil_iff]

/-- C19 (witness). Two sessions subscribe to the topic of player 2; the first `Off`
leaves the other handler, the second removes the topic. -/
theorem registry_has_no_empty_topic_witness :
    mapGet ((NewEventEmitter.calls
        [.On "BalanceUpdate_2" 7, .On "BalanceUpdate_2" 8]).Off "BalanceUpdate_2" 0).listeners
      "BalanceUpdate_2" = some [(1, 8)] ∧
    mapGet (((NewEventEmitter.calls
        [.On "BalanceUpdate_2" 7, .On "BalanceUpdate_2" 8]).Off "BalanceUpdate_2" 0).Off
          "BalanceUpdate_2" 1).listeners
      "BalanceUpdate_2" = none :=
  ⟨(registry_has_no_empty_topic.2
      (NewEventEmitter.calls [.On "BalanceUpdate_2" 7, .On "BalanceUpdate_2" 8])
      "BalanceUpdate_2" 0 [(0, 7), (1, 8)] (by decide)).2.2.2.1 (by decide),
   (registry_has_no_empty_topic.2
      ((NewEventEmitter.calls [.On "BalanceUpdate_2" 7, .On "BalanceUpdate_2" 8]).Off
        "BalanceUpdate_2" 0)
      "BalanceUpdate_2" 1 [(1, 8)] (by decide)).2.2.1 (by decide)⟩

/-! ## C20: the ids `On` returns -/

/-- The ids returned from a registry whose counter stands at `nextID` count up from
there, one per `On` call; `Off` and `Emit` leave the counter alone. -/
theorem returnedIDs_from (e : EventEmitter) (cs : List EmitterCall) :
    e.returnedIDs cs =
      (List.range (cs.filter EmitterCall.isOn).length).map (fun k : Nat => e.nextID + k) := by
  induction cs generalizing e with
  | nil => rfl
  | cons c rest ih =>
    cases c with
    | On event handler =>
      have hn : (e.On event handler).2.nextID = e.nextID + 1 := rfl
      have hid : (e.On event handler).1 = e.nextID := rfl
      simp only [EventEmitter.returnedIDs, ih, hn, hid, EmitterCall.isOn, List.filter_cons_of_pos,
        List.length_cons, List.range_succ_eq_map, List.map_cons, List.map_map]
      refine congrArg₂ _ (by simp) (List.map_congr_left fun k _ => ?_)
      simp only [Function.comp, Nat.cast_succ]
      ring
    | Off event id =>
      have hn : (e.Off event id).nextID = e.nextID := by
        unfold EventEmitter.Off
        rcases mapGet e.listeners event with _ | handlers
        · rfl
        · simp only
          split_ifs <;> rfl
      simp [EventEmitter.returnedIDs, ih, hn, EmitterCall.isOn]
    | Emit event data =>
      simp [EventEmitter.returnedIDs, ih, EmitterCall.isOn]

/-- C20. On one `EventEmitter`, in every sequence of `On`, `Off` and `Emit` calls the
`On` call number k (from 0, over all topics) returns k: the returned ids are
0, 1, ..., n-1 for n `On` calls, so they increase strictly and are pairwise
distinct, whatever `Off` calls lie between them.  (The counter is taken as an
unbounded integer: a Go `int` reaches its bound after 2^63 subscriptions.) -/
theorem handler_ids_count_up :
    (∀ cs : List EmitterCall,
      NewEventEmitter.returnedIDs cs =
        (List.range (cs.filter EmitterCall.isOn).length).map (fun k : Nat => (k : Int))) ∧
    (∀ (cs : List EmitterCall) (k : Nat),
      (NewEventEmitter.returnedIDs cs)[k]? =
        if k < (cs.filter EmitterCall.isOn).length then some (k : Int) else none) ∧
    (∀ cs : List EmitterCall,
      (NewEventEmitter.returnedIDs cs).Pairwise (fun a b => a < b)) ∧
    (∀ cs : List EmitterCall, (NewEventEmitter.returnedIDs cs).Nodup) ∧
    (∀ (e : EventEmitter) (cs : List EmitterCall),
      e.returnedIDs cs =
        (List.range (cs.filter EmitterCall.isOn).length).map
          (fun k : Nat => e.nextID + k)) ∧
    NewEventEmitter.returnedIDs
      [.On "BalanceUpdate_2" 7, .Off "BalanceUpdate_2" 0,
       .Emit "BalanceUpdate_2" { BetBalance := 30, Wallet := 300 },
       .On "BalanceUpdate_2" 8, .On "BalanceUpdate_3" 9] = [0, 1, 2] := by
  have h0 : ∀ cs : List EmitterCall,
      NewEventEmitter.returnedIDs cs =
        (List.range (cs.filter EmitterCall.isOn).length).map (fun k : Nat => (k : Int)) := by
    intro cs
    rw [returnedIDs_from]
    simp [NewEventEmitter]
  have hp : ∀ cs : List EmitterCall,
      (NewEventEmitter.returnedIDs cs).Pairwise (fun a b => a < b) := by
    intro cs
    rw [h0, List.pairwise_map]
    exact (List.pairwise_lt_range _).imp (fun h => by exact_mod_cast h)
  refine ⟨h0, fun cs k => ?_, hp, fun cs => ?_, returnedIDs_from, ?_⟩
  · rw [h0]
    by_cases hk : k < (cs.filter EmitterCall.isOn).length
    · simp [hk, List.getElem?_range]
    · simp [hk, List.getElem?_eq_none, not_lt.1 hk]
  · exact (hp cs).imp (fun h => ne_of_lt h)
  · rw [h0]
    rfl

/-! ## C21: unsubscribing twice, or from nothing -/

/-- Removing a key twice is removing it once. -/
theorem mapDelete_mapDelete {κ ν : Type} [DecidableEq κ] (m : List (κ × ν)) (k : κ) :
    mapDelete (mapDelete m k) k = mapDelete m k := by
  simp [mapDelete, List.filter_filter]

/-- Removing a key that is absent changes nothing. -/
theorem mapDelete_of_none {κ ν : Type} [DecidableEq κ] {m : List (κ × ν)} {k : κ}
    (h : mapGet m k = none) : mapDelete m k = m := by
  unfold mapDelete
  rw [List.filter_eq_self]
  intro x hx
  simpa using mapGet_none h x hx

/-- The keys after an assignment: the same keys, or the new key at the end. -/
theorem mapSet_keys {κ ν : Type} [DecidableEq κ] (m : List (κ × ν)) (k : κ) (v : ν) :
    (mapSet m k v).map Prod.fst =
      if (mapGet m k).isSome then m.map Prod.fst else m.map Prod.fst ++ [k] := by
  unfold mapSet
  split_ifs with hs
  · rw [List.map_map]
    refine List.map_congr_left fun x _ => ?_
    by_cases hx : x.1 = k <;> simp [hx]
  · simp

/-- An assignment keeps the keys distinct. -/
theorem mapSet_keys_nodup {κ ν : Type} [DecidableEq κ] {m : List (κ × ν)} (k : κ) (v : ν)
    (h : (m.map Prod.fst).Nodup) : ((mapSet m k v).map Prod.fst).Nodup := by
  rw [mapSet_keys]
  split_ifs with hs
  · exact h
  · have hn : mapGet m k = none := by simpa using hs
    refine List.Nodup.append h (List.nodup_singleton k) ?_
    intro a ha hk
    obtain ⟨x, hx, rfl⟩ := List.mem_map.1 ha
    exact mapGet_none hn x hx (by simpa using hk)

/-- A removal keeps the keys distinct. -/
theorem mapDelete_keys_nodup {κ ν : Type} [DecidableEq κ] {m : List (κ × ν)} (k : κ)
    (h : (m.map Prod.fst).Nodup) : ((mapDelete m k).map Prod.fst).Nodup :=
  h.sublist ((List.filter_sublist m).map Prod.fst)

/-- A list is unchanged by a map that fixes each of its elements. -/
theorem map_eq_self_of_fixed {τ : Type} (f : τ → τ) (l : List τ) (h : ∀ x ∈ l, f x = x) :
    l.map f = l :=
  (List.map_congr_left h).trans (List.map_id l)

/-- An assignment to a key that is present replaces the value in place. -/
theorem mapSet_of_some {κ ν : Type} [DecidableEq κ] {m : List (κ × ν)} {k : κ} (v : ν)
    (h : (mapGet m k).isSome = true) :
    mapSet m k v = m.map (fun e => if e.1 = k then (k, v) else e) := by
  unfold mapSet
  rw [if_pos h]

/-- Assigning to a key the value it already has changes nothing, in a map with
distinct keys. -/
theorem mapSet_same {κ ν : Type} [DecidableEq κ] {m : List (κ × ν)} {k : κ} {v : ν}
    (hk : (m.map Prod.fst).Nodup) (h : mapGet m k = some v) : mapSet m k v = m := by
  rw [mapSet_of_some v (by rw [h]; rfl)]
  induction m with
  | nil => rfl
  | cons x rest ih =>
    rw [List.map_cons, List.nodup_cons] at hk
    rw [List.map_cons]
    by_cases hx : x.1 = k
    · rw [mapGet_cons_eq x rest hx] at h
      have hxv : (k, v) = x := by
        rw [← hx, ← Option.some.inj h]
      rw [if_pos hx, hxv]
      congr 1
      refine map_eq_self_of_fixed _ _ fun y hy => ?_
      have : y.1 ≠ k := fun hyk => hk.1 (List.mem_map.2 ⟨y, hy, hyk.trans hx.symm⟩)
      rw [if_neg this]
    · rw [mapGet_cons_ne x rest hx] at h
      rw [if_neg hx, ih hk.2 h]

/-- Assigning the same value to a key twice is assigning it once. -/
theorem mapSet_mapSet {κ ν : Type} [DecidableEq κ] (m : List (κ × ν)) (k : κ) (v : ν) :
    mapSet (mapSet m k v) k v = mapSet m k v := by
  have hs : (mapGet (mapSet m k v) k).isSome = true := by
    rw [mapGet_mapSet_self]
    rfl
  rw [mapSet_of_some v hs]
  refine map_eq_self_of_fixed _ _ fun x hx => ?_
  rcases mem_mapSet hx with ⟨-, hne⟩ | rfl
  · rw [if_neg hne]
  · rw [if_pos rfl]

/-- The method `Off` applied twice is `Off` applied once. -/
theorem Off_Off (e : EventEmitter) (event : String) (id : Int) :
    (e.Off event id).Off event id = e.Off event id := by
  rcases hg : mapGet e.listeners event with _ | handlers
  · have h1 : e.Off event id = e := by
      unfold EventEmitter.Off
      rw [hg]
    rw [h1, h1]
  · by_cases hlen : (mapDelete handlers id).length = 0
    · have h1 : e.Off event id = { e with listeners := mapDelete e.listeners event } := by
        unfold EventEmitter.Off
        rw [hg]
        simp only [hlen, if_true]
      rw [h1]
      unfold EventEmitter.Off
      simp only [mapGet_mapDelete_self]
    · have h1 : e.Off event id =
          { e with listeners := mapSet e.listeners event (mapDelete handlers id) } := by
        unfold EventEmitter.Off
        rw [hg]
        simp only [hlen, if_false]
      rw [h1]
      unfold EventEmitter.Off
      simp only [mapGet_mapSet_self, mapDelete_mapDelete, hlen, if_false, mapSet_mapSet]

/-- The method `Off` leaves the counter as it is. -/
theorem Off_nextID (e : EventEmitter) (event : String) (id : Int) :
    (e.Off event id).nextID = e.nextID := by
  unfold EventEmitter.Off
  rcases mapGet e.listeners event with _ | handlers
  · rfl
  · simp only
    split_ifs <;> rfl

/-- The method `Off` on a topic that has no entry changes nothing. -/
theorem Off_absent_topic (e : EventEmitter) (event : String) (id : Int)
    (h : mapGet e.listeners event = none) : e.Off event id = e := by
  unfold EventEmitter.Off
  rw [h]

/-- The method `Off` with an id that is not registered under the topic changes
nothing, in a registry with distinct topics whose handler sets are not empty. -/
theorem Off_absent_id (e : EventEmitter) (event : String) (id : Int)
    (handlers : List (Int × EventHandler))
    (hk : (e.listeners.map Prod.fst).Nodup) (hne : ∀ x ∈ e.listeners, x.2 ≠ [])
    (h : mapGet e.listeners event = some handlers) (hid : mapGet handlers id = none) :
    e.Off event id = e := by
  have hlen : ¬ handlers.length = 0 := fun h0 =>
    hne (event, handlers) (mapGet_mem h) (List.length_eq_zero.1 h0)
  unfold EventEmitter.Off
  rw [h]
  simp only [mapDelete_of_none hid, hlen, if_false, mapSet_same hk h]

/-- The method `On` keeps the topics distinct. -/
theorem On_topics_nodup (e : EventEmitter) (event : String) (handler : EventHandler)
    (h : (e.listeners.map Prod.fst).Nodup) :
    ((e.On event handler).2.listeners.map Prod.fst).Nodup := by
  unfold EventEmitter.On
  simp only
  refine mapSet_keys_nodup _ _ ?_
  split_ifs
  · exact mapSet_keys_nodup _ _ h
  · exact h

/-- The method `Off` keeps the topics distinct. -/
theorem Off_topics_nodup (e : EventEmitter) (event : String) (id : Int)
    (h : (e.listeners.map Prod.fst).Nodup) : ((e.Off event id).listeners.map Prod.fst).Nodup := by
  unfold EventEmitter.Off
  rcases mapGet e.listeners event with _ | handlers
  · exact h
  · simp only
    split_ifs
    · exact mapDelete_keys_nodup _ h
    · exact mapSet_keys_nodup _ _ h

/-- Every registry reached by calls keeps its topics distinct. -/
theorem calls_topics_nodup (e : EventEmitter) (cs : List EmitterCall)
    (h : (e.listeners.map Prod.fst).Nodup) : ((e.calls cs).listeners.map Prod.fst).Nodup := by
  induction cs generalizing e with
  | nil => exact h
  | cons c rest ih =>
    unfold EventEmitter.calls
    rw [List.foldl_cons]
    refine ih (e.call c) ?_
    cases c with
    | On event handler => exact On_topics_nodup e event handler h
    | Off event id => exact Off_topics_nodup e event id h
    | Emit event data => exact h

/-- C21. Unsubscription is idempotent and total.  `Off` is a total function on
registries (it has no error result and no panic), and for every registry, topic and
id, `Off` applied twice gives the registry `Off` applied once gives.  On a topic
with no entry `Off` returns the registry as it is, and so it does for an id that is
not registered under the topic, in every registry reached from `NewEventEmitter`
by `On`, `Off` and `Emit` calls (more generally: with distinct topics and no empty
handler set); listeners and `nextID` are then both unchanged, and `nextID` is
unchanged by every `Off`. -/
theorem Off_idempotent_and_total :
    (∀ (e : EventEmitter) (event : String) (id : Int),
      (e.Off event id).Off event id = e.Off event id) ∧
    (∀ (e : EventEmitter) (event : String) (id : Int),
      mapGet e.listeners event = none → e.Off event id = e) ∧
    (∀ (e : EventEmitter) (event : String) (id : Int) (handlers : List (Int × EventHandler)),
      (e.listeners.map Prod.fst).Nodup → (∀ x ∈ e.listeners, x.2 ≠ []) →
      mapGet e.listeners event = some handlers → mapGet handlers id = none →
      e.Off event id = e) ∧
    (∀ (cs : List EmitterCall) (event : String) (id : Int),
      (mapGet (NewEventEmitter.calls cs).listeners event = none ∨
        ∃ handlers, mapGet (NewEventEmitter.calls cs).listeners event = some handlers ∧
          mapGet handlers id = none) →
      ((NewEventEmitter.calls cs).Off event id).listeners
          = (NewEventEmitter.calls cs).listeners ∧
        ((NewEventEmitter.calls cs).Off event id).nextID = (NewEventEmitter.calls cs).nextID) ∧
    (∀ (e : EventEmitter) (event : String) (id : Int), (e.Off event id).nextID = e.nextID) := by
  refine ⟨Off_Off, Off_absent_topic, Off_absent_id, fun cs event id h => ?_, Off_nextID⟩
  have hoff : (NewEventEmitter.calls cs).Off event id = NewEventEmitter.calls cs := by
    rcases h with h | ⟨handlers, h, hid⟩
    · exact Off_absent_topic _ _ _ h
    · exact Off_absent_id _ _ _ handlers
        (calls_topics_nodup NewEventEmitter cs (by simp [NewEventEmitter]))
        (calls_no_empty_topic NewEventEmitter cs (by simp [NewEventEmitter])) h hid
  rw [hoff]
  exact ⟨rfl, rfl⟩

/-- C21 (witness). A registry with handlers 0 and 1 under the topic of player 2:
`Off` on the topic of player 3, which has no entry, and `Off` of id 5, which is not
registered, both return the registry as it is. -/
theorem Off_idempotent_and_total_witness :
    (NewEventEmitter.calls [.On "BalanceUpdate_2" 7, .On "BalanceUpdate_2" 8]).Off
        "BalanceUpdate_3" 0 =
      NewEventEmitter.calls [.On "BalanceUpdate_2" 7, .On "BalanceUpdate_2" 8] ∧
    (NewEventEmitter.calls [.On "BalanceUpdate_2" 7, .On "BalanceUpdate_2" 8]).Off
        "BalanceUpdate_2" 5 =
      NewEventEmitter.calls [.On "BalanceUpdate_2" 7, .On "BalanceUpdate_2" 8] ∧
    ((NewEventEmitter.calls [.On "BalanceUpdate_2" 7, .On "BalanceUpdate_2" 8]).Off
        "BalanceUpdate_2" 5).listeners =
      (NewEventEmitter.calls [.On "BalanceUpdate_2" 7, .On "BalanceUpdate_2" 8]).listeners :=
  ⟨Off_idempotent_and_total.2.1 _ "BalanceUpdate_3" 0 (by decide),
   Off_idempotent_and_total.2.2.1 _ "BalanceUpdate_2" 5 [(0, 7), (1, 8)] (by decide)
     (by decide) (by decide) (by decide),
   (Off_idempotent_and_total.2.2.2.1 [.On "BalanceUpdate_2" 7, .On "BalanceUpdate_2" 8]
     "BalanceUpdate_2" 5 (Or.inr ⟨[(0, 7), (1, 8)], by decide, by decide⟩)).1⟩

/-! ## C22: what `Emit` dispatches -/

/-- Subscribing under one topic leaves the handler set of every other topic as it
is. -/
theorem On_other_topic (e : EventEmitter) (event other : String) (handler : EventHandler)
    (h : other ≠ event) :
    mapGet (e.On event handler).2.listeners other = mapGet e.listeners other := by
  unfold EventEmitter.On
  simp only
  rw [mapGet_mapSet_ne _ _ h]
  split_ifs
  · exact mapGet_mapSet_ne _ _ h
  · rfl

/-- C22. `Emit(t, d)` starts one `handler(d)` per handler registered under `t`: with
`handlers` the handler set of `t`, the dispatches are the handlers of that set, each
with the data `d`, as many as there are registrations and each handler as often as
it is registered (once per id).  Every dispatch goes to a handler registered under
`t`, so what is registered under other topics gets nothing, and registrations and
removals under other topics do not change the dispatches.  With no entry for `t`
nothing is dispatched; `Emit` has no error result.  The registry is only read: the
call leaves it as it is, also inside `UpdatePlayerBalance`. -/
theorem Emit_dispatches_to_topic_handlers :
    (∀ (e : EventEmitter) (event : String) (data : EventWalletData)
        (handlers : List (Int × EventHandler)),
      mapGet e.listeners event = some handlers →
      e.Emit event data = handlers.map (fun h => (h.2, data)) ∧
      (e.Emit event data).length = handlers.length ∧
      (∀ h : EventHandler,
        ((e.Emit event data).filter (fun x => decide (x.1 = h))).length =
          (handlers.filter (fun x => decide (x.2 = h))).length) ∧
      (∀ i h, (i, h) ∈ handlers → (h, data) ∈ e.Emit event data)) ∧
    (∀ (e : EventEmitter) (event : String) (data : EventWalletData),
      ∀ x ∈ e.Emit event data, x.2 = data ∧
        ∃ handlers i, mapGet e.listeners event = some handlers ∧ (i, x.1) ∈ handlers) ∧
    (∀ (e : EventEmitter) (event : String) (data : EventWalletData),
      mapGet e.listeners event = none → e.Emit event data = []) ∧
    (∀ (e : EventEmitter) (event other : String) (data : EventWalletData)
        (handler : EventHandler) (id : Int), other ≠ event →
      (e.On other handler).2.Emit event data = e.Emit event data ∧
      (e.Off other id).Emit event data = e.Emit event data) ∧
    (∀ (e : EventEmitter) (event : String) (data : EventWalletData),
      e.call (.Emit event data) = e) ∧
    (∀ (id : Int) (x y : ℚ) (w : World),
      (models.UpdatePlayerBalance id x y w).2.1.emitter = w.emitter) := by
  refine ⟨fun e event data handlers h => ?_, fun e event data x hx => ?_,
    fun e event data h => ?_, fun e event other data handler id h => ?_,
    fun e event data => rfl, fun id x y w => ?_⟩
  · have hE : e.Emit event data = handlers.map (fun h => (h.2, data)) := by
      unfold EventEmitter.Emit
      rw [h]
    refine ⟨hE, by rw [hE, List.length_map], fun g => ?_, fun i g hg => ?_⟩
    · rw [hE, List.filter_map, List.length_map]
      rfl
    · rw [hE]
      exact List.mem_map.2 ⟨(i, g), hg, rfl⟩
  · unfold EventEmitter.Emit at hx
    rcases hg : mapGet e.listeners event with _ | handlers
    · rw [hg] at hx
      simp at hx
    · rw [hg] at hx
      obtain ⟨y, hy, rfl⟩ := List.mem_map.1 hx
      exact ⟨rfl, handlers, y.1, rfl, hy⟩
  · unfold EventEmitter.Emit
    rw [h]
  · have h2 : event ≠ other := fun h2 => h h2.symm
    constructor
    · unfold EventEmitter.Emit
      rw [On_other_topic e other event handler h2]
    · have := mapGet_mapDelete_ne e.listeners h2
      unfold EventEmitter.Emit
      have hoff : mapGet (e.Off other id).listeners event = mapGet e.listeners event := by
        unfold EventEmitter.Off
        rcases mapGet e.listeners other with _ | handlers
        · rfl
        · simp only
          split_ifs
          · exact mapGet_mapDelete_ne _ h2
          · exact mapGet_mapSet_ne _ _ h2
      rw [hoff]
  · rcases UpdatePlayerBalance_cases id x y w with ⟨w1, -, he, e, h1⟩ | ⟨w1, -, he, h1⟩
    · rw [h1]
      exact he
    · rw [h1]
      exact he

/-- C22 (witness). Sessions 7 and 8 listen on the topic of player 2 and session 9 on
the topic of player 3: a balance of player 2 goes to 7 and 8, once each, and to
nobody else. -/
theorem Emit_dispatches_to_topic_handlers_witness :
    (NewEventEmitter.calls
        [.On "BalanceUpdate_2" 7, .On "BalanceUpdate_3" 9, .On "BalanceUpdate_2" 8]).Emit
        "BalanceUpdate_2" { BetBalance := 30, Wallet := 300 } =
      [(0, (7 : EventHandler)), (2, 8)].map
        (fun h => (h.2, ({ BetBalance := 30, Wallet := 300 } : EventWalletData))) ∧
    (NewEventEmitter.calls
        [.On "BalanceUpdate_2" 7, .On "BalanceUpdate_3" 9, .On "BalanceUpdate_2" 8]).Emit
        "BalanceUpdate_4" { BetBalance := 30, Wallet := 300 } = [] :=
  ⟨(Emit_dispatches_to_topic_handlers.1 _ "BalanceUpdate_2" { BetBalance := 30, Wallet := 300 }
      [(0, 7), (2, 8)] (by decide)).1,
   Emit_dispatches_to_topic_handlers.2.2.1 _ "BalanceUpdate_4"
      { BetBalance := 30, Wallet := 300 } (by decide)⟩

/-! ## Decimal topics -/

/-- The digit character of a number below 10 denotes that number. -/
theorem digitChar_value (d : Nat) (h : d < 10) : (Nat.digitChar d).toNat - 48 = d := by
  interval_cases d <;> rfl

/-- The digits are put in front of the accumulator. -/
theorem toDigitsCore_append (fuel n : Nat) (ds : List Char) :
    Nat.toDigitsCore 10 fuel n ds = Nat.toDigitsCore 10 fuel n [] ++ ds := by
  induction fuel generalizing n ds with
  | zero => rfl
  | succ f ih =>
    simp only [Nat.toDigitsCore]
    split_ifs
    · rfl
    · rw [ih (n / 10) (Nat.digitChar (n % 10) :: ds), ih (n / 10) [Nat.digitChar (n % 10)]]
      simp

/-- The value of a list with one more digit at the end. -/
theorem decimalValue_append (cs : List Char) (c : Char) :
    decimalValue (cs ++ [c]) = 10 * decimalValue cs + (c.toNat - 48) := by
  simp [decimalValue, List.foldl_append]

/-- The digits printed for a number denote it. -/
theorem decimalValue_toDigitsCore (fuel n : Nat) (h : n < fuel) :
    decimalValue (Nat.toDigitsCore 10 fuel n []) = n := by
  induction fuel generalizing n with
  | zero => exact absurd h (Nat.not_lt_zero n)
  | succ f ih =>
    simp only [Nat.toDigitsCore]
    split_ifs with h0
    · have hn : n < 10 := by
        by_contra hge
        have : 1 ≤ n / 10 := (Nat.one_le_div_iff (by decide)).2 (not_lt.1 hge)
        omega
      simp [decimalValue, Nat.mod_eq_of_lt hn, digitChar_value n hn]
    · have hlt : n / 10 < f := by omega
      rw [toDigitsCore_append, decimalValue_append, ih (n / 10) hlt,
        digitChar_value (n % 10) (Nat.mod_lt n (by decide))]
      omega

/-- The text of a natural number denotes it. -/
theorem decimalValue_repr (n : Nat) : decimalValue (Nat.repr n).data = n := by
  simp only [Nat.repr, Nat.toDigits, List.asString]
  exact decimalValue_toDigitsCore (n + 1) n (Nat.lt_succ_self n)

/-- A minus sign in front does not change the value. -/
theorem decimalValue_minus (s : String) :
    decimalValue ("-" ++ s).data = decimalValue s.data := by
  have : ("-" ++ s).data = '-' :: s.data := by
    rw [String.data_append]
    rfl
  rw [this]
  simp only [decimalValue, List.foldl_cons]
  rfl

/-- The text of an integer determines the integer. -/
theorem toString_int_injective (a b : Int) (h : toString a = toString b) : a = b := by
  have hof : ∀ m : Nat, toString (Int.ofNat m) = Nat.repr m := fun _ => rfl
  have hneg : ∀ m : Nat, toString (Int.negSucc m) = "-" ++ Nat.repr (m + 1) := fun _ => rfl
  have hmix : ∀ m k : Nat, Nat.repr m ≠ "-" ++ Nat.repr (k + 1) := by
    intro m k hmk
    have hv := congrArg (fun s : String => decimalValue s.data) hmk
    simp only [decimalValue_minus, decimalValue_repr] at hv
    rw [hv] at hmk
    have hl := congrArg String.length hmk
    rw [String.length_append] at hl
    have : ("-" : String).length = 1 := rfl
    omega
  cases a with
  | ofNat m =>
    cases b with
    | ofNat k =>
      rw [hof, hof] at h
      have hv := congrArg (fun s : String => decimalValue s.data) h
      simp only [decimalValue_repr] at hv
      rw [hv]
    | negSucc k =>
      rw [hof, hneg] at h
      exact absurd h (hmix m k)
  | negSucc m =>
    cases b with
    | ofNat k =>
      rw [hof, hneg] at h
      exact absurd h.symm (hmix k m)
    | negSucc k =>
      rw [hneg, hneg] at h
      have hv := congrArg (fun s : String => decimalValue s.data) h
      simp only [decimalValue_minus, decimalValue_repr] at hv
      have : m = k := by omega
      rw [this]

/-- The topic of a player determines the player: `BalanceUpdate_%d` is injective in
the id. -/
theorem balanceUpdateEvent_injective (a b : Int)
    (h : models.balanceUpdateEvent a = models.balanceUpdateEvent b) : a = b := by
  unfold models.balanceUpdateEvent at h
  refine toString_int_injective a b ?_
  have hd := congrArg String.data h
  rw [String.data_append, String.data_append] at hd
  exact String.ext (List.append_cancel_left hd)

/-! ## C23: the topic of a player, for publisher and subscriber -/

/-- A handler gets the events of the topic it was just subscribed to. -/
theorem On_then_Emit (e : EventEmitter) (event : String) (handler : EventHandler)
    (data : EventWalletData) : (handler, data) ∈ (e.On event handler).2.Emit event data := by
  have hg : mapGet (e.On event handler).2.listeners event =
      some (mapSet ((mapGet (if (mapGet e.listeners event).isNone then
        mapSet e.listeners event [] else e.listeners) event).getD []) e.nextID handler) := by
    unfold EventEmitter.On
    simp only
    exact mapGet_mapSet_self _ _ _
  unfold EventEmitter.Emit
  rw [hg]
  exact List.mem_map.2 ⟨(e.nextID, handler), mapGet_mem (mapGet_mapSet_self _ _ _), rfl⟩

/-- A subscription under one topic does not change what another topic
dispatches. -/
theorem On_other_topic_Emit (e : EventEmitter) (event other : String)
    (handler : EventHandler) (data : EventWalletData) (h : other ≠ event) :
    (e.On event handler).2.Emit other data = e.Emit other data := by
  have hg : mapGet (e.On event handler).2.listeners other = mapGet e.listeners other := by
    unfold EventEmitter.On
    simp only
    rw [mapGet_mapSet_ne _ _ h]
    split_ifs
    · exact mapGet_mapSet_ne _ _ h
    · rfl
  unfold EventEmitter.Emit
  rw [hg]

/-- The write of a wallet response changes no row and no registration. -/
theorem WriteWallet_cases (response : WalletResponse) (w : World) :
    ∃ (w1 : World) (err : Option String), w1.players = w.players ∧ w1.emitter = w.emitter ∧
      w1.dbFaults = w.dbFaults ∧
      w.WriteWallet response = (err, w1, [Event.WriteWallet response err]) := by
  unfold World.WriteWallet
  rcases hf : w.writeFaults with _ | ⟨f, rest⟩
  · exact ⟨w, none, rfl, rfl, rfl, rfl⟩
  · exact ⟨{ w with writeFaults := rest }, f, rfl, rfl, rfl, rfl⟩

/-- Every subscription `HandleWalletWS` makes is of its own session, under the topic
of the authenticated player. -/
theorem HandleWalletWS_topic (cfg : Config) (upgraded : Bool) (token : Except String Int)
    (session : EventHandler) (w : World) (ev : String) (h : EventHandler) (i : Int)
    (hmem : Event.On ev h i ∈ ((HandleWalletWS cfg upgraded token session).run w).trace) :
    h = session ∧ ∃ p : Player,
      Event.GetPlayerByID p.ID (some p) none ∈
        ((HandleWalletWS cfg upgraded token session).run w).trace ∧
      ev = "BalanceUpdate_" ++ toString p.ID := by
  revert hmem
  unfold HandleWalletWS
  cases upgraded
  · simp
  simp only [Bool.not_true, Bool.false_eq_true, if_false]
  rcases token with e | id
  · simp [AuthenticateUser, Prog.bind, Prog.run, World.WriteMessage, Outcome.after]
    rcases w.writeFaults with _ | ⟨f, rest⟩ <;> simp
  simp only [AuthenticateUser, Prog.bind, Prog.run_GetPlayerByID]
  obtain ⟨w1, -, -, ⟨e, h1⟩ | ⟨p, hp, h1⟩⟩ := GetPlayerByID_cases id w
  · simp only [h1]
    simp [Prog.bind, Prog.run, World.WriteMessage, Outcome.after]
    rcases w1.writeFaults with _ | ⟨f, rest⟩ <;> simp
  · have hid : p.ID = id := selectRow_id hp
    simp only [h1, Prog.bind, Prog.run]
    obtain ⟨w2, err, -, -, -, h2⟩ := WriteWallet_cases
      { message := "Wallet and bet balance retrieved with success!", status := "success",
        wallet := p.Wallet, betBalance := p.BetBalance } w1
    simp only [h2]
    rcases err with _ | f
    · simp only [ne_eq, not_true_eq_false, if_false, Prog.run, World.On, World.Off,
        Outcome.after]
      intro hmem
      simp at hmem
      exact ⟨hmem.2.1, p, by simp [hid], hmem.1⟩
    · simp [Prog.run, Outcome.after]

/-- An authenticated wallet session whose welcome message is written is, after its
first three operations, asleep with its handler registered under the topic of the
player; no row has changed. -/
theorem HandleWalletWS_listening (cfg : Config) (id : Int) (p : Player)
    (session : EventHandler) (w : World) (hp : selectRow w.players id = some p)
    (hf : w.dbFaults = []) (hw : w.writeFaults = []) :
    ((HandleWalletWS cfg true (.ok id) session).steps 3 w).1.isSleeping = true ∧
    ((HandleWalletWS cfg true (.ok id) session).steps 3 w).2.1.emitter =
      (w.emitter.On (models.balanceUpdateEvent id) session).2 ∧
    ((HandleWalletWS cfg true (.ok id) session).steps 3 w).2.1.players = w.players ∧
    ((HandleWalletWS cfg true (.ok id) session).steps 3 w).2.1.dbFaults = [] ∧
    ((HandleWalletWS cfg true (.ok id) session).steps 3 w).2.2 =
      [Event.GetPlayerByID id (some p) none,
       Event.WriteWallet
         { message := "Wallet and bet balance retrieved with success!", status := "success",
           wallet := p.Wallet, betBalance := p.BetBalance } none,
       Event.On (models.balanceUpdateEvent id) session w.emitter.nextID] := by
  have hg : models.GetPlayerByID id w = (.ok p, w, [Event.GetPlayerByID id (some p) none]) := by
    simp [models.GetPlayerByID, World.nextFault, hf, hp]
  have hid : p.ID = id := selectRow_id hp
  have hid2 : (w.emitter.On (models.balanceUpdateEvent id) session).1 = w.emitter.nextID := rfl
  simp [Prog.steps, HandleWalletWS, AuthenticateUser, Prog.bind, Prog.step, hg,
    World.WriteWallet, hw, World.On, Prog.isSleeping, hid, models.balanceUpdateEvent, hf]
  exact hid2

/-- C23. Publisher and subscriber use the same topic for a player, and topics of
different players differ.  Every subscription a run of `HandleWalletWS` makes is of
its own session and under "BalanceUpdate_" followed by the decimal id of the
authenticated player, which is the topic `UpdatePlayerBalance` emits on for that id
(`models.balanceUpdateEvent`); this topic function is injective in the id.  So for a
session of player `id` that is listening (authenticated, welcome written, asleep):
every successful commit for `id` dispatches its balance to the session, and a
commit for another player `b` dispatches exactly what it would without that
session, never to the session unless it was registered under the topic of `b`
already. -/
theorem wallet_topic_is_commit_topic :
    (∀ (cfg : Config) (upgraded : Bool) (token : Except String Int) (session : EventHandler)
        (w : World) (ev : String) (h : EventHandler) (i : Int),
      Event.On ev h i ∈ ((HandleWalletWS cfg upgraded token session).run w).trace →
      h = session ∧ ∃ p : Player,
        Event.GetPlayerByID p.ID (some p) none ∈
          ((HandleWalletWS cfg upgraded token session).run w).trace ∧
        ev = "BalanceUpdate_" ++ toString p.ID ∧ ev = models.balanceUpdateEvent p.ID) ∧
    (∀ (id : Int) (x y : ℚ) (w : World) (ev : String) (d : EventWalletData)
        (started : List (EventHandler × EventWalletData)),
      Event.Emit ev d started ∈ (models.UpdatePlayerBalance id x y w).2.2 →
      ev = "BalanceUpdate_" ++ toString id ∧ ev = models.balanceUpdateEvent id ∧
        started = w.emitter.Emit ev d) ∧
    (∀ a b : Int, models.balanceUpdateEvent a = models.balanceUpdateEvent b ↔ a = b) ∧
    (∀ (cfg : Config) (id : Int) (p : Player) (session : EventHandler) (w : World),
      selectRow w.players id = some p → w.dbFaults = [] → w.writeFaults = [] →
      ((HandleWalletWS cfg true (.ok id) session).steps 3 w).1.isSleeping = true ∧
      (∀ x y : ℚ,
        Event.Emit (models.balanceUpdateEvent id)
            { Wallet := models.round2 x, BetBalance := models.round2 y }
            (((HandleWalletWS cfg true (.ok id) session).steps 3 w).2.1.emitter.Emit
              (models.balanceUpdateEvent id)
              { Wallet := models.round2 x, BetBalance := models.round2 y }) ∈
          (models.UpdatePlayerBalance id x y
            ((HandleWalletWS cfg true (.ok id) session).steps 3 w).2.1).2.2 ∧
        (session, ({ Wallet := models.round2 x, BetBalance := models.round2 y } :
            EventWalletData)) ∈
          ((HandleWalletWS cfg true (.ok id) session).steps 3 w).2.1.emitter.Emit
            (models.balanceUpdateEvent id)
            { Wallet := models.round2 x, BetBalance := models.round2 y }) ∧
      (∀ (b : Int) (d : EventWalletData), b ≠ id →
        ((HandleWalletWS cfg true (.ok id) session).steps 3 w).2.1.emitter.Emit
            (models.balanceUpdateEvent b) d =
          w.emitter.Emit (models.balanceUpdateEvent b) d)) := by
  refine ⟨fun cfg upgraded token session w ev h i hmem => ?_,
    fun id x y w ev d started hmem => ?_,
    fun a b => ⟨balanceUpdateEvent_injective a b, fun hab => by rw [hab]⟩,
    fun cfg id p session w hp hf hw => ?_⟩
  · obtain ⟨h1, p, h2, h3⟩ := HandleWalletWS_topic cfg upgraded token session w ev h i hmem
    exact ⟨h1, p, h2, h3, h3⟩
  · rcases UpdatePlayerBalance_cases id x y w with ⟨w1, -, -, e, h1⟩ | ⟨w1, -, -, h1⟩
    · rw [h1] at hmem
      simp at hmem
    · rw [h1] at hmem
      simp at hmem
      obtain ⟨rfl, rfl, rfl⟩ := hmem
      exact ⟨rfl, rfl, rfl⟩
  · obtain ⟨k1, k2, -, k4, -⟩ := HandleWalletWS_listening cfg id p session w hp hf hw
    refine ⟨k1, fun x y => ⟨?_, ?_⟩, fun b d hb => ?_⟩
    · rcases UpdatePlayerBalance_cases id x y
          ((HandleWalletWS cfg true (.ok id) session).steps 3 w).2.1 with
        ⟨w1, -, -, e, h1⟩ | ⟨w1, -, -, h1⟩
      · exfalso
        have hn : ((HandleWalletWS cfg true (.ok id) session).steps 3 w).2.1.nextFault.1
            = none := by
          simp [World.nextFault, k4]
        have := congrArg Prod.fst h1
        simp [models.UpdatePlayerBalance, hn] at this
      · rw [h1]
        simp
    · rw [k2]
      exact On_then_Emit _ _ _ _
    · rw [k2]
      exact On_other_topic_Emit _ _ _ _ _
        (fun hbe => hb (balanceUpdateEvent_injective b id hbe))

/-- C23 (witness). Bob\x27s wallet session 7 is listening on the seeded store: a
commit of 310.00 / 20.00 for Bob is dispatched to session 7, and a commit for
player 3 is dispatched to nobody. -/
theorem wallet_topic_is_commit_topic_witness :
    ((7 : EventHandler), ({ Wallet := models.round2 310, BetBalance := models.round2 20 } :
        EventWalletData)) ∈
      ((HandleWalletWS sampleConfig true (.ok 2) 7).steps 3
          { players := [bob] }).2.1.emitter.Emit
        (models.balanceUpdateEvent 2)
        { Wallet := models.round2 310, BetBalance := models.round2 20 } ∧
    ((HandleWalletWS sampleConfig true (.ok 2) 7).steps 3 { players := [bob] }).2.1.emitter.Emit
        (models.balanceUpdateEvent 3) { Wallet := 700, BetBalance := 70 } = [] :=
  ⟨((wallet_topic_is_commit_topic.2.2.2 sampleConfig 2 bob 7 { players := [bob] }
      (by simp [selectRow, bob]) rfl rfl).2.1 310 20).2,
   ((wallet_topic_is_commit_topic.2.2.2 sampleConfig 2 bob 7 { players := [bob] }
      (by simp [selectRow, bob]) rfl rfl).2.2 3 { Wallet := 700, BetBalance := 70 }
      (by decide)).trans (by simp [EventEmitter.Emit, NewEventEmitter, mapGet])⟩

end Backend
